import Mathlib

/-!
# Update orchestration of edge-api: rollout status aggregation and dispatcher events

A shallow embedding of `pkg/services/updates.go`.  The persistent store that the
Go code reaches through `db.DB` is an explicit value of type `DB`; every store
call that the source checks for `result.Error` takes its outcome from a
`Faults` record, so that both branches of each check are present.
-/

namespace EdgeAPI

/-! ## Data model (package `models`) -/

/-- Modelled from the spec: the `models` package is not part of the sources at
hand; the Status of a Rollout (UpdateTransaction) ranges over Created, Building,
Success and Error. -/
inductive UpdateStatus where
  | Created
  | Building
  | Success
  | Error
  deriving DecidableEq, Repr

/-- Modelled from the spec: the Status of a DispatchRecord ranges over Created,
Running, Complete and Error. -/
inductive DispatchRecordStatus where
  | Created
  | Running
  | Complete
  | Error
  deriving DecidableEq, Repr

/-- Modelled from the spec: build status of an image; the sources at hand use
`ImageStatusBuilding`, `ImageStatusError` and `ImageStatusSuccess`. -/
inductive ImageStatus where
  | Created
  | Building
  | Error
  | Success
  deriving DecidableEq, Repr

namespace models

abbrev UpdateStatusCreated : UpdateStatus := UpdateStatus.Created
abbrev UpdateStatusBuilding : UpdateStatus := UpdateStatus.Building
abbrev UpdateStatusSuccess : UpdateStatus := UpdateStatus.Success
abbrev UpdateStatusError : UpdateStatus := UpdateStatus.Error

abbrev DispatchRecordStatusCreated : DispatchRecordStatus := DispatchRecordStatus.Created
abbrev DispatchRecordStatusRunning : DispatchRecordStatus := DispatchRecordStatus.Running
abbrev DispatchRecordStatusComplete : DispatchRecordStatus := DispatchRecordStatus.Complete
abbrev DispatchRecordStatusError : DispatchRecordStatus := DispatchRecordStatus.Error

abbrev ImageStatusSuccess : ImageStatus := ImageStatus.Success

end models

/-- Modelled from the spec: a device with the fields the update service reads
or writes (`models.Device`). -/
structure Device where
  ID : Nat
  Account : String
  RHCClientID : String
  AvailableHash : String
  CurrentHash : String
  Connected : Bool
  ImageID : Nat
  UpdateAvailable : Bool
  deriving DecidableEq, Repr

/-- Modelled from the spec: `models.Commit`, reduced to the fields used. -/
structure Commit where
  ID : Nat
  OSTreeCommit : String
  deriving DecidableEq, Repr

/-- Modelled from the spec: `models.Image`, reduced to the fields used. -/
structure Image where
  ID : Nat
  Account : String
  CommitID : Nat
  ImageSetID : Nat
  Status : ImageStatus
  CreatedAt : Nat
  deriving DecidableEq, Repr

/-- Modelled from the spec: `models.DispatchRecord`.  `DeviceID` is the stored
foreign key, `Device` the association pointer (nil unless preloaded or set). -/
structure DispatchRecord where
  ID : Nat
  PlaybookURL : String
  DeviceID : Nat
  Device : Option Device
  Status : DispatchRecordStatus
  PlaybookDispatcherID : String
  deriving DecidableEq, Repr

/-- Modelled from the spec: `models.UpdateTransaction` (the Rollout).  `Commit`,
`Devices` and `DispatchRecords` are associations, filled only by a preload. -/
structure UpdateTransaction where
  ID : Nat
  Account : String
  CommitID : Nat
  Commit : Option Commit
  Devices : List Device
  DispatchRecords : List DispatchRecord
  Status : UpdateStatus
  deriving DecidableEq, Repr

/-- Errors returned by the service. -/
inductive Err where
  | ErrRecordNotFound
  | ErrUndefinedCommit
  | ErrStore
  | ErrDecode
  | ErrCollaborator
  deriving DecidableEq, Repr

/-! ## The store -/

/-- The relational store behind `db.DB`.  Rows of `dispatch_records` and
`update_transactions` are kept with empty association fields; the two join
tables hold pairs (update transaction id, associated id).
`FullSaveAssociations` is the store configuration of that name: when it is
off, saving a value leaves the rows of already existing associated values
as they are. -/
structure DB where
  FullSaveAssociations : Bool
  devices : List Device
  dispatch_records : List DispatchRecord
  update_transactions : List UpdateTransaction
  updatetransaction_dispatchrecords : List (Nat × Nat)
  updatetransaction_devices : List (Nat × Nat)
  commits : List Commit
  images : List Image
  deriving DecidableEq, Repr

/-- Which store calls of one service call report an error (`result.Error`
non-nil for a reason other than a missing row); a failing call has no effect on
the store. -/
structure Faults where
  findDispatchRecord : Bool
  saveDispatchRecord : Bool
  findUpdate : Bool
  saveUpdate : Bool
  reloadUpdate : Bool
  findImage : Bool
  findUpdateImages : Bool
  updateDevices : Bool
  deriving DecidableEq, Repr

/-- No store call fails. -/
def noFaults : Faults :=
  ⟨false, false, false, false, false, false, false, false⟩

/-- The row with the least key among `rows` (`ORDER BY id LIMIT 1`). -/
def leastBy {α : Type} (key : α → Nat) : List α → Option α
  | [] => none
  | x :: xs =>
    match leastBy key xs with
    | none => some x
    | some y => if key x ≤ key y then some x else some y

/-- One more than the largest key in use: the next auto-increment value. -/
def nextID {α : Type} (key : α → Nat) (rows : List α) : Nat :=
  rows.foldl (fun m r => max m (key r + 1)) 1

/-- Write `r` over every row that has key `k`. -/
def replaceBy {α : Type} (key : α → Nat) (k : Nat) (r : α) (rows : List α) : List α :=
  rows.map (fun row => if key row = k then r else row)

/-- Insert-or-update by primary key: existing rows with the key of `r` are
overwritten, otherwise `r` is appended. -/
def upsert {α : Type} (key : α → Nat) (r : α) (rows : List α) : List α :=
  if rows.any (fun row => key row = key r) then replaceBy key (key r) r rows
  else rows ++ [r]

/-- Insert `r` unless a row with its key exists (`ON CONFLICT DO NOTHING`), or
overwrite that row when `full` is set. -/
def upsertAssoc {α : Type} (full : Bool) (key : α → Nat) (r : α) (rows : List α) : List α :=
  if rows.any (fun row => key row = key r) then
    (if full then replaceBy key (key r) r rows else rows)
  else rows ++ [r]

/-- Add a join row unless it is present. -/
def addJoin (p : Nat × Nat) (rows : List (Nat × Nat)) : List (Nat × Nat) :=
  if p ∈ rows then rows else rows ++ [p]


/-- Save an associated device: a device without primary key is inserted under
the next id; otherwise insert-or-keep (or overwrite, under
`FullSaveAssociations`).  Returns the device as it stands in memory. -/
def saveDeviceAssoc (full : Bool) (d : Device) (devices : List Device) :
    Device × List Device :=
  if d.ID = 0 then
    let d1 := { d with ID := nextID (fun x => x.ID) devices }
    (d1, devices ++ [d1])
  else (d, upsertAssoc full (fun x => x.ID) d devices)

/-- Save the `Device` association of a dispatch record and copy its primary
key into the record's foreign key. -/
def saveRecordDevice (full : Bool) (r : DispatchRecord) (devices : List Device) :
    DispatchRecord × List Device :=
  match r.Device with
  | none => (r, devices)
  | some d =>
    let p := saveDeviceAssoc full d devices
    ({ r with Device := some p.1, DeviceID := p.1.ID }, p.2)

/-- Give a record without primary key the next id of the table. -/
def assignRecordID (r : DispatchRecord) (rows : List DispatchRecord) : DispatchRecord :=
  if r.ID = 0 then { r with ID := nextID (fun x => x.ID) rows } else r

/-- The row stored for a dispatch record: its columns, without the association. -/
def DispatchRecord.row (r : DispatchRecord) : DispatchRecord :=
  { r with Device := none }

/-- The row stored for an update transaction: its columns only. -/
def UpdateTransaction.row (u : UpdateTransaction) : UpdateTransaction :=
  { u with Commit := none, Devices := [], DispatchRecords := [] }

/-- `db.DB.Save(&dispatchRecord)`: the associated device is saved first, then
every column of the record is written under its primary key. -/
def DB.SaveDispatchRecord (db : DB) (r : DispatchRecord) : DispatchRecord × DB :=
  let p := saveRecordDevice db.FullSaveAssociations r db.devices
  let r2 := assignRecordID p.1 db.dispatch_records
  (r2, { db with
    devices := p.2
    dispatch_records := upsert (fun x => x.ID) r2.row db.dispatch_records })

/-- Save one dispatch record as an association of update transaction `uid`:
the record is inserted when new and otherwise kept (or overwritten under
`FullSaveAssociations`), and the join row is added. -/
def saveRecordAssoc (uid : Nat) (acc : List DispatchRecord × DB) (r : DispatchRecord) :
    List DispatchRecord × DB :=
  let db := acc.2
  let p := saveRecordDevice db.FullSaveAssociations r db.devices
  let r2 := assignRecordID p.1 db.dispatch_records
  (acc.1 ++ [r2], { db with
    devices := p.2
    dispatch_records :=
      upsertAssoc db.FullSaveAssociations (fun x => x.ID) r2.row db.dispatch_records
    updatetransaction_dispatchrecords :=
      addJoin (uid, r2.ID) db.updatetransaction_dispatchrecords })

/-- Save one device as an association of update transaction `uid`. -/
def saveUpdateDevice (uid : Nat) (acc : List Device × DB) (d : Device) : List Device × DB :=
  let db := acc.2
  let p := saveDeviceAssoc db.FullSaveAssociations d db.devices
  (acc.1 ++ [p.1], { db with
    devices := p.2
    updatetransaction_devices := addJoin (uid, p.1.ID) db.updatetransaction_devices })

/-- Save the `Commit` association of an update transaction. -/
def saveUpdateCommit (full : Bool) (u : UpdateTransaction) (commits : List Commit) :
    UpdateTransaction × List Commit :=
  match u.Commit with
  | none => (u, commits)
  | some c =>
    if c.ID = 0 then
      let c1 := { c with ID := nextID (fun x => x.ID) commits }
      ({ u with Commit := some c1, CommitID := c1.ID }, commits ++ [c1])
    else ({ u with CommitID := c.ID }, upsertAssoc full (fun x => x.ID) c commits)

/-- `db.DB.Save(update)`: the commit is saved first, the columns of the update
transaction are written under its primary key (a fresh one when it has none),
then its devices and dispatch records are saved as associations. -/
def DB.SaveUpdate (db : DB) (u : UpdateTransaction) : UpdateTransaction × DB :=
  let pc := saveUpdateCommit db.FullSaveAssociations u db.commits
  let u1 := pc.1
  let u2 := if u1.ID = 0 then { u1 with ID := nextID (fun x => x.ID) db.update_transactions }
            else u1
  let db1 := { db with
    commits := pc.2
    update_transactions := upsert (fun x => x.ID) u2.row db.update_transactions }
  let pd := u2.Devices.foldl (saveUpdateDevice u2.ID) ([], db1)
  let pr := u2.DispatchRecords.foldl (saveRecordAssoc u2.ID) ([], pd.2)
  ({ u2 with Devices := pd.1, DispatchRecords := pr.1 }, pr.2)

/-- `db.DB.Where(&models.DispatchRecord{PlaybookDispatcherID: id}).Preload("Device").First(..)`.
A struct condition only constrains the fields that are not the zero value, so
the empty id puts no condition on the rows.  The row with the least primary
key is returned, with its device loaded by foreign key. -/
def DB.FirstDispatchRecord (db : DB) (fault : Bool) (id : String) : Except Err DispatchRecord :=
  if fault then .error Err.ErrStore
  else
    let rows := if id = "" then db.dispatch_records
                else db.dispatch_records.filter (fun r => r.PlaybookDispatcherID = id)
    match leastBy (fun r => r.ID) rows with
    | none => .error Err.ErrRecordNotFound
    | some r => .ok { r with Device := db.devices.find? (fun d => d.ID = r.DeviceID) }

/-- The dispatch records joined to update transaction `uid` (`Preload("DispatchRecords")`). -/
def DB.preloadDispatchRecords (db : DB) (uid : Nat) : List DispatchRecord :=
  db.dispatch_records.filter (fun r => (uid, r.ID) ∈ db.updatetransaction_dispatchrecords)

/-- The devices joined to update transaction `uid` (`Preload("Devices")`). -/
def DB.preloadDevices (db : DB) (uid : Nat) : List Device :=
  db.devices.filter (fun d => (uid, d.ID) ∈ db.updatetransaction_devices)

/-- The update transaction joined to dispatch record `rid`, least primary
key first: its columns, with the dispatch records preloaded. -/
def DB.FirstUpdateByDispatchRecord (db : DB) (fault : Bool) (rid : Nat) :
    Except Err UpdateTransaction :=
  if fault then .error Err.ErrStore
  else
    match leastBy (fun u => u.ID)
        (db.update_transactions.filter
          (fun u => (u.ID, rid) ∈ db.updatetransaction_dispatchrecords)) with
    | none => .error Err.ErrRecordNotFound
    | some u => .ok { u.row with DispatchRecords := db.preloadDispatchRecords u.ID }

/-! ## The update service -/

/-- The part of `UpdateService` the modelled methods read. -/
structure UpdateService where
  WaitForReboot : Nat
  deriving DecidableEq, Repr

/-- The store together with the time spent in `time.Sleep`. -/
structure World where
  db : DB
  slept : Nat
  deriving DecidableEq, Repr

/-- Payload of a playbook dispatcher run event. -/
structure PlaybookDispatcherEventPayload where
  ID : String
  Account : String
  Recipient : String
  CorrelationID : String
  Service : String
  URL : String
  Status : String
  Timeout : Int
  deriving DecidableEq, Repr

/-- The event sent when a playbook run changes state. -/
structure PlaybookDispatcherEvent where
  EventType : String
  Payload : PlaybookDispatcherEventPayload
  deriving DecidableEq, Repr

/-- How a call ends: it returns nil, returns an error, or the goroutine panics
on a nil pointer dereference. -/
inductive Outcome where
  | nil
  | error (e : Err)
  | panic
  deriving DecidableEq, Repr

def PlaybookStatusRunning : String := "running"
def PlaybookStatusSuccess : String := "success"
def PlaybookStatusFailure : String := "failure"
def PlaybookStatusTimeout : String := "timeout"

/-- The constant `os.DevNull`. -/
def os.DevNull : String := "/dev/null"

/-- The loop of `SetUpdateStatus` over the dispatch records, on the pair
(`allSuccess`, `update.Status`); it stops at the first record in Error. -/
def SetUpdateStatus.loop :
    List DispatchRecord → Bool → UpdateStatus → Bool × UpdateStatus
  | [], allSuccess, status => (allSuccess, status)
  | d :: ds, allSuccess, status =>
    let allSuccess1 :=
      if d.Status ≠ models.DispatchRecordStatusComplete then false else allSuccess
    if d.Status = models.DispatchRecordStatusError then
      (allSuccess1, models.UpdateStatusError)
    else SetUpdateStatus.loop ds allSuccess1 status

/-- `SetUpdateStatus`: sets the status of the update transaction from its
dispatch records and saves it.  Returns the update as the caller sees it
afterwards, the store and the error. -/
def SetUpdateStatus (f : Faults) (update : UpdateTransaction) (db : DB) :
    UpdateTransaction × DB × Option Err :=
  let r := SetUpdateStatus.loop update.DispatchRecords true update.Status
  let update1 := { update with Status := r.2 }
  let update2 :=
    if r.1 then { update1 with Status := models.UpdateStatusSuccess } else update1
  if f.saveUpdate then (update2, db, some Err.ErrStore)
  else
    let p := db.SaveUpdate update2
    (p.1, p.2, none)

/-- `UpdateDevicesFromUpdateTransaction`: for a successful update, point its
devices at the image of the update's commit and set their update
availability. -/
def UpdateDevicesFromUpdateTransaction (f : Faults) (update : UpdateTransaction) (db : DB) :
    DB × Option Err :=
  if update.Status ≠ models.UpdateStatusSuccess then (db, none)
  else if f.reloadUpdate then (db, some Err.ErrStore)
  else
    match leastBy (fun u => u.ID)
        (db.update_transactions.filter
          (fun u => u.Account = update.Account ∧ u.ID = update.ID)) with
    | none => (db, some Err.ErrRecordNotFound)
    | some row =>
      let currentUpdate := { row with
        Devices := db.preloadDevices row.ID
        Commit := db.commits.find? (fun c => c.ID = row.CommitID) }
      match currentUpdate.Commit with
      | none => (db, some Err.ErrUndefinedCommit)
      | some commit =>
        if f.findImage then (db, some Err.ErrStore)
        else
          match leastBy (fun i => i.ID)
              (db.images.filter (fun i =>
                i.Account = currentUpdate.Account ∧
                db.commits.any (fun c =>
                  c.ID = i.CommitID ∧ c.OSTreeCommit = commit.OSTreeCommit))) with
          | none => (db, some Err.ErrRecordNotFound)
          | some deviceImage =>
            if f.findUpdateImages then (db, some Err.ErrStore)
            else
              let updateImages := db.images.filter (fun i =>
                i.Account = deviceImage.Account ∧ i.ImageSetID = deviceImage.ImageSetID ∧
                i.Status = models.ImageStatusSuccess ∧ i.CreatedAt > deviceImage.CreatedAt)
              let updateAvailable : Bool := updateImages.length > 0
              let devicesIDS := currentUpdate.Devices.map (fun d => d.ID)
              if f.updateDevices then (db, some Err.ErrStore)
              else
                ({ db with devices := db.devices.map (fun d =>
                    if d.Account = deviceImage.Account ∧ d.ID ∈ devicesIDS then
                      { d with ImageID := deviceImage.ID, UpdateAvailable := updateAvailable }
                    else d) }, none)

/-- `SetUpdateStatusBasedOnDispatchRecord`: finds the update transaction of a
dispatch record, recomputes its status and, on success, updates the devices. -/
def SetUpdateStatusBasedOnDispatchRecord (f : Faults) (dispatchRecord : DispatchRecord)
    (db : DB) : DB × Option Err :=
  match db.FirstUpdateByDispatchRecord f.findUpdate dispatchRecord.ID with
  | .error e => (db, some e)
  | .ok update =>
    match SetUpdateStatus f update db with
    | (_, db1, some e) => (db1, some e)
    | (update1, db1, none) => UpdateDevicesFromUpdateTransaction f update1 db1

/-- Lines 336 to 349 of `ProcessPlaybookDispatcherRunEvent`: the status of
the event applied to the dispatch record in memory.  The result is `none` when
the success branch dereferences a nil `Device`. -/
def applyPlaybookStatus (status : String) (dispatchRecord : DispatchRecord) :
    Option DispatchRecord :=
  if status = PlaybookStatusFailure ∨ status = PlaybookStatusTimeout then
    some { dispatchRecord with Status := models.DispatchRecordStatusError }
  else if status = PlaybookStatusSuccess then
    match dispatchRecord.Device with
    | none => none
    | some device =>
      let device1 := { device with AvailableHash := os.DevNull }
      let device2 := { device1 with CurrentHash := device1.AvailableHash }
      some { dispatchRecord with
        Status := models.DispatchRecordStatusComplete, Device := some device2 }
  else if status = PlaybookStatusRunning then
    some { dispatchRecord with Status := models.DispatchRecordStatusRunning }
  else
    some { dispatchRecord with Status := models.DispatchRecordStatusError }

/-- The body of `ProcessPlaybookDispatcherRunEvent` after decoding, on the
decoded event. -/
def processEvent (s : UpdateService) (f : Faults) (e : PlaybookDispatcherEvent) (w : World) :
    World × Outcome :=
  if e.Payload.Status = PlaybookStatusRunning then (w, Outcome.nil)
  else
    let w1 :=
      if e.Payload.Status = PlaybookStatusSuccess then
        { w with slept := w.slept + s.WaitForReboot }
      else w
    match w1.db.FirstDispatchRecord f.findDispatchRecord e.Payload.ID with
    | .error err => (w1, Outcome.error err)
    | .ok dispatchRecord =>
      match applyPlaybookStatus e.Payload.Status dispatchRecord with
      | none => (w1, Outcome.panic)
      | some dispatchRecord1 =>
        if f.saveDispatchRecord then (w1, Outcome.error Err.ErrStore)
        else
          let p := w1.db.SaveDispatchRecord dispatchRecord1
          match SetUpdateStatusBasedOnDispatchRecord f p.1 p.2 with
          | (db2, none) => ({ w1 with db := db2 }, Outcome.nil)
          | (db2, some err) => ({ w1 with db := db2 }, Outcome.error err)

/-- `ProcessPlaybookDispatcherRunEvent`: processes one message of the playbook
dispatcher.  `unmarshal` stands for `json.Unmarshal` into the nil pointer `e`:
an error, or the pointer afterwards (still nil for the JSON literal null). -/
def ProcessPlaybookDispatcherRunEvent (s : UpdateService) (f : Faults)
    (unmarshal : List Nat → Except Err (Option PlaybookDispatcherEvent))
    (message : List Nat) (w : World) : World × Outcome :=
  match unmarshal message with
  | .error err => (w, Outcome.error err)
  | .ok none => (w, Outcome.panic)
  | .ok (some e) => processEvent s f e w

/-- The goroutine started by `CreateUpdate`, from the moment a signal
arrives: the update is reloaded (a failing reload leaves it as it is in
memory) and, when still Building, marked Error and saved. -/
def interruptionWatcher (saveFails : Bool) (update : UpdateTransaction) (db : DB) : DB :=
  let update1 :=
    match db.update_transactions.find? (fun u => u.ID = update.ID) with
    | none => update
    | some row => { update with
        Account := row.Account, CommitID := row.CommitID, Status := row.Status }
  if update1.Status = models.UpdateStatusBuilding then
    if saveFails then db
    else (db.SaveUpdate { update1 with Status := models.UpdateStatusError }).2
  else db

/-- The status stored for update transaction `id`, if it has a row. -/
def DB.statusOf (db : DB) (id : Nat) : Option UpdateStatus :=
  (db.update_transactions.find? (fun u => u.ID = id)).map (fun u => u.Status)

/-- The status stored for dispatch record `id`, if it has a row. -/
def DB.recordStatusOf (db : DB) (id : Nat) : Option DispatchRecordStatus :=
  (db.dispatch_records.find? (fun r => r.ID = id)).map (fun r => r.Status)

/-- The device stored under `id`, if any. -/
def DB.deviceOf (db : DB) (id : Nat) : Option Device :=
  db.devices.find? (fun d => d.ID = id)

/-- A well-formed store: primary keys are unique within each table and never
zero, and the rows of dispatch records carry no association. -/
def DB.wf (db : DB) : Prop :=
  (db.dispatch_records.map (fun r => r.ID)).Nodup ∧
  (db.update_transactions.map (fun u => u.ID)).Nodup ∧
  (db.devices.map (fun d => d.ID)).Nodup ∧
  (∀ r ∈ db.dispatch_records, r.ID ≠ 0 ∧ r.Device = none) ∧
  (∀ u ∈ db.update_transactions, u.ID ≠ 0) ∧
  (∀ d ∈ db.devices, d.ID ≠ 0)

instance (db : DB) : Decidable db.wf := by
  unfold DB.wf
  infer_instance

/-- The rows of dispatch records with the status of record `id` set to `s`. -/
def setRecordStatus (id : Nat) (s : DispatchRecordStatus) (rows : List DispatchRecord) :
    List DispatchRecord :=
  rows.map (fun x => if x.ID = id then { x with Status := s } else x)

/-- What `SetUpdateStatus` computes from a prior status and a list of dispatch
records, read off its loop: Error when a record is in Error, else Success when
all are Complete, else the prior status. -/
def aggregate (prior : UpdateStatus) (rs : List DispatchRecord) : UpdateStatus :=
  if rs.any (fun d => d.Status = DispatchRecordStatus.Error) then UpdateStatus.Error
  else if rs.all (fun d => d.Status = DispatchRecordStatus.Complete) then UpdateStatus.Success
  else prior

/-- The dispatch record status that lines 336 to 349 assign for an event status. -/
def statusFor (status : String) : DispatchRecordStatus :=
  if status = PlaybookStatusFailure ∨ status = PlaybookStatusTimeout then
    DispatchRecordStatus.Error
  else if status = PlaybookStatusSuccess then DispatchRecordStatus.Complete
  else if status = PlaybookStatusRunning then DispatchRecordStatus.Running
  else DispatchRecordStatus.Error

/-- The device of a dispatch record after the success branch: `AvailableHash`
is overwritten first and then copied into `CurrentHash`. -/
def stampDevice (device : Device) : Device :=
  { device with AvailableHash := os.DevNull, CurrentHash := os.DevNull }

/-- The devices table after `Save(&dispatchRecord)` for a record carrying
`dev`: an existing device row is overwritten only under `FullSaveAssociations`. -/
def devicesAfterSave (db : DB) (dev : Option Device) : List Device :=
  match dev with
  | none => db.devices
  | some d => upsertAssoc db.FullSaveAssociations (fun x => x.ID) d db.devices

/-- The fields of a device that the event processor may write, with its key. -/
def Device.hashes (d : Device) : Nat × String × String :=
  (d.ID, d.AvailableHash, d.CurrentHash)

/-- The `Device` pointer of the dispatch record in memory after lines 336 to
349: stamped on success, otherwise as loaded. -/
def eventDevice (status : String) (r : DispatchRecord) : Option Device :=
  if statusFor status = DispatchRecordStatus.Complete then r.Device.map stampDevice
  else r.Device

/-- The store after `Save(&dispatchRecord)` for the record `r` that the lookup
returned, once the event status `status` has been applied to it. -/
def recordSaved (db : DB) (status : String) (r : DispatchRecord) : DB :=
  { db with
    devices := devicesAfterSave db (eventDevice status r)
    dispatch_records := setRecordStatus r.ID (statusFor status) db.dispatch_records }

/-- The time slept for an event: the grace delay `WaitForReboot` for a success
event, nothing otherwise. -/
def graceDelay (s : UpdateService) (status : String) : Nat :=
  if status = PlaybookStatusSuccess then s.WaitForReboot else 0

/-! ## The steps of `UpdateDevicesFromUpdateTransaction` -/

/-- The update transaction as line 493 reloads it: the row of that account and
id, with its devices and its commit; `none` when there is no such row. -/
def DB.reloadUpdate (db : DB) (update : UpdateTransaction) : Option UpdateTransaction :=
  (leastBy (fun u => u.ID)
      (db.update_transactions.filter
        (fun u => u.Account = update.Account ∧ u.ID = update.ID))).map
    (fun row => { row with
      Devices := db.preloadDevices row.ID
      Commit := db.commits.find? (fun c => c.ID = row.CommitID) })

/-- The image of a commit (lines 503 to 506): the image of the account that is
joined to a commit with the same `OSTreeCommit`, least primary key first. -/
def DB.deviceImage (db : DB) (account : String) (commit : Commit) : Option Image :=
  leastBy (fun i => i.ID)
    (db.images.filter (fun i =>
      i.Account = account ∧
      db.commits.any (fun c => c.ID = i.CommitID ∧ c.OSTreeCommit = commit.OSTreeCommit)))

/-- The later images of an image (lines 513 to 515): same account, same image
set, status Success, created strictly later. -/
def DB.updateImages (db : DB) (deviceImage : Image) : List Image :=
  db.images.filter (fun i =>
    i.Account = deviceImage.Account ∧ i.ImageSetID = deviceImage.ImageSetID ∧
    i.Status = models.ImageStatusSuccess ∧ i.CreatedAt > deviceImage.CreatedAt)

/-- The bulk write of lines 528 to 530 applied to one device row. -/
def updateDeviceRow (account : String) (devicesIDS : List Nat) (imageID : Nat)
    (updateAvailable : Bool) (d : Device) : Device :=
  if d.Account = account ∧ d.ID ∈ devicesIDS then
    { d with ImageID := imageID, UpdateAvailable := updateAvailable }
  else d

/-! ## Validating a selection of images -/

/-- `ValidateUpdateSelection`: counts the groups by `image_set_id` of the
images of the account whose id is among `imageIds` (with a `GROUP BY` the
count is the number of groups) and tells whether there is exactly one. -/
def ValidateUpdateSelection (fault : Bool) (account : String) (imageIds : List Nat)
    (db : DB) : Bool × Option Err :=
  if fault then (false, some Err.ErrStore)
  else
    let count :=
      ((db.images.filter (fun i => i.ID ∈ imageIds ∧ i.Account = account)).map
        (fun i => i.ImageSetID)).dedup.length
    (count == 1, none)

/-! ## Creating an update -/

/-- The part of the configuration that `getPlaybookURL` reads. -/
structure Config where
  EdgeAPIBaseURL : String
  deriving DecidableEq, Repr

/-- `TemplateRemoteInfo`: the values handed to the playbook template. -/
structure TemplateRemoteInfo where
  RemoteName : String
  RemoteURL : String
  ContentURL : String
  GpgVerify : String
  UpdateTransactionID : Nat
  deriving DecidableEq, Repr

/-- Modelled from the spec: the repository of an update (`models.Repo`),
reduced to its URL. -/
structure Repo where
  URL : String
  deriving DecidableEq, Repr

/-- Modelled from the spec: the request sent to the playbook dispatcher
(`playbookdispatcher.DispatcherPayload`). -/
structure DispatcherPayload where
  Recipient : String
  PlaybookURL : String
  Account : String
  deriving DecidableEq, Repr

/-- Modelled from the spec: one response of the playbook dispatcher, with its
HTTP status code and the id of the run it created. -/
structure DispatcherResponse where
  StatusCode : Nat
  PlaybookDispatcherID : String
  deriving DecidableEq, Repr

/-- The constant `http.StatusCreated`. -/
def http.StatusCreated : Nat := 201

/-- Which file and upload steps of `WriteTemplate` fail. -/
structure TemplateFaults where
  parseFiles : Bool
  createFile : Bool
  execute : Bool
  uploadFile : Bool
  deriving DecidableEq, Repr

/-- The collaborators and store outcomes of one `CreateUpdate` call:
`build` is what `RepoBuilder.BuildUpdateRepo` returns (the update and its
`Repo` pointer, or an error), `ExecuteDispatcher` the dispatcher client;
`saveBuilding`, `saveError` and `saveDevice i` say whether the unchecked saves
fail (line 108, the error paths, the device saves for the device at index
`i`), and `statusFaults i` are the store outcomes of `SetUpdateStatus` for the
device at index `i`. -/
structure CreateEnv where
  cfg : Config
  build : Except Err (UpdateTransaction × Option Repo)
  template : TemplateFaults
  ExecuteDispatcher : DispatcherPayload → Except Err (List DispatcherResponse)
  saveBuilding : Bool
  saveError : Bool
  saveDevice : Nat → Bool
  statusFaults : Nat → Faults

/-- `getPlaybookURL`. -/
def getPlaybookURL (cfg : Config) (updateID : Nat) : String :=
  cfg.EdgeAPIBaseURL ++ "/api/edge/v1/updates/" ++ toString updateID ++ "/update-playbook.yml"

/-- `WriteTemplate`, reduced to its result: the first failing step returns its
error, otherwise the proxied playbook URL is returned.  The rendered file is
not part of the store and is left out. -/
def WriteTemplate (cfg : Config) (t : TemplateFaults) (templateInfo : TemplateRemoteInfo)
    (_account : String) : Except Err String :=
  if t.parseFiles then .error Err.ErrCollaborator
  else if t.createFile then .error Err.ErrCollaborator
  else if t.execute then .error Err.ErrCollaborator
  else if t.uploadFile then .error Err.ErrCollaborator
  else .ok (getPlaybookURL cfg templateInfo.UpdateTransactionID)

/-- `db.DB.Save(&device)`: every column of the device is written under its
primary key (a fresh one when it has none). -/
def DB.SaveDevice (db : DB) (d : Device) : Device × DB :=
  if d.ID = 0 then
    let d1 := { d with ID := nextID (fun x => x.ID) db.devices }
    (d1, { db with devices := db.devices ++ [d1] })
  else (d, { db with devices := upsert (fun x => x.ID) d db.devices })

/-- The update transaction `id` as line 106 loads it, with the status then
assigned to it: its columns with the dispatch records, the devices and the
commit, or the zero value when there is no such row. -/
def DB.FindUpdate (db : DB) (id : Nat) (status : UpdateStatus) : UpdateTransaction :=
  match db.update_transactions.find? (fun u => u.ID = id) with
  | none => ⟨0, "", 0, none, [], [], status⟩
  | some row =>
    { row with
      Commit := db.commits.find? (fun c => c.ID = row.CommitID)
      Devices := db.preloadDevices row.ID
      DispatchRecords := db.preloadDispatchRecords row.ID
      Status := status }

/-- The inner loop of the fan-out (lines 180 to 200) for one device: every
response sets `Connected`, appends a dispatch record and saves the device.
The records are returned without their `Device` pointer, which points to the
one `device` variable of the iteration. -/
def CreateUpdate.responses (playbookURL : String) (saveFails : Bool) :
    List DispatcherResponse → Device → List DispatchRecord → DB →
      Device × List DispatchRecord × DB
  | [], device, records, db => (device, records, db)
  | excPlaybook :: rest, device, records, db =>
    let p : Device × DispatchRecord :=
      if excPlaybook.StatusCode = http.StatusCreated then
        ({ device with Connected := true },
          ⟨0, playbookURL, 0, none, models.DispatchRecordStatusCreated,
            excPlaybook.PlaybookDispatcherID⟩)
      else
        ({ device with Connected := false },
          ⟨0, playbookURL, 0, none, models.DispatchRecordStatusError, ""⟩)
    let q := if saveFails then (p.1, db) else db.SaveDevice p.1
    CreateUpdate.responses playbookURL saveFails rest q.1 (records ++ [p.2]) q.2

/-- The loop over the devices of the update (lines 161 to 207); `n` bounds the
number of devices still to visit and `i` is the index of the next one.  The
last component of the result lists the requests sent to the dispatcher, in
order. -/
def CreateUpdate.fanOut (env : CreateEnv) (playbookURL : String) :
    Nat → Nat → UpdateTransaction → DB →
      DB × Option UpdateTransaction × Option Err × List DispatcherPayload
  | 0, _, update, db => (db, some update, none, [])
  | n + 1, i, update, db =>
    match update.Devices.drop i with
    | [] => (db, some update, none, [])
    | device :: _ =>
      let payloadDispatcher : DispatcherPayload :=
        ⟨device.RHCClientID, playbookURL, update.Account⟩
      match env.ExecuteDispatcher payloadDispatcher with
      | .error err =>
        let update1 := { update with Status := models.UpdateStatusError }
        ((if env.saveError then db else (db.SaveUpdate update1).2), none, some err,
          [payloadDispatcher])
      | .ok exc =>
        let p := CreateUpdate.responses playbookURL (env.saveDevice i) exc device [] db
        let dispatchRecords :=
          update.DispatchRecords ++ p.2.1.map (fun r => { r with Device := some p.1 })
        let update1 := { update with DispatchRecords := dispatchRecords }
        match SetUpdateStatus (env.statusFaults i) update1 p.2.2 with
        | (_, db2, some err) => (db2, none, some err, [payloadDispatcher])
        | (update2, db2, none) =>
          let rest := CreateUpdate.fanOut env playbookURL n (i + 1) update2 db2
          (rest.1, rest.2.1, rest.2.2.1, payloadDispatcher :: rest.2.2.2)

/-- `CreateUpdate`: marks the update Building, has the repository built and
the playbook written, then sends one request per device to the playbook
dispatcher and records the answers.  The watcher goroutine is
`interruptionWatcher`.  A nil `Repo` makes line 148 panic; the deferred
function recovers and the call returns nil and no error.  The result is the
store, the returned update, the returned error and the requests sent to the
dispatcher. -/
def CreateUpdate (env : CreateEnv) (id : Nat) (db : DB) :
    DB × Option UpdateTransaction × Option Err × List DispatcherPayload :=
  let update0 := db.FindUpdate id models.UpdateStatusBuilding
  let db0 := if env.saveBuilding then db else (db.SaveUpdate update0).2
  match env.build with
  | .error err =>
    let update1 : UpdateTransaction :=
      match db0.update_transactions.find? (fun u => u.ID = id) with
      | none => ⟨0, "", 0, none, [], [], models.UpdateStatusError⟩
      | some row => { row.row with Status := models.UpdateStatusError }
    ((if env.saveError then db0 else (db0.SaveUpdate update1).2), none, some err, [])
  | .ok (_, none) => (db0, none, none, [])
  | .ok (update, some repo) =>
    match WriteTemplate env.cfg env.template
        ⟨"rhel-edge", repo.URL, repo.URL, "false", update.ID⟩ update.Account with
    | .error err =>
      let update1 := { update with Status := models.UpdateStatusError }
      ((if env.saveError then db0 else (db0.SaveUpdate update1).2), none, some err, [])
    | .ok playbookURL =>
      CreateUpdate.fanOut env playbookURL update.Devices.length 0 update db0

/-! ## A small store used in the examples -/

/-- A store with two devices, one update transaction in status `st` and its two
dispatch records `run-1` and `run-2` in statuses `s1` and `s2`. -/
def exampleDB (full : Bool) (s1 s2 : DispatchRecordStatus) (st : UpdateStatus) : DB :=
  { FullSaveAssociations := full
    devices := [⟨1, "acc", "rhc-1", "abc", "old", true, 0, false⟩,
                ⟨2, "acc", "rhc-2", "abc", "old", true, 0, false⟩]
    dispatch_records := [⟨1, "url", 1, none, s1, "run-1"⟩, ⟨2, "url", 2, none, s2, "run-2"⟩]
    update_transactions := [⟨1, "acc", 1, none, [], [], st⟩]
    updatetransaction_dispatchrecords := [(1, 1), (1, 2)]
    updatetransaction_devices := [(1, 1), (1, 2)]
    commits := [⟨1, "ost"⟩]
    images := [⟨1, "acc", 1, 1, ImageStatus.Success, 5⟩] }

/-- An event with dispatcher id `id` and status `status`. -/
def exampleEvent (id status : String) : PlaybookDispatcherEvent :=
  ⟨"", ⟨id, "acc", "", "", "", "", status, 0⟩⟩

/-- A decoder that yields the event `e` for every message. -/
def decodesTo (e : PlaybookDispatcherEvent) :
    List Nat → Except Err (Option PlaybookDispatcherEvent) :=
  fun _ => .ok (some e)

/-- A service with a grace delay of 300. -/
def exampleService : UpdateService := ⟨300⟩

/-- A store with two devices and one update transaction, just created, that
has no dispatch records yet. -/
def exampleFreshDB : DB :=
  { FullSaveAssociations := false
    devices := [⟨1, "acc", "rhc-1", "abc", "old", false, 0, false⟩,
                ⟨2, "acc", "rhc-2", "abc", "old", false, 0, false⟩]
    dispatch_records := []
    update_transactions := [⟨1, "acc", 1, none, [], [], UpdateStatus.Created⟩]
    updatetransaction_dispatchrecords := []
    updatetransaction_devices := [(1, 1), (1, 2)]
    commits := [⟨1, "ost"⟩]
    images := [⟨1, "acc", 1, 1, ImageStatus.Success, 5⟩] }

/-- Collaborators for `exampleFreshDB`: the build returns `build`, the template
is written, the dispatcher accepts every device with one response of status
201, and no store call fails. -/
def exampleEnv (build : Except Err (UpdateTransaction × Option Repo)) : CreateEnv :=
  { cfg := ⟨"https://edge"⟩
    build := build
    template := ⟨false, false, false, false⟩
    ExecuteDispatcher := fun p => .ok [⟨201, "run-" ++ p.Recipient⟩]
    saveBuilding := false
    saveError := false
    saveDevice := fun _ => false
    statusFaults := fun _ => noFaults }

/-- The build of update 1 of `exampleFreshDB` succeeds. -/
def exampleBuilt : Except Err (UpdateTransaction × Option Repo) :=
  .ok (exampleFreshDB.FindUpdate 1 UpdateStatus.Building, some ⟨"repo"⟩)

/-- A dispatch record as a save leaves it in memory: it has a primary key, and
the device it points to has one too, which the foreign key repeats. -/
def DispatchRecord.saved (r : DispatchRecord) : Prop :=
  r.ID ≠ 0 ∧ ∀ d, r.Device = some d → d.ID ≠ 0 ∧ r.DeviceID = d.ID

/-- An update transaction as `Save` leaves it in memory: it and all its
associations have primary keys and the foreign keys repeat them. -/
def UpdateTransaction.saved (u : UpdateTransaction) : Prop :=
  u.ID ≠ 0 ∧ (∀ c, u.Commit = some c → c.ID ≠ 0 ∧ u.CommitID = c.ID) ∧
  (∀ d ∈ u.Devices, d.ID ≠ 0) ∧ (∀ r ∈ u.DispatchRecords, r.saved)

/-- A store for the device update: update 1 of account `acc`, in Success, has
devices 1 (of `acc`) and 2 (of another account) in its device set; device 3 of
`acc` is outside the set; image 1 is the image of the update's commit and
`more` are the other images. -/
def exampleFleetDB (more : List Image) : DB :=
  { FullSaveAssociations := false
    devices := [⟨1, "acc", "rhc-1", "abc", "old", true, 0, false⟩,
                ⟨2, "other", "rhc-2", "abc", "old", true, 0, false⟩,
                ⟨3, "acc", "rhc-3", "abc", "old", true, 0, false⟩]
    dispatch_records := []
    update_transactions := [⟨1, "acc", 1, none, [], [], UpdateStatus.Success⟩]
    updatetransaction_dispatchrecords := []
    updatetransaction_devices := [(1, 1), (1, 2)]
    commits := [⟨1, "ost"⟩]
    images := ⟨7, "acc", 1, 1, ImageStatus.Success, 5⟩ :: more }

/-- Update 1 of `exampleFleetDB` as the caller holds it, with status `st`. -/
def exampleFleetUpdate (st : UpdateStatus) : UpdateTransaction :=
  ⟨1, "acc", 1, none, [], [], st⟩

/-- A store with images 1 and 2 of image set 1 and image 3 of image set 2, all
of account `acc`, and image 4 of image set 3 of another account. -/
def exampleImagesDB : DB :=
  { FullSaveAssociations := false
    devices := []
    dispatch_records := []
    update_transactions := []
    updatetransaction_dispatchrecords := []
    updatetransaction_devices := []
    commits := []
    images := [⟨1, "acc", 1, 1, ImageStatus.Success, 1⟩, ⟨2, "acc", 2, 1, ImageStatus.Success, 2⟩,
               ⟨3, "acc", 3, 2, ImageStatus.Success, 3⟩, ⟨4, "other", 4, 3, ImageStatus.Success, 4⟩] }

/-- Collaborators for `exampleFreshDB` whose template cannot be uploaded. -/
def exampleEnvNoTemplate : CreateEnv :=
  { exampleEnv exampleBuilt with template := ⟨false, false, false, true⟩ }


/-- Collaborators for `exampleFreshDB` whose dispatcher answers the request
for device `rhc-1` with status 500 and accepts every other device. -/
def exampleEnvRefused : CreateEnv :=
  { exampleEnv exampleBuilt with
    ExecuteDispatcher := fun p =>
      if p.Recipient = "rhc-1" then .ok [⟨500, ""⟩]
      else .ok [⟨201, "run-" ++ p.Recipient⟩] }

/-! ## A run of events -/

/-- Modelled from the spec: the caller of `ProcessPlaybookDispatcherRunEvent`,
the consumer of the dispatcher's messages, is not part of the sources at hand.
Events are processed one at a time: the messages are handed to
`ProcessPlaybookDispatcherRunEvent` one after the other, each call with its own
store outcomes, and the result is the world after the last message. -/
def processEvents (s : UpdateService)
    (unmarshal : List Nat → Except Err (Option PlaybookDispatcherEvent)) :
    List (Faults × List Nat) → World → World
  | [], w => w
  | p :: rest, w =>
    processEvents s unmarshal rest
      (ProcessPlaybookDispatcherRunEvent s p.1 unmarshal p.2 w).1

/-- In the store, dispatcher id `pid` is carried by dispatch record `k` and by no
other, and record `k` is joined to update transaction `uid` and to no other. -/
def DB.identifies (db : DB) (pid : String) (k uid : Nat) : Prop :=
  (∀ r ∈ db.dispatch_records, r.PlaybookDispatcherID = pid ↔ r.ID = k) ∧
  (∃ r ∈ db.dispatch_records, r.ID = k) ∧
  (∀ u ∈ db.update_transactions,
    (u.ID, k) ∈ db.updatetransaction_dispatchrecords ↔ u.ID = uid) ∧
  (∃ u ∈ db.update_transactions, u.ID = uid)

instance (db : DB) (pid : String) (k uid : Nat) : Decidable (db.identifies pid k uid) := by
  unfold DB.identifies
  infer_instance

/-- A store with one update transaction, being built, for three devices, with
one dispatch record per device, `run-1` to `run-3`, all Created. -/
def exampleRolloutDB : DB :=
  { FullSaveAssociations := false
    devices := [⟨1, "acc", "rhc-1", "abc", "old", true, 0, false⟩,
                ⟨2, "acc", "rhc-2", "abc", "old", true, 0, false⟩,
                ⟨3, "acc", "rhc-3", "abc", "old", true, 0, false⟩]
    dispatch_records := [⟨1, "url", 1, none, DispatchRecordStatus.Created, "run-1"⟩,
                         ⟨2, "url", 2, none, DispatchRecordStatus.Created, "run-2"⟩,
                         ⟨3, "url", 3, none, DispatchRecordStatus.Created, "run-3"⟩]
    update_transactions := [⟨1, "acc", 1, none, [], [], UpdateStatus.Building⟩]
    updatetransaction_dispatchrecords := [(1, 1), (1, 2), (1, 3)]
    updatetransaction_devices := [(1, 1), (1, 2), (1, 3)]
    commits := [⟨1, "ost"⟩]
    images := [⟨1, "acc", 1, 1, ImageStatus.Success, 5⟩] }

/-- A decoder for three messages: `[1]` and `[2]` report success for `run-1` and
`run-2`, `[3]` reports failure for `run-3`; anything else is not decoded. -/
def exampleDecoder : List Nat → Except Err (Option PlaybookDispatcherEvent)
  | [1] => .ok (some (exampleEvent "run-1" "success"))
  | [2] => .ok (some (exampleEvent "run-2" "success"))
  | [3] => .ok (some (exampleEvent "run-3" "failure"))
  | _ => .error Err.ErrDecode

/-! ## Decoding the literal null -/

/-- The bytes of the JSON literal `null`. -/
def jsonNull : List Nat := [110, 117, 108, 108]

/-- The bytes that JSON counts as whitespace: space, tab, line feed and
carriage return. -/
def isJSONSpace (b : Nat) : Bool :=
  b == 32 || b == 9 || b == 10 || b == 13

/-- The message without the JSON whitespace before and after its value. -/
def jsonTrim (message : List Nat) : List Nat :=
  ((message.dropWhile isJSONSpace).reverse.dropWhile isJSONSpace).reverse

/-- `json.Unmarshal(message, &e)` for the nil pointer `e`, as far as the
literal `null` goes: the JSON null value, with or without whitespace around
it, unmarshals into a pointer by setting it to nil, and no error is reported.
Every other message is left to `decode`, which yields an error or an event. -/
def jsonUnmarshal (decode : List Nat → Except Err PlaybookDispatcherEvent)
    (message : List Nat) : Except Err (Option PlaybookDispatcherEvent) :=
  if jsonTrim message = jsonNull then .ok none
  else
    match decode message with
    | .error err => .error err
    | .ok e => .ok (some e)

/-! ## The device notification -/

/-- Modelled from the spec: the constants `NotificationConfigVersion`,
`NotificationConfigBundle`, `NotificationConfigApplication`,
`NotificationConfigEventTypeDevice`, `NotificationConfigUser` and
`NotificationTopic` are not part of the sources at hand; they are taken as
parameters. -/
structure NotificationConfig where
  Version : String
  Bundle : String
  Application : String
  EventTypeDevice : String
  User : String
  Topic : String
  deriving DecidableEq, Repr

/-- Modelled from the spec: `EventNotification`, reduced to its payload (the
metadata map is always empty). -/
structure EventNotification where
  Payload : String
  deriving DecidableEq, Repr

/-- Modelled from the spec: `RecipientNotification`. -/
structure RecipientNotification where
  OnlyAdmins : Bool
  IgnoreUserPreferences : Bool
  Users : List String
  deriving DecidableEq, Repr

/-- Modelled from the spec: `ImageNotification`, the message published to the
event bus. -/
structure ImageNotification where
  Version : String
  Bundle : String
  Application : String
  EventType : String
  Timestamp : String
  Account : String
  Context : String
  Events : List EventNotification
  Recipients : List RecipientNotification
  deriving DecidableEq, Repr

/-- The surroundings of one `SendDeviceNotification` call: the formatted time,
whether Clowder is enabled, the configured brokers as `host:port`, the error of
`kafka.NewProducer` for a broker and the error of `Produce` for a message under
a topic. -/
structure NotifyEnv where
  now : String
  IsClowderEnabled : Bool
  brokers : List String
  NewProducer : String → Option Err
  Produce : String → ImageNotification → Option Err

/-- How a `SendDeviceNotification` call ends: it returns the notification and
an error value, the process exits with a code, or the goroutine panics. -/
inductive NotifyOutcome where
  | returned (notify : ImageNotification) (err : Option Err)
  | exit (code : Nat)
  | panic
  deriving DecidableEq, Repr

/-- `SendDeviceNotification`: builds the notification and, when Clowder is
enabled, publishes it.  The update `i` and the store are returned as they
stand after the call; `err` is the variable assigned by `kafka.NewProducer`,
which is what the function returns when `Produce` reports `perr`.  With no
broker configured `brokers[0]` is out of range. -/
def SendDeviceNotification (cfg : NotificationConfig) (env : NotifyEnv)
    (i : UpdateTransaction) (db : DB) : UpdateTransaction × DB × NotifyOutcome :=
  let notify : ImageNotification :=
    ⟨cfg.Version, cfg.Bundle, cfg.Application, cfg.EventTypeDevice, env.now, "", "", [], []⟩
  if env.IsClowderEnabled then
    match env.brokers with
    | [] => (i, db, NotifyOutcome.panic)
    | broker :: _ =>
      let err := env.NewProducer broker
      if err.isSome then (i, db, NotifyOutcome.exit 1)
      else
        let event : EventNotification := ⟨"\x7b  \"UpdateID\" : \"" ++ toString i.ID ++ "\"\x7d"⟩
        let recipient : RecipientNotification := ⟨false, false, [cfg.User]⟩
        let notify1 := { notify with
          Account := i.Account
          Context := "\x7b  \"CommitID\" : \"" ++ toString i.CommitID ++ "\"\x7d"
          Events := [event]
          Recipients := [recipient] }
        let perr := env.Produce cfg.Topic notify1
        if perr.isSome then (i, db, NotifyOutcome.returned notify1 err)
        else (i, db, NotifyOutcome.returned notify1 none)
  else (i, db, NotifyOutcome.returned notify none)

/-- Notification constants for the examples. -/
def exampleNotificationConfig : NotificationConfig :=
  ⟨"v1.1.0", "rhel", "edge-management", "device-update", "edge-user",
    "platform.notifications.ingress"⟩

/-- An event bus that is enabled and reachable but refuses every message. -/
def exampleBusRefusing : NotifyEnv :=
  { now := "2022-01-01T00:00:00Z"
    IsClowderEnabled := true
    brokers := ["kafka:9092"]
    NewProducer := fun _ => none
    Produce := fun _ _ => some Err.ErrCollaborator }

/-- The store `exampleFreshDB` with no device joined to update 1. -/
def exampleNoDeviceDB : DB :=
  { exampleFreshDB with updatetransaction_devices := [] }

/-- The build of update 1 of `exampleNoDeviceDB` succeeds. -/
def exampleBuiltNoDevice : Except Err (UpdateTransaction × Option Repo) :=
  .ok (exampleNoDeviceDB.FindUpdate 1 UpdateStatus.Building, some ⟨"repo"⟩)

/-! ## What one response of the dispatcher does -/

/-- Lines 182 and 191: what one response does to `Connected` of the device of
the iteration. -/
def markConnected (device : Device) (excPlaybook : DispatcherResponse) : Device :=
  if excPlaybook.StatusCode = http.StatusCreated then { device with Connected := true }
  else { device with Connected := false }

/-- The dispatch record that lines 183 to 188 and 192 to 196 build for one
response, pointing to `device`, once the save of the update has copied the
primary key of that device into `DeviceID`; its own primary key is left at
zero here. -/
def responseRecord (playbookURL : String) (device : Device) (excPlaybook : DispatcherResponse) :
    DispatchRecord :=
  if excPlaybook.StatusCode = http.StatusCreated then
    ⟨0, playbookURL, device.ID, some device, models.DispatchRecordStatusCreated,
      excPlaybook.PlaybookDispatcherID⟩
  else ⟨0, playbookURL, device.ID, some device, models.DispatchRecordStatusError, ""⟩

/-- Collaborators for `exampleFreshDB` whose dispatcher answers every request
with two responses, one of status 201 and one of status 500. -/
def exampleEnvTwice : CreateEnv :=
  { exampleEnv exampleBuilt with
    ExecuteDispatcher := fun p => .ok [⟨201, "run-" ++ p.Recipient⟩, ⟨500, ""⟩] }

/-- The store `exampleFreshDB` with device 1 recorded as connected. -/
def exampleOnlineDB : DB :=
  { exampleFreshDB with
    devices := [⟨1, "acc", "rhc-1", "abc", "old", true, 0, false⟩,
                ⟨2, "acc", "rhc-2", "abc", "old", false, 0, false⟩] }

/-- Collaborators for `exampleOnlineDB`: the build of update 1 succeeds, the
dispatcher answers the request for device `rhc-1` with status 500 and accepts
every other device. -/
def exampleEnvOnline : CreateEnv :=
  { exampleEnvRefused with
    build := .ok (exampleOnlineDB.FindUpdate 1 UpdateStatus.Building, some ⟨"repo"⟩) }

/-! ## An update in memory whose records are stored -/

/-- The dispatch record `r`, held in memory by update transaction `uid`, is
stored: it has its keys, its row is in the table of dispatch records and is
joined to `uid`. -/
def DispatchRecord.storedFor (r : DispatchRecord) (uid : Nat) (db : DB) : Prop :=
  r.saved ∧ r.row ∈ db.dispatch_records ∧
    (uid, r.ID) ∈ db.updatetransaction_dispatchrecords

/-- The update transaction in memory has a primary key and carries only
dispatch records that are stored for it. -/
def UpdateTransaction.stored (u : UpdateTransaction) (db : DB) : Prop :=
  u.ID ≠ 0 ∧ ∀ r ∈ u.DispatchRecords, r.storedFor u.ID db

/-- Collaborators for `exampleFreshDB` whose dispatcher accepts device `rhc-1`
and cannot be reached for any other device. -/
def exampleEnvUnreachable : CreateEnv :=
  { exampleEnv exampleBuilt with
    ExecuteDispatcher := fun p =>
      if p.Recipient = "rhc-1" then .ok [⟨201, "run-" ++ p.Recipient⟩]
      else .error Err.ErrCollaborator }

/-- The store after lines 106 to 108 of `CreateUpdate`: the update is loaded,
set to Building and saved (the save is unchecked). -/
def CreateUpdate.begin (env : CreateEnv) (id : Nat) (db : DB) : DB :=
  if env.saveBuilding then db
  else (db.SaveUpdate (db.FindUpdate id models.UpdateStatusBuilding)).2
/-! ## Lemmas on the status aggregation and the store -/

theorem SetUpdateStatus.loop_eq (rs : List DispatchRecord) (a : Bool) (st : UpdateStatus) :
    SetUpdateStatus.loop rs a st =
      if rs.any (fun d => d.Status = DispatchRecordStatus.Error) then
        (false, UpdateStatus.Error)
      else (a && rs.all (fun d => d.Status = DispatchRecordStatus.Complete), st) := by
  induction rs generalizing a with
  | nil => simp [SetUpdateStatus.loop]
  | cons d ds ih =>
    cases hd : d.Status <;> simp [SetUpdateStatus.loop, hd, ih]

theorem saveUpdateCommit_status (full : Bool) (u : UpdateTransaction) (cs : List Commit) :
    (saveUpdateCommit full u cs).1.Status = u.Status := by
  unfold saveUpdateCommit
  split
  · rfl
  · split <;> rfl

theorem DB.SaveUpdate_status (db : DB) (u : UpdateTransaction) :
    (db.SaveUpdate u).1.Status = u.Status := by
  unfold DB.SaveUpdate
  simp only
  split <;> simp [saveUpdateCommit_status]

theorem SetUpdateStatus_status (f : Faults) (u : UpdateTransaction) (db : DB) :
    (SetUpdateStatus f u db).1.Status =
      if u.DispatchRecords.any (fun d => d.Status = DispatchRecordStatus.Error) then
        UpdateStatus.Error
      else if u.DispatchRecords.all (fun d => d.Status = DispatchRecordStatus.Complete) then
        UpdateStatus.Success
      else u.Status := by
  unfold SetUpdateStatus
  simp only [SetUpdateStatus.loop_eq]
  by_cases h1 : u.DispatchRecords.any (fun d => d.Status = DispatchRecordStatus.Error) = true
  · by_cases hf : f.saveUpdate = true <;> simp [h1, hf, DB.SaveUpdate_status]
  · by_cases h2 : u.DispatchRecords.all (fun d => d.Status = DispatchRecordStatus.Complete) = true
    · by_cases hf : f.saveUpdate = true <;> simp [h1, h2, hf, DB.SaveUpdate_status]
    · by_cases hf : f.saveUpdate = true <;> simp [h1, h2, hf, DB.SaveUpdate_status]

theorem find_replaceBy_same {α : Type} (key : α → Nat) (r : α) (rows : List α)
    (h : rows.any (fun row => key row = key r) = true) :
    (replaceBy key (key r) r rows).find? (fun x => key x = key r) = some r := by
  induction rows with
  | nil => simp at h
  | cons x xs ih =>
    by_cases hx : key x = key r
    · simp [replaceBy, hx]
    · have h2 : xs.any (fun row => key row = key r) = true := by
        simpa [hx] using h
      have := ih h2
      simp only [replaceBy] at this
      simp [replaceBy, hx, this]

theorem find_replaceBy_other {α : Type} (key : α → Nat) (r : α) (k : Nat) (rows : List α)
    (hk : k ≠ key r) :
    (replaceBy key (key r) r rows).find? (fun x => key x = k) =
      rows.find? (fun x => key x = k) := by
  induction rows with
  | nil => simp [replaceBy]
  | cons x xs ih =>
    simp only [replaceBy] at ih
    have hrk : ¬ key r = k := fun h => hk h.symm
    simp only [replaceBy, List.map_cons, List.find?_cons]
    by_cases hx : key x = key r
    · have hxk : ¬ key x = k := fun h => hk (h.symm.trans hx)
      simp only [hx, if_true, hrk, hxk, decide_False]
      exact ih
    · simp only [hx, if_false]
      by_cases hxk : key x = k
      · simp [hxk]
      · simp only [hxk, decide_False]
        exact ih

theorem find_upsert_same {α : Type} (key : α → Nat) (r : α) (rows : List α) :
    (upsert key r rows).find? (fun x => key x = key r) = some r := by
  unfold upsert
  split
  · next h => exact find_replaceBy_same key r rows h
  · next h =>
    have hn : ∀ x ∈ rows, ¬ key x = key r := by
      intro x hx hxe
      exact h (List.any_eq_true.mpr ⟨x, hx, by simpa using hxe⟩)
    have : rows.find? (fun x => decide (key x = key r)) = none := by
      simp [List.find?_eq_none]; exact hn
    simp [List.find?_append, this]

theorem find_upsert_other {α : Type} (key : α → Nat) (r : α) (k : Nat) (rows : List α)
    (hk : k ≠ key r) :
    (upsert key r rows).find? (fun x => key x = k) = rows.find? (fun x => key x = k) := by
  unfold upsert
  split
  · exact find_replaceBy_other key r k rows hk
  · have hrk : ¬ key r = k := fun h => hk h.symm
    simp [List.find?_append, hrk]

theorem foldl_saveUpdateDevice_update_transactions (uid : Nat) (ds : List Device)
    (acc : List Device × DB) :
    (ds.foldl (saveUpdateDevice uid) acc).2.update_transactions = acc.2.update_transactions := by
  induction ds generalizing acc with
  | nil => rfl
  | cons d ds ih => simp only [List.foldl_cons]; rw [ih]; rfl

theorem foldl_saveRecordAssoc_update_transactions (uid : Nat) (rs : List DispatchRecord)
    (acc : List DispatchRecord × DB) :
    (rs.foldl (saveRecordAssoc uid) acc).2.update_transactions = acc.2.update_transactions := by
  induction rs generalizing acc with
  | nil => rfl
  | cons d ds ih => simp only [List.foldl_cons]; rw [ih]; rfl

theorem DB.SaveUpdate_update_transactions (db : DB) (u : UpdateTransaction) :
    (db.SaveUpdate u).2.update_transactions =
      upsert (fun x => x.ID) (db.SaveUpdate u).1.row db.update_transactions := by
  unfold DB.SaveUpdate
  simp only [foldl_saveRecordAssoc_update_transactions,
    foldl_saveUpdateDevice_update_transactions]
  rfl

theorem DB.SaveUpdate_statusOf (db : DB) (u : UpdateTransaction) :
    (db.SaveUpdate u).2.statusOf (db.SaveUpdate u).1.ID = some u.Status := by
  unfold DB.statusOf
  rw [DB.SaveUpdate_update_transactions]
  have h := find_upsert_same (fun x : UpdateTransaction => x.ID) (db.SaveUpdate u).1.row
    db.update_transactions
  simp only [UpdateTransaction.row] at h ⊢
  rw [h]
  simp [DB.SaveUpdate_status]

theorem SetUpdateStatus_persisted (f : Faults) (u : UpdateTransaction) (db : DB)
    (hf : f.saveUpdate = false) :
    (SetUpdateStatus f u db).2.1.statusOf (SetUpdateStatus f u db).1.ID =
      some (SetUpdateStatus f u db).1.Status := by
  have hs := SetUpdateStatus_status f u db
  unfold SetUpdateStatus at hs ⊢
  simp only [hf, Bool.false_eq_true, if_false] at hs ⊢
  rw [DB.SaveUpdate_statusOf, DB.SaveUpdate_status]

theorem saveRecordDevice_status (full : Bool) (r : DispatchRecord) (ds : List Device) :
    (saveRecordDevice full r ds).1.Status = r.Status := by
  unfold saveRecordDevice
  split <;> rfl

theorem assignRecordID_status (r : DispatchRecord) (rows : List DispatchRecord) :
    (assignRecordID r rows).Status = r.Status := by
  unfold assignRecordID
  split <;> rfl

theorem foldl_saveRecordAssoc_statuses (uid : Nat) (rs : List DispatchRecord)
    (acc : List DispatchRecord × DB) :
    ((rs.foldl (saveRecordAssoc uid) acc).1).map (fun r => r.Status) =
      acc.1.map (fun r => r.Status) ++ rs.map (fun r => r.Status) := by
  induction rs generalizing acc with
  | nil => simp
  | cons d ds ih =>
    simp only [List.foldl_cons]
    rw [ih]
    simp [saveRecordAssoc, assignRecordID_status, saveRecordDevice_status]

theorem saveUpdateCommit_records (full : Bool) (u : UpdateTransaction) (cs : List Commit) :
    (saveUpdateCommit full u cs).1.DispatchRecords = u.DispatchRecords := by
  unfold saveUpdateCommit
  split
  · rfl
  · split <;> rfl

theorem DB.SaveUpdate_record_statuses (db : DB) (u : UpdateTransaction) :
    (db.SaveUpdate u).1.DispatchRecords.map (fun r => r.Status) =
      u.DispatchRecords.map (fun r => r.Status) := by
  unfold DB.SaveUpdate
  simp only [foldl_saveRecordAssoc_statuses]
  split <;> simp [saveUpdateCommit_records]

theorem SetUpdateStatus_record_statuses (f : Faults) (u : UpdateTransaction) (db : DB) :
    (SetUpdateStatus f u db).1.DispatchRecords.map (fun r => r.Status) =
      u.DispatchRecords.map (fun r => r.Status) := by
  unfold SetUpdateStatus
  by_cases hf : f.saveUpdate = true
  · simp only [hf, if_true]
    split <;> rfl
  · simp only [hf, if_false, Bool.false_eq_true]
    rw [DB.SaveUpdate_record_statuses]
    split <;> rfl

theorem any_eq_of_map_status {rs1 rs2 : List DispatchRecord} (p : DispatchRecordStatus → Bool)
    (h : rs1.map (fun r => r.Status) = rs2.map (fun r => r.Status)) :
    rs1.any (fun d => p d.Status) = rs2.any (fun d => p d.Status) := by
  have h1 : ∀ rs : List DispatchRecord,
      rs.any (fun d => p d.Status) = (rs.map (fun r => r.Status)).any p := by
    intro rs
    induction rs with
    | nil => rfl
    | cons x xs ih => simp only [List.any_cons, List.map_cons, ih]
  rw [h1, h1, h]

theorem all_eq_of_map_status {rs1 rs2 : List DispatchRecord} (p : DispatchRecordStatus → Bool)
    (h : rs1.map (fun r => r.Status) = rs2.map (fun r => r.Status)) :
    rs1.all (fun d => p d.Status) = rs2.all (fun d => p d.Status) := by
  have h1 : ∀ rs : List DispatchRecord,
      rs.all (fun d => p d.Status) = (rs.map (fun r => r.Status)).all p := by
    intro rs
    induction rs with
    | nil => rfl
    | cons x xs ih => simp only [List.all_cons, List.map_cons, ih]
  rw [h1, h1, h]

theorem any_error_iff (rs : List DispatchRecord) :
    rs.any (fun d => d.Status = DispatchRecordStatus.Error) = true ↔
      ∃ d ∈ rs, d.Status = DispatchRecordStatus.Error := by
  simp [List.any_eq_true]

theorem all_complete_iff (rs : List DispatchRecord) :
    rs.all (fun d => d.Status = DispatchRecordStatus.Complete) = true ↔
      ∀ d ∈ rs, d.Status = DispatchRecordStatus.Complete := by
  simp [List.all_eq_true]

/-! ## Lemmas on the processing of one event -/

theorem leastBy_mem {α : Type} (key : α → Nat) (xs : List α) (x : α)
    (h : leastBy key xs = some x) : x ∈ xs := by
  induction xs generalizing x with
  | nil => simp [leastBy] at h
  | cons y ys ih =>
    simp only [leastBy] at h
    cases hl : leastBy key ys with
    | none =>
      rw [hl] at h
      simp only [Option.some.injEq] at h
      simp [h]
    | some z =>
      rw [hl] at h
      simp only at h
      split at h
      · simp only [Option.some.injEq] at h
        simp [h]
      · simp only [Option.some.injEq] at h
        subst h
        exact List.mem_cons_of_mem _ (ih z hl)

theorem leastBy_eq_none {α : Type} (key : α → Nat) (xs : List α) :
    leastBy key xs = none ↔ xs = [] := by
  cases xs with
  | nil => simp [leastBy]
  | cons y ys =>
    simp only [leastBy]
    cases leastBy key ys with
    | none => simp
    | some z =>
      simp only
      split <;> simp

theorem replaceBy_self {α : Type} (key : α → Nat) (r : α) (rows : List α)
    (hr : r ∈ rows) (hnd : (rows.map key).Nodup) :
    replaceBy key (key r) r rows = rows := by
  unfold replaceBy
  have : ∀ x ∈ rows, (if key x = key r then r else x) = x := by
    intro x hx
    split
    · next h => exact (List.inj_on_of_nodup_map hnd hx hr h).symm
    · rfl
  calc rows.map (fun row => if key row = key r then r else row)
      = rows.map id := List.map_congr_left this
    _ = rows := List.map_id rows

theorem any_key_of_mem {α : Type} (key : α → Nat) (r : α) (rows : List α) (hr : r ∈ rows) :
    rows.any (fun row => key row = key r) = true :=
  List.any_eq_true.mpr ⟨r, hr, by simp⟩

theorem upsertAssoc_self {α : Type} (full : Bool) (key : α → Nat) (r : α) (rows : List α)
    (hr : r ∈ rows) (hnd : (rows.map key).Nodup) :
    upsertAssoc full key r rows = rows := by
  unfold upsertAssoc
  rw [any_key_of_mem key r rows hr]
  cases full <;> simp [replaceBy_self key r rows hr hnd]

theorem addJoin_self (p : Nat × Nat) (rows : List (Nat × Nat)) (h : p ∈ rows) :
    addJoin p rows = rows := by
  simp [addJoin, h]

/-- Saving, as associations of `uid`, records that are rows of the store and
already joined to `uid` changes nothing in the store. -/
theorem foldl_saveRecordAssoc_rows (uid : Nat) (rs : List DispatchRecord)
    (acc : List DispatchRecord × DB)
    (hnd : (acc.2.dispatch_records.map (fun r => r.ID)).Nodup)
    (hrows : ∀ r ∈ rs, r ∈ acc.2.dispatch_records ∧ r.ID ≠ 0 ∧ r.Device = none ∧
      (uid, r.ID) ∈ acc.2.updatetransaction_dispatchrecords) :
    (rs.foldl (saveRecordAssoc uid) acc).2 = acc.2 := by
  induction rs generalizing acc with
  | nil => rfl
  | cons r rs ih =>
    obtain ⟨hmem, hid, hdev, hjoin⟩ := hrows r (List.mem_cons_self _ _)
    have hstep : (saveRecordAssoc uid acc r).2 = acc.2 := by
      have h1 : saveRecordDevice acc.2.FullSaveAssociations r acc.2.devices = (r, acc.2.devices) := by
        simp [saveRecordDevice, hdev]
      have h2 : assignRecordID r acc.2.dispatch_records = r := by
        simp [assignRecordID, hid]
      have h3 : r.row = r := by
        cases r; simp_all [DispatchRecord.row]
      simp only [saveRecordAssoc, h1, h2, h3]
      rw [upsertAssoc_self _ (fun x : DispatchRecord => x.ID) r _ hmem hnd, addJoin_self _ _ hjoin]
    simp only [List.foldl_cons]
    rw [ih]
    · exact hstep
    · rw [hstep]; exact hnd
    · intro x hx
      rw [hstep]
      exact hrows x (List.mem_cons_of_mem _ hx)

theorem preload_mem (db : DB) (uid : Nat) (r : DispatchRecord)
    (h : r ∈ db.preloadDispatchRecords uid) :
    r ∈ db.dispatch_records ∧ (uid, r.ID) ∈ db.updatetransaction_dispatchrecords := by
  simpa [DB.preloadDispatchRecords, List.mem_filter] using h

/-- Saving an update transaction as loaded by `FirstUpdateByDispatchRecord`
(columns and preloaded dispatch records), with a new status, writes its row
and nothing else. -/
theorem DB.SaveUpdate_loaded (db : DB)
    (hnd : (db.dispatch_records.map (fun r => r.ID)).Nodup)
    (hrec : ∀ r ∈ db.dispatch_records, r.ID ≠ 0 ∧ r.Device = none)
    (row : UpdateTransaction) (hid : row.ID ≠ 0) (s : UpdateStatus) :
    (db.SaveUpdate { row.row with
        DispatchRecords := db.preloadDispatchRecords row.ID, Status := s }).2 =
      { db with update_transactions :=
          upsert (fun x => x.ID) { row.row with Status := s } db.update_transactions } := by
  unfold DB.SaveUpdate
  simp only [saveUpdateCommit, UpdateTransaction.row, hid, if_false, List.foldl_nil]
  rw [foldl_saveRecordAssoc_rows]
  · exact hnd
  · intro r hr
    obtain ⟨hm, hj⟩ := preload_mem db row.ID r hr
    exact ⟨hm, (hrec r hm).1, (hrec r hm).2, hj⟩

theorem FirstDispatchRecord_ok (db : DB) (id : String) (r : DispatchRecord)
    (h : db.FirstDispatchRecord false id = .ok r) :
    ∃ r0 ∈ db.dispatch_records,
      r = { r0 with Device := db.devices.find? (fun d => d.ID = r0.DeviceID) } ∧
      (id ≠ "" → r0.PlaybookDispatcherID = id) := by
  unfold DB.FirstDispatchRecord at h
  simp only [Bool.false_eq_true, if_false] at h
  split at h
  · cases h
  · next r0 hl =>
    have hm := leastBy_mem _ _ _ hl
    simp only [Except.ok.injEq] at h
    refine ⟨r0, ?_, h.symm, ?_⟩
    · split at hm
      · exact hm
      · exact (List.mem_filter.mp hm).1
    · intro hne
      simp only [hne, if_false] at hm
      simpa using (List.mem_filter.mp hm).2

theorem FirstDispatchRecord_notFound (db : DB) (id : String) (hid : id ≠ "")
    (h : ∀ r ∈ db.dispatch_records, r.PlaybookDispatcherID ≠ id) :
    db.FirstDispatchRecord false id = .error Err.ErrRecordNotFound := by
  unfold DB.FirstDispatchRecord
  have hf : db.dispatch_records.filter (fun r => decide (r.PlaybookDispatcherID = id)) = [] := by
    rw [List.filter_eq_nil_iff]
    intro r hr
    simpa using h r hr
  simp only [Bool.false_eq_true, if_false, hid, hf]
  simp [leastBy]

theorem applyPlaybookStatus_some (st : String) (r r1 : DispatchRecord)
    (h : applyPlaybookStatus st r = some r1) :
    r1.ID = r.ID ∧ r1.DeviceID = r.DeviceID ∧ r1.PlaybookURL = r.PlaybookURL ∧
    r1.PlaybookDispatcherID = r.PlaybookDispatcherID ∧ r1.Status = statusFor st ∧
    ((statusFor st ≠ DispatchRecordStatus.Complete ∧ r1.Device = r.Device) ∨
     (statusFor st = DispatchRecordStatus.Complete ∧
        ∃ d, r.Device = some d ∧ r1.Device = some (stampDevice d))) := by
  unfold applyPlaybookStatus at h
  split at h
  · next h1 =>
    have hs : statusFor st = DispatchRecordStatus.Error := by
      unfold statusFor; rw [if_pos h1]
    simp only [Option.some.injEq] at h
    subst h
    rw [hs]
    exact ⟨rfl, rfl, rfl, rfl, rfl, Or.inl ⟨by decide, rfl⟩⟩
  · next h1 =>
    split at h
    · next h2 =>
      have hs : statusFor st = DispatchRecordStatus.Complete := by
        unfold statusFor; rw [if_neg h1, if_pos h2]
      split at h
      · cases h
      · next d hd =>
        simp only [Option.some.injEq] at h
        subst h
        rw [hs]
        exact ⟨rfl, rfl, rfl, rfl, rfl, Or.inr ⟨rfl, d, hd, rfl⟩⟩
    · next h2 =>
      split at h
      · next h3 =>
        have hs : statusFor st = DispatchRecordStatus.Running := by
          unfold statusFor; rw [if_neg h1, if_neg h2, if_pos h3]
        simp only [Option.some.injEq] at h
        subst h
        rw [hs]
        exact ⟨rfl, rfl, rfl, rfl, rfl, Or.inl ⟨by decide, rfl⟩⟩
      · next h3 =>
        have hs : statusFor st = DispatchRecordStatus.Error := by
          unfold statusFor; rw [if_neg h1, if_neg h2, if_neg h3]
        simp only [Option.some.injEq] at h
        subst h
        rw [hs]
        exact ⟨rfl, rfl, rfl, rfl, rfl, Or.inl ⟨by decide, rfl⟩⟩

theorem replaceBy_eq_setRecordStatus (r0 : DispatchRecord) (s : DispatchRecordStatus)
    (rows : List DispatchRecord) (hr : r0 ∈ rows)
    (hnd : (rows.map (fun r => r.ID)).Nodup) :
    replaceBy (fun x => x.ID) r0.ID { r0 with Status := s } rows =
      setRecordStatus r0.ID s rows := by
  unfold replaceBy setRecordStatus
  apply List.map_congr_left
  intro x hx
  by_cases h : x.ID = r0.ID
  · have : x = r0 := List.inj_on_of_nodup_map hnd hx hr h
    simp [this]
  · simp [h]

theorem setRecordStatus_ids (id : Nat) (s : DispatchRecordStatus) (rows : List DispatchRecord) :
    (setRecordStatus id s rows).map (fun r => r.ID) = rows.map (fun r => r.ID) := by
  unfold setRecordStatus
  rw [List.map_map]
  apply List.map_congr_left
  intro x _
  simp only [Function.comp]
  split <;> rfl

theorem setRecordStatus_mem (id : Nat) (s : DispatchRecordStatus) (rows : List DispatchRecord)
    (y : DispatchRecord) (hy : y ∈ setRecordStatus id s rows) :
    ∃ x ∈ rows, y.ID = x.ID ∧ y.Device = x.Device ∧ y.DeviceID = x.DeviceID ∧
      y.PlaybookDispatcherID = x.PlaybookDispatcherID ∧
      ((x.ID = id ∧ y.Status = s) ∨ (x.ID ≠ id ∧ y = x)) := by
  unfold setRecordStatus at hy
  obtain ⟨x, hx, hxy⟩ := List.mem_map.mp hy
  refine ⟨x, hx, ?_⟩
  by_cases h : x.ID = id
  · simp only [h, if_true] at hxy
    subst hxy
    simp [h]
  · simp only [h, if_false] at hxy
    subst hxy
    simp [h]

theorem DB.SaveDispatchRecord_loaded (db : DB) (hwf : db.wf) (r0 r1 : DispatchRecord)
    (hr0 : r0 ∈ db.dispatch_records)
    (hid : r1.ID = r0.ID) (hdid : r1.DeviceID = r0.DeviceID)
    (hurl : r1.PlaybookURL = r0.PlaybookURL)
    (hpid : r1.PlaybookDispatcherID = r0.PlaybookDispatcherID)
    (hdev : ∀ d, r1.Device = some d → d.ID ≠ 0 ∧ d.ID = r0.DeviceID) :
    db.SaveDispatchRecord r1 =
      (r1, { db with
        devices := devicesAfterSave db r1.Device
        dispatch_records := setRecordStatus r0.ID r1.Status db.dispatch_records }) := by
  obtain ⟨hnd, _, _, hrec, _, _⟩ := hwf
  have hr0id : r0.ID ≠ 0 := (hrec r0 hr0).1
  have hr0dev : r0.Device = none := (hrec r0 hr0).2
  have hrow : r1.row = { r0 with Status := r1.Status } := by
    cases r0; cases r1
    simp only [DispatchRecord.row] at *
    simp_all
  have hany : db.dispatch_records.any (fun row => row.ID = r1.ID) = true := by
    rw [hid]; exact any_key_of_mem (fun x : DispatchRecord => x.ID) r0 _ hr0
  have hups : upsert (fun x : DispatchRecord => x.ID) r1.row db.dispatch_records =
      setRecordStatus r0.ID r1.Status db.dispatch_records := by
    unfold upsert
    have hk : r1.row.ID = r0.ID := by rw [hrow]
    simp only [hk]
    rw [hid] at hany
    rw [if_pos hany, hrow]
    exact replaceBy_eq_setRecordStatus r0 r1.Status _ hr0 hnd
  have hsd : saveRecordDevice db.FullSaveAssociations r1 db.devices =
      (r1, devicesAfterSave db r1.Device) := by
    unfold saveRecordDevice devicesAfterSave
    cases hd : r1.Device with
    | none => rfl
    | some d =>
      obtain ⟨hd0, hdd⟩ := hdev d hd
      simp only [saveDeviceAssoc, hd0, if_false]
      have : ({ r1 with Device := some d, DeviceID := d.ID } : DispatchRecord) = r1 := by
        cases r1
        simp only at hd hdid
        simp [hd, hdd, hdid]
      rw [this]
  have has : assignRecordID r1 db.dispatch_records = r1 := by
    simp [assignRecordID, hid, hr0id]
  unfold DB.SaveDispatchRecord
  simp only [hsd, has, hups]

theorem UpdateDevicesFromUpdateTransaction_frame (f : Faults) (u : UpdateTransaction) (db : DB) :
    (UpdateDevicesFromUpdateTransaction f u db).1.dispatch_records = db.dispatch_records ∧
    (UpdateDevicesFromUpdateTransaction f u db).1.update_transactions = db.update_transactions ∧
    (UpdateDevicesFromUpdateTransaction f u db).1.updatetransaction_dispatchrecords =
      db.updatetransaction_dispatchrecords ∧
    (UpdateDevicesFromUpdateTransaction f u db).1.FullSaveAssociations = db.FullSaveAssociations ∧
    (UpdateDevicesFromUpdateTransaction f u db).1.devices.map Device.hashes =
      db.devices.map Device.hashes := by
  unfold UpdateDevicesFromUpdateTransaction
  by_cases h1 : u.Status ≠ models.UpdateStatusSuccess
  · rw [if_pos h1]; exact ⟨rfl, rfl, rfl, rfl, rfl⟩
  rw [if_neg h1]
  by_cases h2 : f.reloadUpdate = true
  · rw [if_pos h2]; exact ⟨rfl, rfl, rfl, rfl, rfl⟩
  rw [if_neg h2]
  cases leastBy (fun u => u.ID)
      (db.update_transactions.filter
        (fun u_1 => decide (u_1.Account = u.Account ∧ u_1.ID = u.ID))) with
  | none => exact ⟨rfl, rfl, rfl, rfl, rfl⟩
  | some row =>
    simp only
    cases db.commits.find? (fun c => decide (c.ID = row.CommitID)) with
    | none => exact ⟨rfl, rfl, rfl, rfl, rfl⟩
    | some commit =>
      simp only
      by_cases h3 : f.findImage = true
      · rw [if_pos h3]; exact ⟨rfl, rfl, rfl, rfl, rfl⟩
      rw [if_neg h3]
      cases leastBy (fun i => i.ID) (db.images.filter (fun i =>
          decide (i.Account = row.Account ∧
            db.commits.any (fun c =>
              decide (c.ID = i.CommitID ∧ c.OSTreeCommit = commit.OSTreeCommit)) = true))) with
      | none => exact ⟨rfl, rfl, rfl, rfl, rfl⟩
      | some deviceImage =>
        simp only
        by_cases h4 : f.findUpdateImages = true
        · rw [if_pos h4]; exact ⟨rfl, rfl, rfl, rfl, rfl⟩
        rw [if_neg h4]
        by_cases h5 : f.updateDevices = true
        · rw [if_pos h5]; exact ⟨rfl, rfl, rfl, rfl, rfl⟩
        rw [if_neg h5]
        refine ⟨rfl, rfl, rfl, rfl, ?_⟩
        simp only [List.map_map]
        apply List.map_congr_left
        intro d _
        simp only [Function.comp]
        split <;> rfl

theorem UpdateDevicesFromUpdateTransaction_not_success (f : Faults) (u : UpdateTransaction)
    (db : DB) (h : u.Status ≠ UpdateStatus.Success) :
    UpdateDevicesFromUpdateTransaction f u db = (db, none) := by
  unfold UpdateDevicesFromUpdateTransaction
  simp [h]

theorem SetUpdateStatus_loaded (f : Faults) (db : DB)
    (hnd : (db.dispatch_records.map (fun r => r.ID)).Nodup)
    (hrec : ∀ r ∈ db.dispatch_records, r.ID ≠ 0 ∧ r.Device = none)
    (row : UpdateTransaction) (hid : row.ID ≠ 0) (hf : f.saveUpdate = false) :
    (SetUpdateStatus f
        { row.row with DispatchRecords := db.preloadDispatchRecords row.ID } db).2 =
      ({ db with
          update_transactions :=
            upsert (fun x => x.ID)
              { row.row with
                Status := aggregate row.Status (db.preloadDispatchRecords row.ID) }
              db.update_transactions },
        none) := by
  have hsave := DB.SaveUpdate_loaded db hnd hrec row hid
    (aggregate row.Status (db.preloadDispatchRecords row.ID))
  unfold SetUpdateStatus
  simp only [hf, Bool.false_eq_true, if_false, SetUpdateStatus.loop_eq]
  unfold aggregate at hsave ⊢
  by_cases h1 : (db.preloadDispatchRecords row.ID).any
      (fun d => decide (d.Status = DispatchRecordStatus.Error)) = true
  · simp only [h1, if_true, Bool.false_eq_true, if_false] at hsave ⊢
    simp only [UpdateTransaction.row] at hsave ⊢
    rw [hsave]
  · by_cases h2 : (db.preloadDispatchRecords row.ID).all
        (fun d => decide (d.Status = DispatchRecordStatus.Complete)) = true
    · simp only [h1, h2, if_true, Bool.false_eq_true, if_false, Bool.and_self] at hsave ⊢
      simp only [UpdateTransaction.row] at hsave ⊢
      rw [hsave]
    · simp only [h1, h2, Bool.false_eq_true, if_false, Bool.and_false] at hsave ⊢
      simp only [UpdateTransaction.row] at hsave ⊢
      rw [hsave]

theorem SetUpdateStatus_status_aggregate (f : Faults) (u : UpdateTransaction) (db : DB) :
    (SetUpdateStatus f u db).1.Status = aggregate u.Status u.DispatchRecords := by
  rw [SetUpdateStatus_status]; rfl

theorem FirstUpdateByDispatchRecord_ok (db : DB) (rid : Nat) (u : UpdateTransaction)
    (h : db.FirstUpdateByDispatchRecord false rid = .ok u) :
    ∃ row ∈ db.update_transactions,
      leastBy (fun u => u.ID) (db.update_transactions.filter
        (fun u => (u.ID, rid) ∈ db.updatetransaction_dispatchrecords)) = some row ∧
      (row.ID, rid) ∈ db.updatetransaction_dispatchrecords ∧
      u = { row.row with DispatchRecords := db.preloadDispatchRecords row.ID } := by
  unfold DB.FirstUpdateByDispatchRecord at h
  simp only [Bool.false_eq_true, if_false] at h
  split at h
  · cases h
  · next row hl =>
    have hm := List.mem_filter.mp (leastBy_mem _ _ _ hl)
    simp only [Except.ok.injEq] at h
    exact ⟨row, hm.1, hl, by simpa using hm.2, h.symm⟩

theorem SetUpdateStatusBasedOnDispatchRecord_owned (f : Faults) (db : DB)
    (hnd : (db.dispatch_records.map (fun r => r.ID)).Nodup)
    (hrec : ∀ r ∈ db.dispatch_records, r.ID ≠ 0 ∧ r.Device = none)
    (rec : DispatchRecord) (row : UpdateTransaction)
    (hown : leastBy (fun u => u.ID) (db.update_transactions.filter
        (fun u => (u.ID, rec.ID) ∈ db.updatetransaction_dispatchrecords)) = some row)
    (hid : row.ID ≠ 0) (hf3 : f.findUpdate = false) (hf4 : f.saveUpdate = false) :
    ∃ u1 : UpdateTransaction,
      u1.Status = aggregate row.Status (db.preloadDispatchRecords row.ID) ∧
      SetUpdateStatusBasedOnDispatchRecord f rec db =
        UpdateDevicesFromUpdateTransaction f u1
          { db with
            update_transactions :=
              upsert (fun x => x.ID)
                { row.row with
                  Status := aggregate row.Status (db.preloadDispatchRecords row.ID) }
                db.update_transactions } := by
  have h2 := SetUpdateStatus_loaded f db hnd hrec row hid hf4
  have h1 := SetUpdateStatus_status_aggregate f
    { row.row with DispatchRecords := db.preloadDispatchRecords row.ID } db
  refine ⟨(SetUpdateStatus f
    { row.row with DispatchRecords := db.preloadDispatchRecords row.ID } db).1, ?_, ?_⟩
  · rw [h1]; rfl
  · unfold SetUpdateStatusBasedOnDispatchRecord DB.FirstUpdateByDispatchRecord
    simp only [hf3, Bool.false_eq_true, if_false, hown]
    generalize SetUpdateStatus f
      { row.row with DispatchRecords := db.preloadDispatchRecords row.ID } db = res at h2 ⊢
    obtain ⟨a, b, c⟩ := res
    simp only [Prod.mk.injEq] at h2
    obtain ⟨hb, hc⟩ := h2
    subst hb hc
    rfl

theorem applyPlaybookStatus_eq (st : String) (r : DispatchRecord) :
    applyPlaybookStatus st r =
      if statusFor st = DispatchRecordStatus.Complete ∧ r.Device = none then none
      else some { r with Status := statusFor st, Device := eventDevice st r } := by
  unfold applyPlaybookStatus eventDevice
  by_cases h1 : st = PlaybookStatusFailure ∨ st = PlaybookStatusTimeout
  · have hs : statusFor st = DispatchRecordStatus.Error := by
      unfold statusFor; rw [if_pos h1]
    rw [if_pos h1, hs]
    simp
  · by_cases h2 : st = PlaybookStatusSuccess
    · have hs : statusFor st = DispatchRecordStatus.Complete := by
        unfold statusFor; rw [if_neg h1, if_pos h2]
      rw [if_neg h1, if_pos h2, hs]
      cases hd : r.Device with
      | none => simp
      | some d => simp [stampDevice]
    · by_cases h3 : st = PlaybookStatusRunning
      · have hs : statusFor st = DispatchRecordStatus.Running := by
          unfold statusFor; rw [if_neg h1, if_neg h2, if_pos h3]
        rw [if_neg h1, if_neg h2, if_pos h3, hs]
        simp
      · have hs : statusFor st = DispatchRecordStatus.Error := by
          unfold statusFor; rw [if_neg h1, if_neg h2, if_neg h3]
        rw [if_neg h1, if_neg h2, if_neg h3, hs]
        simp

theorem processEvent_running (s : UpdateService) (f : Faults) (e : PlaybookDispatcherEvent)
    (w : World) (h : e.Payload.Status = PlaybookStatusRunning) :
    processEvent s f e w = (w, Outcome.nil) := by
  unfold processEvent
  rw [if_pos h]

/-- The world after the grace delay taken for a success event. -/
theorem processEvent_lookup_error (s : UpdateService) (f : Faults) (e : PlaybookDispatcherEvent)
    (w : World) (err : Err) (hrun : e.Payload.Status ≠ PlaybookStatusRunning)
    (h : w.db.FirstDispatchRecord f.findDispatchRecord e.Payload.ID = .error err) :
    (processEvent s f e w).1.db = w.db ∧ (processEvent s f e w).2 = Outcome.error err := by
  unfold processEvent
  rw [if_neg hrun]
  by_cases hs : e.Payload.Status = PlaybookStatusSuccess
  · simp only [hs, if_true, h, and_self]
  · simp only [hs, if_false, h, and_self]

theorem eventDevice_key (db : DB) (hwf : db.wf) (st : String) (r0 : DispatchRecord) (d : Device)
    (h : eventDevice st
      { r0 with Device := db.devices.find? (fun d => d.ID = r0.DeviceID) } = some d) :
    d.ID ≠ 0 ∧ d.ID = r0.DeviceID := by
  obtain ⟨_, _, _, _, _, hdev⟩ := hwf
  have key : ∀ d0, db.devices.find? (fun d => decide (d.ID = r0.DeviceID)) = some d0 →
      d0.ID ≠ 0 ∧ d0.ID = r0.DeviceID := by
    intro d0 h0
    refine ⟨hdev d0 (List.mem_of_find?_eq_some h0), ?_⟩
    simpa using List.find?_some h0
  unfold eventDevice at h
  simp only at h
  split at h
  · cases hf : db.devices.find? (fun d => decide (d.ID = r0.DeviceID)) with
    | none => rw [hf] at h; cases h
    | some d0 =>
      rw [hf] at h
      simp only [Option.map_some', Option.some.injEq] at h
      subst h
      exact key d0 hf
  · exact key d h

theorem processEvent_found (s : UpdateService) (f : Faults) (e : PlaybookDispatcherEvent)
    (w : World) (r : DispatchRecord) (hwf : w.db.wf)
    (hrun : e.Payload.Status ≠ PlaybookStatusRunning)
    (hf1 : f.findDispatchRecord = false) (hf2 : f.saveDispatchRecord = false)
    (hfind : w.db.FirstDispatchRecord false e.Payload.ID = .ok r)
    (hdev : ¬ (statusFor e.Payload.Status = DispatchRecordStatus.Complete ∧ r.Device = none)) :
    processEvent s f e w =
      (⟨(SetUpdateStatusBasedOnDispatchRecord f
            { r with Status := statusFor e.Payload.Status,
                     Device := eventDevice e.Payload.Status r }
            (recordSaved w.db e.Payload.Status r)).1,
          w.slept + graceDelay s e.Payload.Status⟩,
        match (SetUpdateStatusBasedOnDispatchRecord f
            { r with Status := statusFor e.Payload.Status,
                     Device := eventDevice e.Payload.Status r }
            (recordSaved w.db e.Payload.Status r)).2 with
        | none => Outcome.nil
        | some err => Outcome.error err) := by
  obtain ⟨r0, hr0, hr, _⟩ := FirstDispatchRecord_ok w.db e.Payload.ID r hfind
  have hsave := DB.SaveDispatchRecord_loaded w.db hwf r0
    { r with Status := statusFor e.Payload.Status, Device := eventDevice e.Payload.Status r }
    hr0 (by rw [hr]) (by rw [hr]) (by rw [hr]) (by rw [hr])
    (by
      intro d hd
      simp only at hd
      rw [hr] at hd
      exact eventDevice_key w.db hwf _ r0 d hd)
  have hrid : r.ID = r0.ID := by rw [hr]
  simp only at hsave
  rw [← hrid] at hsave
  have hsave2 : w.db.SaveDispatchRecord
      { r with Status := statusFor e.Payload.Status, Device := eventDevice e.Payload.Status r } =
      ({ r with Status := statusFor e.Payload.Status,
                Device := eventDevice e.Payload.Status r },
        recordSaved w.db e.Payload.Status r) := hsave
  unfold processEvent
  rw [if_neg hrun]
  by_cases hs : e.Payload.Status = PlaybookStatusSuccess
  · simp only [hs, if_true, hf1, hf2, Bool.false_eq_true, if_false, graceDelay]
    rw [hs] at hdev hsave2
    rw [hfind]
    simp only [applyPlaybookStatus_eq, if_neg hdev, hsave2]
    generalize SetUpdateStatusBasedOnDispatchRecord f _ _ = res
    obtain ⟨a, b⟩ := res
    cases b <;> rfl
  · simp only [hs, if_false, hf1, hf2, Bool.false_eq_true, graceDelay, Nat.add_zero]
    rw [hfind]
    simp only [applyPlaybookStatus_eq, if_neg hdev, hsave2]
    generalize SetUpdateStatusBasedOnDispatchRecord f _ _ = res
    obtain ⟨a, b⟩ := res
    cases b <;> rfl

theorem recordSaved_records_wf (db : DB) (hwf : db.wf) (st : String) (r : DispatchRecord) :
    ((recordSaved db st r).dispatch_records.map (fun r => r.ID)).Nodup ∧
    ∀ y ∈ (recordSaved db st r).dispatch_records, y.ID ≠ 0 ∧ y.Device = none := by
  obtain ⟨hnd, _, _, hrec, _, _⟩ := hwf
  constructor
  · simp only [recordSaved, setRecordStatus_ids]
    exact hnd
  · intro y hy
    obtain ⟨x, hx, hid, hdev, _⟩ := setRecordStatus_mem _ _ _ y hy
    rw [hid, hdev]
    exact hrec x hx

theorem preload_congr (db1 db2 : DB) (uid : Nat)
    (h1 : db1.dispatch_records = db2.dispatch_records)
    (h2 : db1.updatetransaction_dispatchrecords = db2.updatetransaction_dispatchrecords) :
    db1.preloadDispatchRecords uid = db2.preloadDispatchRecords uid := by
  unfold DB.preloadDispatchRecords
  rw [h1, h2]

/-- The effect of one event that is not a running event, finds its dispatch
record and the update transaction that owns it, and meets no store error up to
the saving of the update. -/
theorem processEvent_effect (s : UpdateService) (f : Faults) (e : PlaybookDispatcherEvent)
    (w : World) (r : DispatchRecord) (u : UpdateTransaction) (hwf : w.db.wf)
    (hrun : e.Payload.Status ≠ PlaybookStatusRunning)
    (hf1 : f.findDispatchRecord = false) (hf2 : f.saveDispatchRecord = false)
    (hf3 : f.findUpdate = false) (hf4 : f.saveUpdate = false)
    (hfind : w.db.FirstDispatchRecord false e.Payload.ID = .ok r)
    (hdev : ¬ (statusFor e.Payload.Status = DispatchRecordStatus.Complete ∧ r.Device = none))
    (hown : w.db.FirstUpdateByDispatchRecord false r.ID = .ok u) :
    (processEvent s f e w).1.db.dispatch_records =
      setRecordStatus r.ID (statusFor e.Payload.Status) w.db.dispatch_records ∧
    (processEvent s f e w).1.db.updatetransaction_dispatchrecords =
      w.db.updatetransaction_dispatchrecords ∧
    (processEvent s f e w).1.db.update_transactions =
      upsert (fun x => x.ID)
        { u.row with Status :=
            aggregate u.Status ((processEvent s f e w).1.db.preloadDispatchRecords u.ID) }
        w.db.update_transactions ∧
    (processEvent s f e w).1.db.devices.map Device.hashes =
      (devicesAfterSave w.db (eventDevice e.Payload.Status r)).map Device.hashes ∧
    (processEvent s f e w).1.slept = w.slept + graceDelay s e.Payload.Status ∧
    (aggregate u.Status ((processEvent s f e w).1.db.preloadDispatchRecords u.ID) ≠
        UpdateStatus.Success → (processEvent s f e w).2 = Outcome.nil) := by
  obtain ⟨row, hrow, hleast, _, hu⟩ := FirstUpdateByDispatchRecord_ok w.db r.ID u hown
  have hrowid : row.ID ≠ 0 := hwf.2.2.2.2.1 row hrow
  obtain ⟨hnd1, hrec1⟩ := recordSaved_records_wf w.db hwf e.Payload.Status r
  obtain ⟨u1, hu1, hset⟩ := SetUpdateStatusBasedOnDispatchRecord_owned f
    (recordSaved w.db e.Payload.Status r) hnd1 hrec1
    { r with Status := statusFor e.Payload.Status, Device := eventDevice e.Payload.Status r }
    row hleast hrowid hf3 hf4
  have hpe := processEvent_found s f e w r hwf hrun hf1 hf2 hfind hdev
  rw [hset] at hpe
  obtain ⟨h1, h2, h3, _, h5⟩ := UpdateDevicesFromUpdateTransaction_frame f u1
    { recordSaved w.db e.Payload.Status r with
      update_transactions :=
        upsert (fun x => x.ID)
          { row.row with
            Status := aggregate row.Status
              ((recordSaved w.db e.Payload.Status r).preloadDispatchRecords row.ID) }
          (recordSaved w.db e.Payload.Status r).update_transactions }
  have huid : u.ID = row.ID := by rw [hu]; rfl
  have hust : u.Status = row.Status := by rw [hu]; rfl
  have hurow : u.row = row.row := by rw [hu]; rfl
  have hpre : (processEvent s f e w).1.db.preloadDispatchRecords u.ID =
      (recordSaved w.db e.Payload.Status r).preloadDispatchRecords row.ID := by
    rw [hpe, huid]
    exact (preload_congr _ _ row.ID h1 h3).trans (preload_congr _ _ row.ID rfl rfl)
  rw [hpre, hust, hurow]
  refine ⟨?_, ?_, ?_, ?_, ?_, ?_⟩
  · rw [hpe]; exact h1
  · rw [hpe]; exact h3
  · rw [hpe]; exact h2
  · rw [hpe]; exact h5
  · rw [hpe]
  · intro hne
    rw [hpe]
    rw [UpdateDevicesFromUpdateTransaction_not_success f u1 _ (by rw [hu1]; exact hne)]

theorem SetUpdateStatus_save_fault (f : Faults) (u : UpdateTransaction) (db : DB)
    (hf : f.saveUpdate = true) :
    (SetUpdateStatus f u db).2 = (db, some Err.ErrStore) := by
  unfold SetUpdateStatus
  simp only [hf, if_true]

theorem SetUpdateStatusBasedOnDispatchRecord_frame (f : Faults) (db : DB)
    (hnd : (db.dispatch_records.map (fun r => r.ID)).Nodup)
    (hrec : ∀ r ∈ db.dispatch_records, r.ID ≠ 0 ∧ r.Device = none)
    (hupd : ∀ u ∈ db.update_transactions, u.ID ≠ 0) (rec : DispatchRecord) :
    (SetUpdateStatusBasedOnDispatchRecord f rec db).1.dispatch_records = db.dispatch_records ∧
    (SetUpdateStatusBasedOnDispatchRecord f rec db).1.updatetransaction_dispatchrecords =
      db.updatetransaction_dispatchrecords ∧
    (SetUpdateStatusBasedOnDispatchRecord f rec db).1.FullSaveAssociations =
      db.FullSaveAssociations ∧
    (SetUpdateStatusBasedOnDispatchRecord f rec db).1.devices.map Device.hashes =
      db.devices.map Device.hashes := by
  by_cases hf3 : f.findUpdate = true
  · unfold SetUpdateStatusBasedOnDispatchRecord DB.FirstUpdateByDispatchRecord
    simp only [hf3, if_true, and_self]
  have hf3' : f.findUpdate = false := by simpa using hf3
  cases hl : leastBy (fun u => u.ID) (db.update_transactions.filter
      (fun u => (u.ID, rec.ID) ∈ db.updatetransaction_dispatchrecords)) with
  | none =>
    unfold SetUpdateStatusBasedOnDispatchRecord DB.FirstUpdateByDispatchRecord
    simp only [hf3', Bool.false_eq_true, if_false, hl, and_self]
  | some row =>
    have hrow : row ∈ db.update_transactions := (List.mem_filter.mp (leastBy_mem _ _ _ hl)).1
    by_cases hf4 : f.saveUpdate = true
    · have h2 := SetUpdateStatus_save_fault f
        { row.row with DispatchRecords := db.preloadDispatchRecords row.ID } db hf4
      unfold SetUpdateStatusBasedOnDispatchRecord DB.FirstUpdateByDispatchRecord
      simp only [hf3', Bool.false_eq_true, if_false, hl]
      generalize SetUpdateStatus f
        { row.row with DispatchRecords := db.preloadDispatchRecords row.ID } db = res at h2 ⊢
      obtain ⟨a, b, c⟩ := res
      simp only [Prod.mk.injEq] at h2
      obtain ⟨hb, hc⟩ := h2
      subst hb hc
      exact ⟨rfl, rfl, rfl, rfl⟩
    · have hf4' : f.saveUpdate = false := by simpa using hf4
      obtain ⟨u1, _, hset⟩ := SetUpdateStatusBasedOnDispatchRecord_owned f db hnd hrec rec row hl
        (hupd row hrow) hf3' hf4'
      rw [hset]
      obtain ⟨h1, _, h3, h4, h5⟩ := UpdateDevicesFromUpdateTransaction_frame f u1
        { db with
          update_transactions :=
            upsert (fun x => x.ID)
              { row.row with
                Status := aggregate row.Status (db.preloadDispatchRecords row.ID) }
              db.update_transactions }
      exact ⟨h1, h3, h4, h5⟩

/-- What one event that finds its dispatch record does to the records and the
devices, whatever happens afterwards to the update transaction. -/
theorem processEvent_records (s : UpdateService) (f : Faults) (e : PlaybookDispatcherEvent)
    (w : World) (r : DispatchRecord) (hwf : w.db.wf)
    (hrun : e.Payload.Status ≠ PlaybookStatusRunning)
    (hf1 : f.findDispatchRecord = false) (hf2 : f.saveDispatchRecord = false)
    (hfind : w.db.FirstDispatchRecord false e.Payload.ID = .ok r)
    (hdev : ¬ (statusFor e.Payload.Status = DispatchRecordStatus.Complete ∧ r.Device = none)) :
    (processEvent s f e w).1.db.dispatch_records =
      setRecordStatus r.ID (statusFor e.Payload.Status) w.db.dispatch_records ∧
    (processEvent s f e w).1.db.updatetransaction_dispatchrecords =
      w.db.updatetransaction_dispatchrecords ∧
    (processEvent s f e w).1.db.devices.map Device.hashes =
      (devicesAfterSave w.db (eventDevice e.Payload.Status r)).map Device.hashes ∧
    (processEvent s f e w).1.slept = w.slept + graceDelay s e.Payload.Status ∧
    (processEvent s f e w).2 ≠ Outcome.panic := by
  obtain ⟨hnd1, hrec1⟩ := recordSaved_records_wf w.db hwf e.Payload.Status r
  have hpe := processEvent_found s f e w r hwf hrun hf1 hf2 hfind hdev
  obtain ⟨h1, h2, _, h4⟩ := SetUpdateStatusBasedOnDispatchRecord_frame f
    (recordSaved w.db e.Payload.Status r) hnd1 hrec1 hwf.2.2.2.2.1
    { r with Status := statusFor e.Payload.Status, Device := eventDevice e.Payload.Status r }
  rw [hpe]
  refine ⟨h1, h2, h4, rfl, ?_⟩
  simp only
  split <;> simp

theorem find_setRecordStatus_same (id : Nat) (s : DispatchRecordStatus)
    (rows : List DispatchRecord) (h : ∃ x ∈ rows, x.ID = id) :
    ((setRecordStatus id s rows).find? (fun r => r.ID = id)).map (fun r => r.Status) =
      some s := by
  induction rows with
  | nil => obtain ⟨x, hx, _⟩ := h; cases hx
  | cons y ys ih =>
    simp only [setRecordStatus, List.map_cons, List.find?_cons]
    by_cases hy : y.ID = id
    · simp [hy]
    · have h2 : ∃ x ∈ ys, x.ID = id := by
        obtain ⟨x, hx, hxid⟩ := h
        rcases List.mem_cons.mp hx with rfl | hx2
        · exact absurd hxid hy
        · exact ⟨x, hx2, hxid⟩
      simp only [hy, if_false, decide_False]
      exact ih h2

theorem find_setRecordStatus_other (id k : Nat) (s : DispatchRecordStatus)
    (rows : List DispatchRecord) (hk : k ≠ id) :
    (setRecordStatus id s rows).find? (fun r => r.ID = k) =
      rows.find? (fun r => r.ID = k) := by
  induction rows with
  | nil => rfl
  | cons y ys ih =>
    simp only [setRecordStatus, List.map_cons, List.find?_cons]
    by_cases hy : y.ID = id
    · have hyk : ¬ y.ID = k := fun h => hk (h.symm.trans hy)
      simp only [hy, if_true, hyk, decide_False]
      have : ¬ id = k := fun h => hk h.symm
      simp only [this, decide_False]
      exact ih
    · simp only [hy, if_false]
      by_cases hyk : y.ID = k
      · simp [hyk]
      · simp only [hyk, decide_False]
        exact ih

theorem ProcessPlaybookDispatcherRunEvent_decoded (s : UpdateService) (f : Faults)
    (unmarshal : List Nat → Except Err (Option PlaybookDispatcherEvent)) (message : List Nat)
    (e : PlaybookDispatcherEvent) (w : World) (hdec : unmarshal message = .ok (some e)) :
    ProcessPlaybookDispatcherRunEvent s f unmarshal message w = processEvent s f e w := by
  unfold ProcessPlaybookDispatcherRunEvent
  rw [hdec]

theorem statusFor_success : statusFor PlaybookStatusSuccess = DispatchRecordStatus.Complete := by
  decide

theorem statusFor_other (st : String) (h1 : st ≠ PlaybookStatusRunning)
    (h2 : st ≠ PlaybookStatusSuccess) : statusFor st = DispatchRecordStatus.Error := by
  unfold statusFor
  by_cases h : st = PlaybookStatusFailure ∨ st = PlaybookStatusTimeout
  · rw [if_pos h]
  · rw [if_neg h, if_neg h2, if_neg h1]

theorem processEvent_record_status (s : UpdateService) (f : Faults)
    (e : PlaybookDispatcherEvent) (w : World) (r : DispatchRecord) (hwf : w.db.wf)
    (hrun : e.Payload.Status ≠ PlaybookStatusRunning)
    (hf1 : f.findDispatchRecord = false) (hf2 : f.saveDispatchRecord = false)
    (hfind : w.db.FirstDispatchRecord false e.Payload.ID = .ok r)
    (hdev : ¬ (statusFor e.Payload.Status = DispatchRecordStatus.Complete ∧ r.Device = none)) :
    (processEvent s f e w).1.db.recordStatusOf r.ID = some (statusFor e.Payload.Status) := by
  obtain ⟨h1, _⟩ := processEvent_records s f e w r hwf hrun hf1 hf2 hfind hdev
  obtain ⟨r0, hr0, hr, _⟩ := FirstDispatchRecord_ok w.db e.Payload.ID r hfind
  unfold DB.recordStatusOf
  rw [h1]
  exact find_setRecordStatus_same r.ID _ _ ⟨r0, hr0, by rw [hr]⟩

theorem processEvent_owner_status (s : UpdateService) (f : Faults) (e : PlaybookDispatcherEvent)
    (w : World) (r : DispatchRecord) (u : UpdateTransaction) (hwf : w.db.wf)
    (hrun : e.Payload.Status ≠ PlaybookStatusRunning)
    (hf1 : f.findDispatchRecord = false) (hf2 : f.saveDispatchRecord = false)
    (hf3 : f.findUpdate = false) (hf4 : f.saveUpdate = false)
    (hfind : w.db.FirstDispatchRecord false e.Payload.ID = .ok r)
    (hdev : ¬ (statusFor e.Payload.Status = DispatchRecordStatus.Complete ∧ r.Device = none))
    (hown : w.db.FirstUpdateByDispatchRecord false r.ID = .ok u) :
    (processEvent s f e w).1.db.statusOf u.ID =
      some (aggregate u.Status ((processEvent s f e w).1.db.preloadDispatchRecords u.ID)) := by
  obtain ⟨_, _, h3, _⟩ := processEvent_effect s f e w r u hwf hrun hf1 hf2 hf3 hf4 hfind hdev hown
  unfold DB.statusOf
  rw [h3]
  have h := find_upsert_same (fun x : UpdateTransaction => x.ID)
    { u.row with Status :=
        aggregate u.Status ((processEvent s f e w).1.db.preloadDispatchRecords u.ID) }
    w.db.update_transactions
  simp only [UpdateTransaction.row] at h ⊢
  rw [h]
  rfl

theorem aggregate_error (prior : UpdateStatus) (rs : List DispatchRecord)
    (h : ∃ d ∈ rs, d.Status = DispatchRecordStatus.Error) :
    aggregate prior rs = UpdateStatus.Error := by
  unfold aggregate
  rw [if_pos ((any_error_iff rs).mpr h)]

theorem aggregate_success (prior : UpdateStatus) (rs : List DispatchRecord)
    (h : ∀ d ∈ rs, d.Status = DispatchRecordStatus.Complete) :
    aggregate prior rs = UpdateStatus.Success := by
  unfold aggregate
  have hne : ¬ rs.any (fun d => d.Status = DispatchRecordStatus.Error) = true := by
    intro ha
    obtain ⟨d, hd, he⟩ := (any_error_iff rs).mp ha
    have := h d hd
    rw [he] at this
    exact absurd this (by decide)
  rw [if_neg hne, if_pos ((all_complete_iff rs).mpr h)]

theorem aggregate_prior (prior : UpdateStatus) (rs : List DispatchRecord)
    (h1 : ¬ ∃ d ∈ rs, d.Status = DispatchRecordStatus.Error)
    (h2 : ¬ ∀ d ∈ rs, d.Status = DispatchRecordStatus.Complete) :
    aggregate prior rs = prior := by
  unfold aggregate
  rw [if_neg (fun ha => h1 ((any_error_iff rs).mp ha)),
    if_neg (fun ha => h2 ((all_complete_iff rs).mp ha))]

theorem find_hashes_congr (l1 l2 : List Device) (k : Nat)
    (h : l1.map Device.hashes = l2.map Device.hashes) :
    (l1.find? (fun d => d.ID = k)).map Device.hashes =
      (l2.find? (fun d => d.ID = k)).map Device.hashes := by
  induction l1 generalizing l2 with
  | nil =>
    cases l2 with
    | nil => rfl
    | cons y ys => simp at h
  | cons x xs ih =>
    cases l2 with
    | nil => simp at h
    | cons y ys =>
      simp only [List.map_cons, List.cons.injEq] at h
      obtain ⟨hxy, hrest⟩ := h
      have hid : x.ID = y.ID := by
        have := congrArg Prod.fst hxy
        simpa [Device.hashes] using this
      simp only [List.find?_cons]
      by_cases hk : x.ID = k
      · have hk2 : y.ID = k := hid ▸ hk
        simp [hk, hk2, hxy]
      · have hk2 : ¬ y.ID = k := fun h => hk (hid.trans h)
        simp only [hk, hk2, decide_False]
        exact ih ys hrest

/-! ## What a save leaves in memory -/

theorem foldl_max_pos {α : Type} (key : α → Nat) (rows : List α) (m : Nat) (hm : 0 < m) :
    0 < rows.foldl (fun m r => max m (key r + 1)) m := by
  induction rows generalizing m with
  | nil => exact hm
  | cons x xs ih =>
    simp only [List.foldl_cons]
    exact ih _ (lt_of_lt_of_le hm (le_max_left _ _))

theorem nextID_ne_zero {α : Type} (key : α → Nat) (rows : List α) : nextID key rows ≠ 0 :=
  Nat.pos_iff_ne_zero.mp (foldl_max_pos key rows 1 Nat.one_pos)

theorem saveDeviceAssoc_id (full : Bool) (d : Device) (ds : List Device) :
    (saveDeviceAssoc full d ds).1.ID ≠ 0 := by
  unfold saveDeviceAssoc
  split
  · exact nextID_ne_zero _ _
  · next h => exact h

theorem saveDeviceAssoc_fixed (full : Bool) (d : Device) (ds : List Device) (h : d.ID ≠ 0) :
    (saveDeviceAssoc full d ds).1 = d := by
  unfold saveDeviceAssoc
  rw [if_neg h]

theorem saveRecord_saved (full : Bool) (r : DispatchRecord) (ds : List Device)
    (rows : List DispatchRecord) :
    (assignRecordID (saveRecordDevice full r ds).1 rows).saved := by
  have h1 : ∀ d, (saveRecordDevice full r ds).1.Device = some d →
      d.ID ≠ 0 ∧ (saveRecordDevice full r ds).1.DeviceID = d.ID := by
    intro d hd
    unfold saveRecordDevice at hd ⊢
    cases hdev : r.Device with
    | none =>
      rw [hdev] at hd
      simp only at hd ⊢
      rw [hdev] at hd
      cases hd
    | some d0 =>
      rw [hdev] at hd
      simp only [Option.some.injEq] at hd ⊢
      subst hd
      exact ⟨saveDeviceAssoc_id full d0 ds, rfl⟩
  unfold assignRecordID
  split
  · exact ⟨nextID_ne_zero _ _, h1⟩
  · next h => exact ⟨h, h1⟩

theorem saveRecord_fixed (full : Bool) (r : DispatchRecord) (ds : List Device)
    (rows : List DispatchRecord) (h : r.saved) :
    assignRecordID (saveRecordDevice full r ds).1 rows = r := by
  obtain ⟨hid, hdev⟩ := h
  have h1 : (saveRecordDevice full r ds).1 = r := by
    unfold saveRecordDevice
    cases hd : r.Device with
    | none => rfl
    | some d =>
      obtain ⟨hd0, hdd⟩ := hdev d hd
      simp only [saveDeviceAssoc_fixed full d ds hd0]
      cases r
      simp only at hd hdd
      simp [hd, hdd]
  rw [h1]
  unfold assignRecordID
  rw [if_neg hid]

theorem foldl_saveRecordAssoc_saved (uid : Nat) (rs : List DispatchRecord)
    (acc : List DispatchRecord × DB) (hacc : ∀ r ∈ acc.1, r.saved) :
    ∀ r ∈ (rs.foldl (saveRecordAssoc uid) acc).1, r.saved := by
  induction rs generalizing acc with
  | nil => exact hacc
  | cons x xs ih =>
    simp only [List.foldl_cons]
    apply ih
    intro r hr
    simp only [saveRecordAssoc, List.mem_append, List.mem_singleton] at hr
    rcases hr with hr | hr
    · exact hacc r hr
    · rw [hr]; exact saveRecord_saved _ _ _ _

theorem foldl_saveRecordAssoc_fixed (uid : Nat) (rs : List DispatchRecord)
    (acc : List DispatchRecord × DB) (hrs : ∀ r ∈ rs, r.saved) :
    (rs.foldl (saveRecordAssoc uid) acc).1 = acc.1 ++ rs := by
  induction rs generalizing acc with
  | nil => simp
  | cons x xs ih =>
    simp only [List.foldl_cons]
    rw [ih _ (fun r hr => hrs r (List.mem_cons_of_mem _ hr))]
    simp only [saveRecordAssoc, saveRecord_fixed _ x _ _ (hrs x (List.mem_cons_self _ _))]
    simp

theorem foldl_saveUpdateDevice_saved (uid : Nat) (ds : List Device)
    (acc : List Device × DB) (hacc : ∀ d ∈ acc.1, d.ID ≠ 0) :
    ∀ d ∈ (ds.foldl (saveUpdateDevice uid) acc).1, d.ID ≠ 0 := by
  induction ds generalizing acc with
  | nil => exact hacc
  | cons x xs ih =>
    simp only [List.foldl_cons]
    apply ih
    intro d hd
    simp only [saveUpdateDevice, List.mem_append, List.mem_singleton] at hd
    rcases hd with hd | hd
    · exact hacc d hd
    · rw [hd]; exact saveDeviceAssoc_id _ _ _

theorem foldl_saveUpdateDevice_fixed (uid : Nat) (ds : List Device)
    (acc : List Device × DB) (hds : ∀ d ∈ ds, d.ID ≠ 0) :
    (ds.foldl (saveUpdateDevice uid) acc).1 = acc.1 ++ ds := by
  induction ds generalizing acc with
  | nil => simp
  | cons x xs ih =>
    simp only [List.foldl_cons]
    rw [ih _ (fun d hd => hds d (List.mem_cons_of_mem _ hd))]
    simp only [saveUpdateDevice, saveDeviceAssoc_fixed _ x _ (hds x (List.mem_cons_self _ _))]
    simp

theorem saveUpdateCommit_saved (full : Bool) (u : UpdateTransaction) (cs : List Commit) :
    (∀ c, (saveUpdateCommit full u cs).1.Commit = some c →
      c.ID ≠ 0 ∧ (saveUpdateCommit full u cs).1.CommitID = c.ID) ∧
    (saveUpdateCommit full u cs).1.ID = u.ID ∧
    (saveUpdateCommit full u cs).1.Devices = u.Devices ∧
    (saveUpdateCommit full u cs).1.DispatchRecords = u.DispatchRecords := by
  unfold saveUpdateCommit
  cases hc : u.Commit with
  | none =>
    refine ⟨fun c h => ?_, rfl, rfl, rfl⟩
    simp only at h
    rw [hc] at h
    cases h
  | some c0 =>
    simp only
    by_cases h0 : c0.ID = 0
    · rw [if_pos h0]
      refine ⟨fun c h => ?_, rfl, rfl, rfl⟩
      simp only [Option.some.injEq] at h
      subst h
      exact ⟨nextID_ne_zero _ _, rfl⟩
    · rw [if_neg h0]
      refine ⟨fun c h => ?_, rfl, rfl, rfl⟩
      simp only [Option.some.injEq] at h
      subst h
      exact ⟨h0, rfl⟩

theorem saveUpdateCommit_fixed (full : Bool) (u : UpdateTransaction) (cs : List Commit)
    (h : ∀ c, u.Commit = some c → c.ID ≠ 0 ∧ u.CommitID = c.ID) :
    (saveUpdateCommit full u cs).1 = u := by
  unfold saveUpdateCommit
  cases hc : u.Commit with
  | none => rfl
  | some c0 =>
    obtain ⟨h0, h1⟩ := h c0 hc
    simp only [if_neg h0]
    cases u
    simp only at h1 hc
    simp [h1, hc]

/-- The update transaction that `Save` returns has primary keys throughout. -/
theorem DB.SaveUpdate_saved (db : DB) (u : UpdateTransaction) :
    (db.SaveUpdate u).1.saved := by
  obtain ⟨h1, h2, h3, h4⟩ := saveUpdateCommit_saved db.FullSaveAssociations u db.commits
  unfold DB.SaveUpdate
  simp only
  by_cases hid : (saveUpdateCommit db.FullSaveAssociations u db.commits).1.ID = 0
  · simp only [hid, if_true]
    refine ⟨nextID_ne_zero _ _, h1, ?_, ?_⟩
    · exact foldl_saveUpdateDevice_saved _ _ _ (fun d hd => by cases hd)
    · exact foldl_saveRecordAssoc_saved _ _ _ (fun d hd => by cases hd)
  · simp only [hid, if_false]
    refine ⟨hid, h1, ?_, ?_⟩
    · exact foldl_saveUpdateDevice_saved _ _ _ (fun d hd => by cases hd)
    · exact foldl_saveRecordAssoc_saved _ _ _ (fun d hd => by cases hd)

/-- Saving again an update transaction that has its primary keys gives it back
unchanged in memory. -/
theorem DB.SaveUpdate_fixed (db : DB) (u : UpdateTransaction) (h : u.saved) :
    (db.SaveUpdate u).1 = u := by
  obtain ⟨hid, hc, hd, hr⟩ := h
  unfold DB.SaveUpdate
  simp only [saveUpdateCommit_fixed db.FullSaveAssociations u db.commits hc, hid, if_false]
  rw [foldl_saveUpdateDevice_fixed _ _ _ hd, foldl_saveRecordAssoc_fixed _ _ _ hr]
  simp

theorem SetUpdateStatus_update_eq (f : Faults) (u : UpdateTransaction) (db : DB) :
    (SetUpdateStatus f u db).1 =
      if f.saveUpdate then { u with Status := aggregate u.Status u.DispatchRecords }
      else (db.SaveUpdate { u with Status := aggregate u.Status u.DispatchRecords }).1 := by
  have key : (if (SetUpdateStatus.loop u.DispatchRecords true u.Status).1 = true then
        ({ u with Status := models.UpdateStatusSuccess } : UpdateTransaction)
      else { u with Status := (SetUpdateStatus.loop u.DispatchRecords true u.Status).2 }) =
      { u with Status := aggregate u.Status u.DispatchRecords } := by
    rw [SetUpdateStatus.loop_eq]
    unfold aggregate
    by_cases h1 : u.DispatchRecords.any
        (fun d => decide (d.Status = DispatchRecordStatus.Error)) = true
    · simp [h1]
    · by_cases h2 : u.DispatchRecords.all
          (fun d => decide (d.Status = DispatchRecordStatus.Complete)) = true
      · simp [h1, h2]
      · simp [h1, h2]
  unfold SetUpdateStatus
  simp only
  rw [key]
  split <;> rfl

theorem aggregate_idem (prior : UpdateStatus) (rs : List DispatchRecord) :
    aggregate (aggregate prior rs) rs = aggregate prior rs := by
  unfold aggregate
  by_cases h1 : rs.any (fun d => decide (d.Status = DispatchRecordStatus.Error)) = true
  · simp [h1]
  · by_cases h2 : rs.all (fun d => decide (d.Status = DispatchRecordStatus.Complete)) = true
    · simp [h1, h2]
    · simp [h1, h2]

/-- Once the first save has succeeded, a second `SetUpdateStatus` returns the
very update transaction the first one returned. -/
theorem SetUpdateStatus_twice (f1 f2 : Faults) (u : UpdateTransaction) (db : DB)
    (hf : f1.saveUpdate = false) :
    (SetUpdateStatus f2 (SetUpdateStatus f1 u db).1 (SetUpdateStatus f1 u db).2.1).1 =
      (SetUpdateStatus f1 u db).1 := by
  have hsaved : (SetUpdateStatus f1 u db).1.saved := by
    rw [SetUpdateStatus_update_eq, hf]
    exact DB.SaveUpdate_saved _ _
  have hst : aggregate (SetUpdateStatus f1 u db).1.Status
      (SetUpdateStatus f1 u db).1.DispatchRecords = (SetUpdateStatus f1 u db).1.Status := by
    have h1 := SetUpdateStatus_status_aggregate f1 u db
    have h2 := SetUpdateStatus_record_statuses f1 u db
    have h3 : ∀ p : UpdateStatus, aggregate p (SetUpdateStatus f1 u db).1.DispatchRecords =
        aggregate p u.DispatchRecords := by
      intro p
      unfold aggregate
      rw [any_eq_of_map_status (fun s => s = DispatchRecordStatus.Error) h2,
        all_eq_of_map_status (fun s => s = DispatchRecordStatus.Complete) h2]
    rw [h3, h1, aggregate_idem]
  have hsame : ({ (SetUpdateStatus f1 u db).1 with
      Status := aggregate (SetUpdateStatus f1 u db).1.Status
        (SetUpdateStatus f1 u db).1.DispatchRecords } : UpdateTransaction) =
      (SetUpdateStatus f1 u db).1 := by
    rw [hst]
  rw [SetUpdateStatus_update_eq f2, hsame]
  split
  · rfl
  · exact DB.SaveUpdate_fixed _ _ hsaved

/-! ## Well-formedness is kept by the processing of an event -/

theorem replaceBy_keys {α : Type} (key : α → Nat) (r : α) (rows : List α) :
    (replaceBy key (key r) r rows).map key = rows.map key := by
  unfold replaceBy
  rw [List.map_map]
  apply List.map_congr_left
  intro x _
  simp only [Function.comp]
  split
  · next h => exact h.symm
  · rfl

theorem upsert_keys_of_any {α : Type} (key : α → Nat) (r : α) (rows : List α)
    (h : rows.any (fun row => key row = key r) = true) :
    (upsert key r rows).map key = rows.map key := by
  unfold upsert
  rw [if_pos h]
  exact replaceBy_keys key r rows

theorem upsertAssoc_keys_wf {α : Type} (full : Bool) (key : α → Nat) (r : α) (rows : List α)
    (hnd : (rows.map key).Nodup) (hnz : ∀ x ∈ rows, key x ≠ 0) (hr : key r ≠ 0) :
    ((upsertAssoc full key r rows).map key).Nodup ∧
    ∀ x ∈ upsertAssoc full key r rows, key x ≠ 0 := by
  unfold upsertAssoc
  by_cases h : rows.any (fun row => key row = key r) = true
  · rw [if_pos h]
    cases full
    · exact ⟨hnd, hnz⟩
    · simp only [if_true]
      constructor
      · rw [replaceBy_keys]; exact hnd
      · intro x hx
        unfold replaceBy at hx
        obtain ⟨y, hy, hxy⟩ := List.mem_map.mp hx
        split at hxy
        · rw [← hxy]; exact hr
        · rw [← hxy]; exact hnz y hy
  · rw [if_neg h]
    have hnot : key r ∉ rows.map key := by
      intro hm
      obtain ⟨y, hy, hyk⟩ := List.mem_map.mp hm
      exact h (List.any_eq_true.mpr ⟨y, hy, by simpa using hyk⟩)
    constructor
    · rw [List.map_append, List.map_singleton]
      exact List.Nodup.append hnd (List.nodup_singleton _)
        (by
          intro a ha hb
          rw [List.mem_singleton] at hb
          exact hnot (hb ▸ ha))
    · intro x hx
      rcases List.mem_append.mp hx with hx | hx
      · exact hnz x hx
      · rw [List.mem_singleton.mp hx]; exact hr

theorem devices_ids_of_hashes (l1 l2 : List Device)
    (h : l1.map Device.hashes = l2.map Device.hashes) :
    l1.map (fun d => d.ID) = l2.map (fun d => d.ID) := by
  have h1 : ∀ l : List Device, l.map (fun d => d.ID) = (l.map Device.hashes).map Prod.fst := by
    intro l
    rw [List.map_map]
    rfl
  rw [h1, h1, h]

theorem wf_of_frame (db db2 : DB) (hwf : db.wf)
    (h1 : db2.dispatch_records = db.dispatch_records)
    (h2 : db2.update_transactions.map (fun u => u.ID) = db.update_transactions.map (fun u => u.ID))
    (h3 : db2.devices.map (fun d => d.ID) = db.devices.map (fun d => d.ID)) :
    db2.wf := by
  obtain ⟨a1, a2, a3, a4, a5, a6⟩ := hwf
  refine ⟨h1 ▸ a1, h2 ▸ a2, h3 ▸ a3, h1 ▸ a4, ?_, ?_⟩
  · intro u hu
    have hm : u.ID ∈ db2.update_transactions.map (fun u => u.ID) :=
      List.mem_map.mpr ⟨u, hu, rfl⟩
    rw [h2] at hm
    obtain ⟨v, hv, hvu⟩ := List.mem_map.mp hm
    rw [← hvu]
    exact a5 v hv
  · intro d hd
    have hm : d.ID ∈ db2.devices.map (fun d => d.ID) := List.mem_map.mpr ⟨d, hd, rfl⟩
    rw [h3] at hm
    obtain ⟨v, hv, hvu⟩ := List.mem_map.mp hm
    rw [← hvu]
    exact a6 v hv

theorem SetUpdateStatusBasedOnDispatchRecord_update_ids (f : Faults) (db : DB)
    (hnd : (db.dispatch_records.map (fun r => r.ID)).Nodup)
    (hrec : ∀ r ∈ db.dispatch_records, r.ID ≠ 0 ∧ r.Device = none)
    (hupd : ∀ u ∈ db.update_transactions, u.ID ≠ 0) (rec : DispatchRecord) :
    (SetUpdateStatusBasedOnDispatchRecord f rec db).1.update_transactions.map (fun u => u.ID) =
      db.update_transactions.map (fun u => u.ID) := by
  by_cases hf3 : f.findUpdate = true
  · unfold SetUpdateStatusBasedOnDispatchRecord DB.FirstUpdateByDispatchRecord
    simp only [hf3, if_true]
  have hf3' : f.findUpdate = false := by simpa using hf3
  cases hl : leastBy (fun u => u.ID) (db.update_transactions.filter
      (fun u => (u.ID, rec.ID) ∈ db.updatetransaction_dispatchrecords)) with
  | none =>
    unfold SetUpdateStatusBasedOnDispatchRecord DB.FirstUpdateByDispatchRecord
    simp only [hf3', Bool.false_eq_true, if_false, hl]
  | some row =>
    have hrow : row ∈ db.update_transactions := (List.mem_filter.mp (leastBy_mem _ _ _ hl)).1
    by_cases hf4 : f.saveUpdate = true
    · have h2 := SetUpdateStatus_save_fault f
        { row.row with DispatchRecords := db.preloadDispatchRecords row.ID } db hf4
      unfold SetUpdateStatusBasedOnDispatchRecord DB.FirstUpdateByDispatchRecord
      simp only [hf3', Bool.false_eq_true, if_false, hl]
      generalize SetUpdateStatus f
        { row.row with DispatchRecords := db.preloadDispatchRecords row.ID } db = res at h2 ⊢
      obtain ⟨a, b, c⟩ := res
      simp only [Prod.mk.injEq] at h2
      obtain ⟨hb, hc⟩ := h2
      subst hb hc
      rfl
    · have hf4' : f.saveUpdate = false := by simpa using hf4
      obtain ⟨u1, _, hset⟩ := SetUpdateStatusBasedOnDispatchRecord_owned f db hnd hrec rec row hl
        (hupd row hrow) hf3' hf4'
      rw [hset]
      obtain ⟨_, h2, _⟩ := UpdateDevicesFromUpdateTransaction_frame f u1
        { db with
          update_transactions :=
            upsert (fun x => x.ID)
              { row.row with
                Status := aggregate row.Status (db.preloadDispatchRecords row.ID) }
              db.update_transactions }
      rw [h2]
      exact upsert_keys_of_any (fun x : UpdateTransaction => x.ID) _ _
        (any_key_of_mem (fun x : UpdateTransaction => x.ID) row _ hrow)

theorem recordSaved_wf (db : DB) (hwf : db.wf) (st : String) (r : DispatchRecord)
    (hdev : ∀ d, eventDevice st r = some d → d.ID ≠ 0) :
    (recordSaved db st r).wf := by
  obtain ⟨h1, h2⟩ := recordSaved_records_wf db hwf st r
  obtain ⟨_, a2, a3, _, a5, a6⟩ := hwf
  have hd : ((recordSaved db st r).devices.map (fun d => d.ID)).Nodup ∧
      ∀ x ∈ (recordSaved db st r).devices, x.ID ≠ 0 := by
    unfold recordSaved devicesAfterSave
    simp only
    cases he : eventDevice st r with
    | none => exact ⟨a3, a6⟩
    | some d =>
      exact upsertAssoc_keys_wf _ (fun x : Device => x.ID) d _ a3 a6 (hdev d he)
  exact ⟨h1, a2, hd.1, h2, a5, hd.2⟩

/-- Processing an event keeps the store well-formed. -/
theorem processEvent_wf (s : UpdateService) (f : Faults) (e : PlaybookDispatcherEvent)
    (w : World) (hwf : w.db.wf) : (processEvent s f e w).1.db.wf := by
  by_cases hrun : e.Payload.Status = PlaybookStatusRunning
  · rw [processEvent_running s f e w hrun]; exact hwf
  cases hl : w.db.FirstDispatchRecord f.findDispatchRecord e.Payload.ID with
  | error err =>
    rw [(processEvent_lookup_error s f e w err hrun hl).1]; exact hwf
  | ok r =>
    have hf1 : f.findDispatchRecord = false := by
      cases hff : f.findDispatchRecord with
      | false => rfl
      | true =>
        rw [hff] at hl
        unfold DB.FirstDispatchRecord at hl
        simp at hl
    rw [hf1] at hl
    by_cases hdev : statusFor e.Payload.Status = DispatchRecordStatus.Complete ∧ r.Device = none
    · have : (processEvent s f e w).1.db = w.db := by
        unfold processEvent
        rw [if_neg hrun]
        by_cases hs : e.Payload.Status = PlaybookStatusSuccess
        · simp only [hs, if_true, hf1]
          rw [hs] at hdev
          simp only [hl, applyPlaybookStatus_eq, if_pos hdev]
        · simp only [hs, if_false, hf1, hl, applyPlaybookStatus_eq, if_pos hdev]
      rw [this]; exact hwf
    by_cases hf2 : f.saveDispatchRecord = true
    · have : (processEvent s f e w).1.db = w.db := by
        unfold processEvent
        rw [if_neg hrun]
        by_cases hs : e.Payload.Status = PlaybookStatusSuccess
        · simp only [hs, if_true, hf1, hf2]
          rw [hs] at hdev
          simp only [hl, applyPlaybookStatus_eq, if_neg hdev]
        · simp only [hs, if_false, hf1, hf2, if_true, hl, applyPlaybookStatus_eq, if_neg hdev]
      rw [this]; exact hwf
    have hf2' : f.saveDispatchRecord = false := by simpa using hf2
    obtain ⟨r0, _, hr, _⟩ := FirstDispatchRecord_ok w.db e.Payload.ID r hl
    have hwf1 : (recordSaved w.db e.Payload.Status r).wf :=
      recordSaved_wf w.db hwf _ r (fun d hd => by
        rw [hr] at hd
        exact (eventDevice_key w.db hwf _ r0 d hd).1)
    have hpe := processEvent_found s f e w r hwf hrun hf1 hf2' hl hdev
    obtain ⟨g1, _, _, g4⟩ := SetUpdateStatusBasedOnDispatchRecord_frame f
      (recordSaved w.db e.Payload.Status r) hwf1.1 hwf1.2.2.2.1 hwf1.2.2.2.2.1
      { r with Status := statusFor e.Payload.Status, Device := eventDevice e.Payload.Status r }
    have g2 := SetUpdateStatusBasedOnDispatchRecord_update_ids f
      (recordSaved w.db e.Payload.Status r) hwf1.1 hwf1.2.2.2.1 hwf1.2.2.2.2.1
      { r with Status := statusFor e.Payload.Status, Device := eventDevice e.Payload.Status r }
    rw [hpe]
    exact wf_of_frame _ _ hwf1 g1 g2 (devices_ids_of_hashes _ _ g4)

/-! ## Lemmas on the device update -/

theorem UpdateDevicesFromUpdateTransaction_steps (f : Faults) (update : UpdateTransaction)
    (db : DB) :
    UpdateDevicesFromUpdateTransaction f update db =
      if update.Status ≠ models.UpdateStatusSuccess then (db, none)
      else if f.reloadUpdate then (db, some Err.ErrStore)
      else
        match db.reloadUpdate update with
        | none => (db, some Err.ErrRecordNotFound)
        | some currentUpdate =>
          match currentUpdate.Commit with
          | none => (db, some Err.ErrUndefinedCommit)
          | some commit =>
            if f.findImage then (db, some Err.ErrStore)
            else
              match db.deviceImage currentUpdate.Account commit with
              | none => (db, some Err.ErrRecordNotFound)
              | some deviceImage =>
                if f.findUpdateImages then (db, some Err.ErrStore)
                else if f.updateDevices then (db, some Err.ErrStore)
                else
                  ({ db with
                      devices :=
                        db.devices.map
                          (updateDeviceRow deviceImage.Account
                            (currentUpdate.Devices.map (fun d => d.ID)) deviceImage.ID
                            (decide ((db.updateImages deviceImage).length > 0))) },
                    none) := by
  unfold UpdateDevicesFromUpdateTransaction DB.reloadUpdate DB.deviceImage DB.updateImages
  by_cases h1 : update.Status ≠ models.UpdateStatusSuccess
  · rw [if_pos h1, if_pos h1]
  rw [if_neg h1, if_neg h1]
  by_cases h2 : f.reloadUpdate = true
  · rw [if_pos h2, if_pos h2]
  rw [if_neg h2, if_neg h2]
  cases leastBy (fun u => u.ID)
      (db.update_transactions.filter
        (fun u_1 => decide (u_1.Account = update.Account ∧ u_1.ID = update.ID))) with
  | none => rfl
  | some row =>
    simp only [Option.map_some']
    cases db.commits.find? (fun c => decide (c.ID = row.CommitID)) with
    | none => rfl
    | some commit =>
      simp only
      by_cases h3 : f.findImage = true
      · rw [if_pos h3, if_pos h3]
      rw [if_neg h3, if_neg h3]
      cases leastBy (fun i => i.ID) (db.images.filter (fun i =>
          decide (i.Account = row.Account ∧
            db.commits.any (fun c =>
              decide (c.ID = i.CommitID ∧ c.OSTreeCommit = commit.OSTreeCommit)) = true))) with
      | none => rfl
      | some deviceImage =>
        simp only
        by_cases h4 : f.findUpdateImages = true
        · rw [if_pos h4, if_pos h4]
        rw [if_neg h4, if_neg h4]
        rfl

theorem reloadUpdate_some (db : DB) (update cu : UpdateTransaction)
    (h : db.reloadUpdate update = some cu) :
    cu.ID = update.ID ∧ cu.Account = update.Account ∧
    cu.Devices = db.preloadDevices update.ID ∧
    cu.Commit = db.commits.find? (fun c => c.ID = cu.CommitID) := by
  unfold DB.reloadUpdate at h
  cases hl : leastBy (fun u => u.ID)
      (db.update_transactions.filter
        (fun u => decide (u.Account = update.Account ∧ u.ID = update.ID))) with
  | none => rw [hl] at h; cases h
  | some row =>
    rw [hl] at h
    simp only [Option.map_some', Option.some.injEq] at h
    have hm := (List.mem_filter.mp (leastBy_mem _ _ _ hl)).2
    simp only [decide_eq_true_eq] at hm
    subst h
    refine ⟨hm.2, hm.1, ?_, rfl⟩
    show db.preloadDevices row.ID = db.preloadDevices update.ID
    rw [hm.2]

theorem deviceImage_some (db : DB) (account : String) (commit : Commit) (img : Image)
    (h : db.deviceImage account commit = some img) :
    img ∈ db.images ∧ img.Account = account := by
  unfold DB.deviceImage at h
  have hm := List.mem_filter.mp (leastBy_mem _ _ _ h)
  refine ⟨hm.1, ?_⟩
  have := hm.2
  simp only [decide_eq_true_eq] at this
  exact this.1

theorem mem_preloadDevices_ids (db : DB) (uid k : Nat)
    (h : k ∈ (db.preloadDevices uid).map (fun d => d.ID)) :
    (uid, k) ∈ db.updatetransaction_devices := by
  obtain ⟨d, hd, hk⟩ := List.mem_map.mp h
  unfold DB.preloadDevices at hd
  have := (List.mem_filter.mp hd).2
  simp only [decide_eq_true_eq] at this
  rw [← hk]
  exact this

/-- How `UpdateDevicesFromUpdateTransaction` changes the store: every table but
the devices is left as it is, and the devices table is the old one with some
function applied to each row which is either the identity or the bulk write of
lines 528 to 530 for the account and the device set of the update. -/
theorem UpdateDevicesFromUpdateTransaction_devices (f : Faults) (update : UpdateTransaction)
    (db : DB) :
    (UpdateDevicesFromUpdateTransaction f update db).1 = db ∨
    ∃ imageID updateAvailable,
      (UpdateDevicesFromUpdateTransaction f update db).1 =
        { db with
          devices :=
            db.devices.map
              (updateDeviceRow update.Account
                ((db.preloadDevices update.ID).map (fun d => d.ID)) imageID updateAvailable) } := by
  rw [UpdateDevicesFromUpdateTransaction_steps]
  by_cases h1 : update.Status ≠ models.UpdateStatusSuccess
  · rw [if_pos h1]; exact Or.inl rfl
  rw [if_neg h1]
  by_cases h2 : f.reloadUpdate = true
  · rw [if_pos h2]; exact Or.inl rfl
  rw [if_neg h2]
  cases hcu : db.reloadUpdate update with
  | none => exact Or.inl rfl
  | some cu =>
    obtain ⟨_, hacc, hdevs, _⟩ := reloadUpdate_some db update cu hcu
    simp only
    cases hc : cu.Commit with
    | none => exact Or.inl rfl
    | some commit =>
      simp only
      by_cases h3 : f.findImage = true
      · rw [if_pos h3]; exact Or.inl rfl
      rw [if_neg h3]
      cases hi : db.deviceImage cu.Account commit with
      | none => exact Or.inl rfl
      | some img =>
        simp only
        by_cases h4 : f.findUpdateImages = true
        · rw [if_pos h4]; exact Or.inl rfl
        rw [if_neg h4]
        by_cases h5 : f.updateDevices = true
        · rw [if_pos h5]; exact Or.inl rfl
        rw [if_neg h5]
        refine Or.inr ⟨img.ID, decide ((db.updateImages img).length > 0), ?_⟩
        rw [(deviceImage_some db cu.Account commit img hi).2, hacc, hdevs]

/-- When `UpdateDevicesFromUpdateTransaction` returns nil for an update in
Success, the update was reloaded with a commit, the image of that commit was
found, and the devices table got the bulk write for that image. -/
theorem UpdateDevicesFromUpdateTransaction_written (f : Faults) (update : UpdateTransaction)
    (db : DB) (hst : update.Status = models.UpdateStatusSuccess)
    (hnil : (UpdateDevicesFromUpdateTransaction f update db).2 = none) :
    ∃ cu commit img,
      db.reloadUpdate update = some cu ∧ cu.Commit = some commit ∧
      db.deviceImage update.Account commit = some img ∧ img.Account = update.Account ∧
      (UpdateDevicesFromUpdateTransaction f update db).1 =
        { db with
          devices :=
            db.devices.map
              (updateDeviceRow update.Account
                ((db.preloadDevices update.ID).map (fun d => d.ID)) img.ID
                (decide ((db.updateImages img).length > 0))) } := by
  rw [UpdateDevicesFromUpdateTransaction_steps] at hnil ⊢
  have h1 : ¬ update.Status ≠ models.UpdateStatusSuccess := fun h => h hst
  rw [if_neg h1] at hnil ⊢
  by_cases h2 : f.reloadUpdate = true
  · rw [if_pos h2] at hnil; cases hnil
  rw [if_neg h2] at hnil ⊢
  cases hcu : db.reloadUpdate update with
  | none => rw [hcu] at hnil; cases hnil
  | some cu =>
    obtain ⟨_, hacc, hdevs, _⟩ := reloadUpdate_some db update cu hcu
    rw [hcu] at hnil
    simp only at hnil ⊢
    cases hc : cu.Commit with
    | none => rw [hc] at hnil; cases hnil
    | some commit =>
      rw [hc] at hnil
      simp only at hnil ⊢
      by_cases h3 : f.findImage = true
      · rw [if_pos h3] at hnil; cases hnil
      rw [if_neg h3] at hnil ⊢
      cases hi : db.deviceImage cu.Account commit with
      | none => rw [hi] at hnil; cases hnil
      | some img =>
        rw [hi] at hnil
        simp only at hnil ⊢
        by_cases h4 : f.findUpdateImages = true
        · rw [if_pos h4] at hnil; cases hnil
        rw [if_neg h4] at hnil ⊢
        by_cases h5 : f.updateDevices = true
        · rw [if_pos h5] at hnil; cases hnil
        rw [if_neg h5]
        have hia := (deviceImage_some db cu.Account commit img hi).2
        refine ⟨cu, commit, img, rfl, hc, ?_, ?_, ?_⟩
        · rw [← hacc]; exact hi
        · rw [hia, hacc]
        · rw [hia, hacc, hdevs]

theorem updateDeviceRow_targeted (account : String) (ids : List Nat) (imageID : Nat)
    (ua : Bool) (d : Device)
    (h : (updateDeviceRow account ids imageID ua d).Account = account ∧
      (updateDeviceRow account ids imageID ua d).ID ∈ ids) :
    (updateDeviceRow account ids imageID ua d).ImageID = imageID ∧
    (updateDeviceRow account ids imageID ua d).UpdateAvailable = ua := by
  unfold updateDeviceRow at h ⊢
  by_cases hc : d.Account = account ∧ d.ID ∈ ids
  · rw [if_pos hc]
    exact ⟨rfl, rfl⟩
  · rw [if_neg hc] at h
    exact absurd h hc

theorem mem_preloadDevices_of_row (db : DB) (uid : Nat) (d : Device) (hd : d ∈ db.devices)
    (hj : (uid, d.ID) ∈ db.updatetransaction_devices) :
    d.ID ∈ (db.preloadDevices uid).map (fun d => d.ID) := by
  refine List.mem_map.mpr ⟨d, ?_, rfl⟩
  unfold DB.preloadDevices
  exact List.mem_filter.mpr ⟨hd, by simpa using hj⟩

theorem updateDeviceRow_key (account : String) (ids : List Nat) (imageID : Nat)
    (ua : Bool) (d : Device) :
    (updateDeviceRow account ids imageID ua d).ID = d.ID ∧
    (updateDeviceRow account ids imageID ua d).Account = d.Account := by
  unfold updateDeviceRow
  split <;> exact ⟨rfl, rfl⟩

/-- The devices of the account and the device set of the update after a
device update that returned nil. -/
theorem UpdateDevicesFromUpdateTransaction_targets (f : Faults) (update : UpdateTransaction)
    (db : DB) (hst : update.Status = models.UpdateStatusSuccess)
    (hnil : (UpdateDevicesFromUpdateTransaction f update db).2 = none) :
    ∃ cu commit img,
      db.reloadUpdate update = some cu ∧ cu.Commit = some commit ∧
      db.deviceImage update.Account commit = some img ∧ img.Account = update.Account ∧
      ∀ d ∈ (UpdateDevicesFromUpdateTransaction f update db).1.devices,
        (update.ID, d.ID) ∈ db.updatetransaction_devices → d.Account = update.Account →
        d.ImageID = img.ID ∧
        d.UpdateAvailable = decide ((db.updateImages img).length > 0) := by
  obtain ⟨cu, commit, img, h1, h2, h3, h4, h5⟩ :=
    UpdateDevicesFromUpdateTransaction_written f update db hst hnil
  refine ⟨cu, commit, img, h1, h2, h3, h4, ?_⟩
  rw [h5]
  intro d hd hj hacc
  simp only at hd
  obtain ⟨d0, hd0, hdd⟩ := List.mem_map.mp hd
  obtain ⟨hk1, hk2⟩ := updateDeviceRow_key update.Account
    ((db.preloadDevices update.ID).map (fun d => d.ID)) img.ID
    (decide ((db.updateImages img).length > 0)) d0
  rw [← hdd] at hj hacc ⊢
  apply updateDeviceRow_targeted
  refine ⟨hacc, ?_⟩
  rw [hk1] at hj ⊢
  exact mem_preloadDevices_of_row db update.ID d0 hd0 hj

theorem updateImages_nonempty_iff (db : DB) (img : Image) :
    decide ((db.updateImages img).length > 0) = true ↔
      ∃ i ∈ db.images, i.Account = img.Account ∧ i.ImageSetID = img.ImageSetID ∧
        i.Status = models.ImageStatusSuccess ∧ i.CreatedAt > img.CreatedAt := by
  rw [decide_eq_true_eq, gt_iff_lt, List.length_pos_iff_exists_mem]
  unfold DB.updateImages
  constructor
  · rintro ⟨i, hi⟩
    obtain ⟨hm, hp⟩ := List.mem_filter.mp hi
    exact ⟨i, hm, by simpa using hp⟩
  · rintro ⟨i, hm, hp⟩
    exact ⟨i, List.mem_filter.mpr ⟨hm, by simpa using hp⟩⟩

/-! ## Lemmas on the validation of a selection -/

theorem ValidateUpdateSelection_true (fault : Bool) (account : String) (imageIds : List Nat)
    (db : DB) (h : (ValidateUpdateSelection fault account imageIds db).1 = true) :
    ∃ a, ((db.images.filter (fun i => i.ID ∈ imageIds ∧ i.Account = account)).map
      (fun i => i.ImageSetID)).dedup = [a] := by
  unfold ValidateUpdateSelection at h
  cases fault with
  | true => simp at h
  | false =>
    simp only [Bool.false_eq_true, if_false, beq_iff_eq] at h
    exact List.length_eq_one.mp h


/-! ### CreateUpdate: the first save and the error save -/

theorem foldl_saveUpdateDevice_frame (uid : Nat) (ds : List Device) (acc : List Device × DB) :
    (ds.foldl (saveUpdateDevice uid) acc).2.dispatch_records = acc.2.dispatch_records ∧
    (ds.foldl (saveUpdateDevice uid) acc).2.updatetransaction_dispatchrecords =
      acc.2.updatetransaction_dispatchrecords ∧
    (ds.foldl (saveUpdateDevice uid) acc).2.FullSaveAssociations =
      acc.2.FullSaveAssociations := by
  induction ds generalizing acc with
  | nil => exact ⟨rfl, rfl, rfl⟩
  | cons d ds ih =>
    simp only [List.foldl_cons]
    obtain ⟨h1, h2, h3⟩ := ih (saveUpdateDevice uid acc d)
    exact ⟨h1, h2, h3⟩

theorem DB.SaveUpdate_id (db : DB) (u : UpdateTransaction) (h : u.ID ≠ 0) :
    (db.SaveUpdate u).1.ID = u.ID := by
  obtain ⟨_, h2, _, _⟩ := saveUpdateCommit_saved db.FullSaveAssociations u db.commits
  unfold DB.SaveUpdate
  simp only
  rw [h2, if_neg h]
  exact h2

theorem DB.SaveUpdate_account (db : DB) (u : UpdateTransaction) :
    (db.SaveUpdate u).1.Account = u.Account := by
  unfold DB.SaveUpdate saveUpdateCommit
  simp only
  cases u.Commit with
  | none => split <;> rfl
  | some c =>
    simp only
    split <;> split <;> rfl

theorem foldl_assoc_dispatch_records (uid : Nat) (ds : List Device) (rs : List DispatchRecord)
    (dbX : DB)
    (hnd : (dbX.dispatch_records.map (fun r => r.ID)).Nodup)
    (hrec : ∀ r ∈ dbX.dispatch_records, r.ID ≠ 0 ∧ r.Device = none)
    (hrows : ∀ r ∈ rs, r ∈ dbX.dispatch_records ∧
      (uid, r.ID) ∈ dbX.updatetransaction_dispatchrecords) :
    (rs.foldl (saveRecordAssoc uid)
        ([], (ds.foldl (saveUpdateDevice uid) ([], dbX)).2)).2.dispatch_records =
      dbX.dispatch_records ∧
    (rs.foldl (saveRecordAssoc uid)
        ([], (ds.foldl (saveUpdateDevice uid) ([], dbX)).2)).2.updatetransaction_dispatchrecords =
      dbX.updatetransaction_dispatchrecords := by
  obtain ⟨g1, g2, _⟩ := foldl_saveUpdateDevice_frame uid ds ([], dbX)
  rw [foldl_saveRecordAssoc_rows]
  · exact ⟨g1, g2⟩
  · rw [g1]; exact hnd
  · intro r hr
    rw [g1, g2]
    exact ⟨(hrows r hr).1, (hrec r (hrows r hr).1).1, (hrec r (hrows r hr).1).2,
      (hrows r hr).2⟩

/-- Saving an update transaction whose dispatch records are rows of the store
that are joined to it leaves the dispatch records and their join table as
they are. -/
theorem DB.SaveUpdate_dispatch_records (db : DB) (u : UpdateTransaction)
    (hnd : (db.dispatch_records.map (fun r => r.ID)).Nodup)
    (hrec : ∀ r ∈ db.dispatch_records, r.ID ≠ 0 ∧ r.Device = none)
    (hrows : ∀ r ∈ u.DispatchRecords, r ∈ db.dispatch_records ∧
      ((db.SaveUpdate u).1.ID, r.ID) ∈ db.updatetransaction_dispatchrecords) :
    (db.SaveUpdate u).2.dispatch_records = db.dispatch_records ∧
    (db.SaveUpdate u).2.updatetransaction_dispatchrecords =
      db.updatetransaction_dispatchrecords := by
  obtain ⟨_, h2, h3, h4⟩ := saveUpdateCommit_saved db.FullSaveAssociations u db.commits
  have hid : (db.SaveUpdate u).1.ID =
      (if (saveUpdateCommit db.FullSaveAssociations u db.commits).1.ID = 0 then
        nextID (fun x : UpdateTransaction => x.ID) db.update_transactions
       else (saveUpdateCommit db.FullSaveAssociations u db.commits).1.ID) := by
    unfold DB.SaveUpdate
    simp only
    split <;> rfl
  rw [hid] at hrows
  unfold DB.SaveUpdate
  simp only
  by_cases h0 : (saveUpdateCommit db.FullSaveAssociations u db.commits).1.ID = 0
  · simp only [h0, if_true] at hrows ⊢
    exact foldl_assoc_dispatch_records _ _ _ _ hnd hrec (by rw [h4]; exact hrows)
  · simp only [h0, if_false] at hrows ⊢
    exact foldl_assoc_dispatch_records _ _ _ _ hnd hrec (by rw [h4]; exact hrows)

theorem FindUpdate_found (db : DB) (id : Nat) (st : UpdateStatus) (row : UpdateTransaction)
    (h : db.update_transactions.find? (fun u => u.ID = id) = some row) :
    (db.FindUpdate id st).ID = id ∧
    (db.FindUpdate id st).DispatchRecords = db.preloadDispatchRecords id ∧
    (db.FindUpdate id st).Devices = db.preloadDevices id ∧
    (db.FindUpdate id st).Account = row.Account ∧
    (db.FindUpdate id st).Status = st := by
  have hid : row.ID = id := by simpa using List.find?_some h
  unfold DB.FindUpdate
  rw [h]
  simp only
  rw [hid]
  refine ⟨?_, ?_, ?_, ?_, ?_⟩ <;> first | rfl | trivial

/-- The store after line 108 of `CreateUpdate`: the dispatch records and their
join table are as before, and the row of the update is still there. -/
theorem CreateUpdate_first_save (db : DB) (hwf : db.wf) (id : Nat) (hid : id ≠ 0)
    (row : UpdateTransaction)
    (hrow : db.update_transactions.find? (fun u => u.ID = id) = some row) (b : Bool) :
    (if b then db else (db.SaveUpdate (db.FindUpdate id models.UpdateStatusBuilding)).2).dispatch_records
      = db.dispatch_records ∧
    (if b then db
      else (db.SaveUpdate
        (db.FindUpdate id models.UpdateStatusBuilding)).2).updatetransaction_dispatchrecords
      = db.updatetransaction_dispatchrecords ∧
    ∃ row0,
      (if b then db
        else (db.SaveUpdate
          (db.FindUpdate id models.UpdateStatusBuilding)).2).update_transactions.find?
        (fun u => u.ID = id) = some row0 ∧ row0.ID = id := by
  have hrid : row.ID = id := by simpa using List.find?_some hrow
  cases b with
  | true => exact ⟨rfl, rfl, row, hrow, hrid⟩
  | false =>
    simp only [Bool.false_eq_true, if_false]
    obtain ⟨f1, f2, _, _, _⟩ := FindUpdate_found db id models.UpdateStatusBuilding row hrow
    have hsid : (db.SaveUpdate (db.FindUpdate id models.UpdateStatusBuilding)).1.ID = id := by
      rw [DB.SaveUpdate_id _ _ (by rw [f1]; exact hid), f1]
    obtain ⟨g1, g2⟩ := DB.SaveUpdate_dispatch_records db
      (db.FindUpdate id models.UpdateStatusBuilding) hwf.1 hwf.2.2.2.1
      (by
        intro r hr
        rw [f2] at hr
        rw [hsid]
        exact preload_mem db id r hr)
    refine ⟨g1, g2, (db.SaveUpdate (db.FindUpdate id models.UpdateStatusBuilding)).1.row, ?_, ?_⟩
    · rw [DB.SaveUpdate_update_transactions]
      have h := find_upsert_same (fun x : UpdateTransaction => x.ID)
        (db.SaveUpdate (db.FindUpdate id models.UpdateStatusBuilding)).1.row
        db.update_transactions
      have hk : (db.SaveUpdate (db.FindUpdate id models.UpdateStatusBuilding)).1.row.ID = id :=
        hsid
      rw [hk] at h
      exact h
    · exact hsid

/-- Saving, with status Error, an update that carries only rows of the store. -/
theorem SaveUpdate_error_effect (db : DB)
    (hnd : (db.dispatch_records.map (fun r => r.ID)).Nodup)
    (hrec : ∀ r ∈ db.dispatch_records, r.ID ≠ 0 ∧ r.Device = none)
    (u : UpdateTransaction) (hid : u.ID ≠ 0)
    (hrows : ∀ r ∈ u.DispatchRecords, r ∈ db.dispatch_records ∧
      (u.ID, r.ID) ∈ db.updatetransaction_dispatchrecords) :
    (db.SaveUpdate { u with Status := models.UpdateStatusError }).2.dispatch_records =
      db.dispatch_records ∧
    (db.SaveUpdate { u with Status := models.UpdateStatusError }).2.updatetransaction_dispatchrecords =
      db.updatetransaction_dispatchrecords ∧
    (db.SaveUpdate { u with Status := models.UpdateStatusError }).2.statusOf u.ID =
      some models.UpdateStatusError := by
  have hsid : (db.SaveUpdate { u with Status := models.UpdateStatusError }).1.ID = u.ID :=
    DB.SaveUpdate_id db { u with Status := models.UpdateStatusError } hid
  obtain ⟨g1, g2⟩ := DB.SaveUpdate_dispatch_records db
    { u with Status := models.UpdateStatusError } hnd hrec
    (by
      intro r hr
      rw [hsid]
      exact hrows r hr)
  refine ⟨g1, g2, ?_⟩
  have := DB.SaveUpdate_statusOf db { u with Status := models.UpdateStatusError }
  rw [hsid] at this
  exact this

theorem statusOf_congr (X : DB) (a b : Nat) (s : Option UpdateStatus) (h : a = b)
    (hs : X.statusOf a = s) : X.statusOf b = s := h ▸ hs

/-! ### CreateUpdate: the fan-out -/

theorem CreateUpdate.responses_append (url : String) (sf : Bool)
    (a b : List DispatcherResponse) (device : Device) (records : List DispatchRecord)
    (db : DB) :
    CreateUpdate.responses url sf (a ++ b) device records db =
      CreateUpdate.responses url sf b
        (CreateUpdate.responses url sf a device records db).1
        (CreateUpdate.responses url sf a device records db).2.1
        (CreateUpdate.responses url sf a device records db).2.2 := by
  induction a generalizing device records db with
  | nil => rfl
  | cons x xs ih =>
    simp only [List.cons_append, CreateUpdate.responses]
    exact ih _ _ _

theorem DB.SaveDevice_fst (db : DB) (d : Device) (h : d.ID ≠ 0) :
    (db.SaveDevice d).1 = d := by
  unfold DB.SaveDevice
  rw [if_neg h]

theorem DB.SaveDevice_connected (db : DB) (d : Device) :
    (db.SaveDevice d).1.Connected = d.Connected := by
  unfold DB.SaveDevice
  split <;> rfl

theorem DB.SaveDevice_stored (db : DB) (d : Device) (h : d.ID ≠ 0) :
    (db.SaveDevice d).2.deviceOf d.ID = some d := by
  unfold DB.SaveDevice DB.deviceOf
  rw [if_neg h]
  exact find_upsert_same (fun x : Device => x.ID) d db.devices

theorem CreateUpdate.responses_device (url : String) (sf : Bool)
    (exc : List DispatcherResponse) (device : Device) (records : List DispatchRecord)
    (db : DB) (h : device.ID ≠ 0) (c : Bool) :
    { (CreateUpdate.responses url sf exc device records db).1 with Connected := c } =
      { device with Connected := c } := by
  induction exc generalizing device records db with
  | nil => rfl
  | cons x xs ih =>
    simp only [CreateUpdate.responses]
    by_cases hx : x.StatusCode = http.StatusCreated
    · simp only [if_pos hx]
      cases sf with
      | true =>
        simp only [if_true]
        rw [ih _ _ _ (by exact h)]
      | false =>
        simp only [Bool.false_eq_true, if_false]
        rw [DB.SaveDevice_fst _ _ (by exact h)]
        rw [ih _ _ _ (by exact h)]
    · simp only [if_neg hx]
      cases sf with
      | true =>
        simp only [if_true]
        rw [ih _ _ _ (by exact h)]
      | false =>
        simp only [Bool.false_eq_true, if_false]
        rw [DB.SaveDevice_fst _ _ (by exact h)]
        rw [ih _ _ _ (by exact h)]

theorem saveDeviceAssoc_rhc (full : Bool) (d : Device) (devices : List Device) :
    (saveDeviceAssoc full d devices).1.RHCClientID = d.RHCClientID := by
  unfold saveDeviceAssoc
  split <;> rfl

theorem foldl_saveUpdateDevice_rhc (uid : Nat) (ds : List Device) (acc : List Device × DB) :
    (ds.foldl (saveUpdateDevice uid) acc).1.map (fun d => d.RHCClientID) =
      acc.1.map (fun d => d.RHCClientID) ++ ds.map (fun d => d.RHCClientID) := by
  induction ds generalizing acc with
  | nil => simp
  | cons d ds ih =>
    simp only [List.foldl_cons]
    rw [ih]
    simp only [saveUpdateDevice, List.map_append, List.map_cons, List.map_nil,
      saveDeviceAssoc_rhc, List.append_assoc, List.singleton_append]

theorem DB.SaveUpdate_devices_rhc (db : DB) (u : UpdateTransaction) :
    (db.SaveUpdate u).1.Devices.map (fun d => d.RHCClientID) =
      u.Devices.map (fun d => d.RHCClientID) := by
  obtain ⟨_, _, h3, _⟩ := saveUpdateCommit_saved db.FullSaveAssociations u db.commits
  unfold DB.SaveUpdate
  simp only
  rw [foldl_saveUpdateDevice_rhc]
  simp only [List.map_nil, List.nil_append]
  split
  · exact congrArg _ h3
  · exact congrArg _ h3

theorem SetUpdateStatus_saved_eq (f : Faults) (u : UpdateTransaction) (db : DB)
    (h : f.saveUpdate = false) :
    SetUpdateStatus f u db =
      ((SetUpdateStatus f u db).1, (SetUpdateStatus f u db).2.1, none) := by
  unfold SetUpdateStatus
  simp only [h, Bool.false_eq_true, if_false]

theorem SetUpdateStatus_devices_rhc (f : Faults) (u : UpdateTransaction) (db : DB) :
    (SetUpdateStatus f u db).1.Devices.map (fun d => d.RHCClientID) =
      u.Devices.map (fun d => d.RHCClientID) := by
  rw [SetUpdateStatus_update_eq]
  split
  · rfl
  · exact DB.SaveUpdate_devices_rhc _ _

theorem SetUpdateStatus_account (f : Faults) (u : UpdateTransaction) (db : DB) :
    (SetUpdateStatus f u db).1.Account = u.Account := by
  rw [SetUpdateStatus_update_eq]
  split
  · rfl
  · exact DB.SaveUpdate_account _ _

theorem CreateUpdate.fanOut_requests (env : CreateEnv) (url : String)
    (hex : ∀ p, ∃ exc, env.ExecuteDispatcher p = .ok exc)
    (hsave : ∀ i, (env.statusFaults i).saveUpdate = false)
    (n i : Nat) (update : UpdateTransaction) (db : DB)
    (hlen : update.Devices.length = n + i) :
    (CreateUpdate.fanOut env url n i update db).2.2.2 =
      ((update.Devices.drop i).map (fun d => d.RHCClientID)).map
        (fun c => (⟨c, url, update.Account⟩ : DispatcherPayload)) ∧
    (CreateUpdate.fanOut env url n i update db).2.2.1 = none := by
  induction n generalizing i update db with
  | zero =>
    have : update.Devices.drop i = [] := by
      apply List.drop_eq_nil_of_le
      omega
    simp only [CreateUpdate.fanOut, this, List.map_nil, and_self]
  | succ n ih =>
    have key : ∀ (U : UpdateTransaction) (D : DB) (tl : List Device),
        U.Devices = update.Devices → U.Account = update.Account →
        update.Devices.drop (i + 1) = tl →
        (CreateUpdate.fanOut env url n (i + 1) (SetUpdateStatus (env.statusFaults i) U D).1
            (SetUpdateStatus (env.statusFaults i) U D).2.1).2.2.2 =
          (tl.map (fun d => d.RHCClientID)).map
            (fun c => (⟨c, url, update.Account⟩ : DispatcherPayload)) ∧
        (CreateUpdate.fanOut env url n (i + 1) (SetUpdateStatus (env.statusFaults i) U D).1
            (SetUpdateStatus (env.statusFaults i) U D).2.1).2.2.1 = none := by
      intro U D tl hU hA htl
      have hr := SetUpdateStatus_devices_rhc (env.statusFaults i) U D
      have hlen2 : (SetUpdateStatus (env.statusFaults i) U D).1.Devices.length = n + (i + 1) := by
        have := congrArg List.length hr
        simp only [List.length_map] at this
        rw [this, hU]
        omega
      obtain ⟨i1, i2⟩ := ih (i + 1) _ _ hlen2
      refine ⟨?_, i2⟩
      rw [i1, SetUpdateStatus_account, hA, List.map_drop, hr, hU, ← List.map_drop, htl]
    unfold CreateUpdate.fanOut
    cases hd : update.Devices.drop i with
    | nil =>
      have := List.drop_eq_nil_iff.mp hd
      omega
    | cons device tl =>
      simp only
      obtain ⟨exc, he⟩ := hex ⟨device.RHCClientID, url, update.Account⟩
      simp only [he]
      rw [SetUpdateStatus_saved_eq _ _ _ (hsave i)]
      simp only
      have htl : update.Devices.drop (i + 1) = tl := by
        rw [← List.drop_drop, hd]
        rfl
      constructor
      · refine (congrArg (List.cons _) (And.left (key _ _ tl ?_ ?_ htl))).trans ?_
        · rfl
        · rfl
        · simp only [List.map_cons]
      · refine And.right (key _ _ tl ?_ ?_ htl)
        · rfl
        · rfl

/-! ### A run of events -/

theorem processEvent_cases (s : UpdateService) (f : Faults) (e : PlaybookDispatcherEvent)
    (w : World) (hwf : w.db.wf) :
    (processEvent s f e w).1.db.updatetransaction_dispatchrecords =
      w.db.updatetransaction_dispatchrecords ∧
    (((processEvent s f e w).1.db.dispatch_records = w.db.dispatch_records ∧
        (processEvent s f e w).1.db.update_transactions = w.db.update_transactions) ∨
      ∃ r0 ∈ w.db.dispatch_records,
        (e.Payload.ID ≠ "" → r0.PlaybookDispatcherID = e.Payload.ID) ∧
        (processEvent s f e w).1.db.dispatch_records =
          setRecordStatus r0.ID (statusFor e.Payload.Status) w.db.dispatch_records ∧
        ((processEvent s f e w).1.db.update_transactions = w.db.update_transactions ∨
          ∃ row ∈ w.db.update_transactions,
            (processEvent s f e w).1.db.update_transactions =
              upsert (fun x => x.ID)
                { row.row with
                  Status := aggregate row.Status
                    ((processEvent s f e w).1.db.preloadDispatchRecords row.ID) }
                w.db.update_transactions)) := by
  by_cases hrun : e.Payload.Status = PlaybookStatusRunning
  · rw [processEvent_running s f e w hrun]
    exact ⟨rfl, Or.inl ⟨rfl, rfl⟩⟩
  cases hl : w.db.FirstDispatchRecord f.findDispatchRecord e.Payload.ID with
  | error err =>
    rw [(processEvent_lookup_error s f e w err hrun hl).1]
    exact ⟨rfl, Or.inl ⟨rfl, rfl⟩⟩
  | ok r =>
    have hf1 : f.findDispatchRecord = false := by
      cases hff : f.findDispatchRecord with
      | false => rfl
      | true =>
        rw [hff] at hl
        unfold DB.FirstDispatchRecord at hl
        simp at hl
    rw [hf1] at hl
    by_cases hdev : statusFor e.Payload.Status = DispatchRecordStatus.Complete ∧ r.Device = none
    · have : (processEvent s f e w).1.db = w.db := by
        unfold processEvent
        rw [if_neg hrun]
        by_cases hs : e.Payload.Status = PlaybookStatusSuccess
        · simp only [hs, if_true, hf1]
          rw [hs] at hdev
          simp only [hl, applyPlaybookStatus_eq, if_pos hdev]
        · simp only [hs, if_false, hf1, hl, applyPlaybookStatus_eq, if_pos hdev]
      rw [this]
      exact ⟨rfl, Or.inl ⟨rfl, rfl⟩⟩
    by_cases hf2 : f.saveDispatchRecord = true
    · have : (processEvent s f e w).1.db = w.db := by
        unfold processEvent
        rw [if_neg hrun]
        by_cases hs : e.Payload.Status = PlaybookStatusSuccess
        · simp only [hs, if_true, hf1, hf2]
          rw [hs] at hdev
          simp only [hl, applyPlaybookStatus_eq, if_neg hdev]
        · simp only [hs, if_false, hf1, hf2, if_true, hl, applyPlaybookStatus_eq, if_neg hdev]
      rw [this]
      exact ⟨rfl, Or.inl ⟨rfl, rfl⟩⟩
    have hf2' : f.saveDispatchRecord = false := by simpa using hf2
    obtain ⟨r0, hr0, hr, hpid⟩ := FirstDispatchRecord_ok w.db e.Payload.ID r hl
    have hrid : r.ID = r0.ID := by rw [hr]
    have hwf1 : (recordSaved w.db e.Payload.Status r).wf :=
      recordSaved_wf w.db hwf _ r (fun d hd => by
        rw [hr] at hd
        exact (eventDevice_key w.db hwf _ r0 d hd).1)
    have hpe := processEvent_found s f e w r hwf hrun hf1 hf2' hl hdev
    obtain ⟨g1, g2, _, _⟩ := SetUpdateStatusBasedOnDispatchRecord_frame f
      (recordSaved w.db e.Payload.Status r) hwf1.1 hwf1.2.2.2.1 hwf1.2.2.2.2.1
      { r with Status := statusFor e.Payload.Status, Device := eventDevice e.Payload.Status r }
    have hdb : (processEvent s f e w).1.db = (SetUpdateStatusBasedOnDispatchRecord f
        { r with Status := statusFor e.Payload.Status,
                 Device := eventDevice e.Payload.Status r }
        (recordSaved w.db e.Payload.Status r)).1 := by
      rw [hpe]
    have hrecs : (processEvent s f e w).1.db.dispatch_records =
        setRecordStatus r0.ID (statusFor e.Payload.Status) w.db.dispatch_records := by
      rw [hdb, g1, ← hrid]
      rfl
    have hjoin : (processEvent s f e w).1.db.updatetransaction_dispatchrecords =
        w.db.updatetransaction_dispatchrecords := by
      rw [hdb, g2]
      rfl
    refine ⟨hjoin, Or.inr ⟨r0, hr0, hpid, hrecs, ?_⟩⟩
    have hpre : ∀ uid, (processEvent s f e w).1.db.preloadDispatchRecords uid =
        (recordSaved w.db e.Payload.Status r).preloadDispatchRecords uid := by
      intro uid
      apply preload_congr
      · rw [hdb, g1]
      · rw [hdb, g2]
    cases hfu : (recordSaved w.db e.Payload.Status r).FirstUpdateByDispatchRecord f.findUpdate
        r.ID with
    | error err =>
      left
      rw [hdb]
      unfold SetUpdateStatusBasedOnDispatchRecord
      simp only [hfu]
      rfl
    | ok u =>
      have hf3 : f.findUpdate = false := by
        cases hff : f.findUpdate with
        | false => rfl
        | true =>
          rw [hff] at hfu
          unfold DB.FirstUpdateByDispatchRecord at hfu
          simp at hfu
      rw [hf3] at hfu
      obtain ⟨row, hrow, hleast, _, _⟩ := FirstUpdateByDispatchRecord_ok _ _ u hfu
      cases hf4 : f.saveUpdate with
      | true =>
        left
        rw [hdb]
        unfold SetUpdateStatusBasedOnDispatchRecord
        simp only [hf3, hfu]
        have := SetUpdateStatus_save_fault f u (recordSaved w.db e.Payload.Status r) hf4
        rw [show SetUpdateStatus f u (recordSaved w.db e.Payload.Status r) =
          ((SetUpdateStatus f u (recordSaved w.db e.Payload.Status r)).1,
            (SetUpdateStatus f u (recordSaved w.db e.Payload.Status r)).2) from rfl, this]
        rfl
      | false =>
        right
        refine ⟨row, hrow, ?_⟩
        obtain ⟨u1, _, hown⟩ := SetUpdateStatusBasedOnDispatchRecord_owned f
          (recordSaved w.db e.Payload.Status r) hwf1.1 hwf1.2.2.2.1
          { r with Status := statusFor e.Payload.Status,
                   Device := eventDevice e.Payload.Status r }
          row hleast (hwf1.2.2.2.2.1 row hrow) hf3 hf4
        rw [hpre, hdb, hown]
        rw [(UpdateDevicesFromUpdateTransaction_frame f u1 _).2.1]
        rfl

theorem processEvent_keys (s : UpdateService) (f : Faults) (e : PlaybookDispatcherEvent)
    (w : World) (hwf : w.db.wf) :
    (∀ r ∈ (processEvent s f e w).1.db.dispatch_records, ∃ x ∈ w.db.dispatch_records,
      r.ID = x.ID ∧ r.PlaybookDispatcherID = x.PlaybookDispatcherID) ∧
    (processEvent s f e w).1.db.dispatch_records.map (fun r => r.ID) =
      w.db.dispatch_records.map (fun r => r.ID) ∧
    (processEvent s f e w).1.db.update_transactions.map (fun u => u.ID) =
      w.db.update_transactions.map (fun u => u.ID) ∧
    (processEvent s f e w).1.db.updatetransaction_dispatchrecords =
      w.db.updatetransaction_dispatchrecords := by
  obtain ⟨hj, hc⟩ := processEvent_cases s f e w hwf
  rcases hc with ⟨h1, h2⟩ | ⟨r0, _, _, h1, h2⟩
  · rw [h1, h2]
    exact ⟨fun r hr => ⟨r, hr, rfl, rfl⟩, rfl, rfl, hj⟩
  · refine ⟨?_, ?_, ?_, hj⟩
    · intro r hr
      rw [h1] at hr
      obtain ⟨x, hx, g1, _, _, g4, _⟩ := setRecordStatus_mem _ _ _ r hr
      exact ⟨x, hx, g1, g4⟩
    · rw [h1, setRecordStatus_ids]
    · rcases h2 with h2 | ⟨row, hrow, h2⟩
      · rw [h2]
      · rw [h2]
        exact upsert_keys_of_any (fun x : UpdateTransaction => x.ID) _ _
          (any_key_of_mem (fun x : UpdateTransaction => x.ID) row _ hrow)

theorem identifies_of_keys (db db2 : DB) (pid : String) (k uid : Nat)
    (h1 : ∀ r ∈ db2.dispatch_records, ∃ x ∈ db.dispatch_records,
      r.ID = x.ID ∧ r.PlaybookDispatcherID = x.PlaybookDispatcherID)
    (h2 : db2.dispatch_records.map (fun r => r.ID) = db.dispatch_records.map (fun r => r.ID))
    (h3 : db2.update_transactions.map (fun u => u.ID) =
      db.update_transactions.map (fun u => u.ID))
    (h4 : db2.updatetransaction_dispatchrecords = db.updatetransaction_dispatchrecords)
    (h : db.identifies pid k uid) : db2.identifies pid k uid := by
  obtain ⟨a, b, c, d⟩ := h
  refine ⟨?_, ?_, ?_, ?_⟩
  · intro r hr
    obtain ⟨x, hx, g1, g2⟩ := h1 r hr
    rw [g1, g2]
    exact a x hx
  · obtain ⟨r, hr, hk⟩ := b
    have : k ∈ db2.dispatch_records.map (fun r => r.ID) := by
      rw [h2]
      exact List.mem_map.mpr ⟨r, hr, hk⟩
    obtain ⟨r2, hr2, hk2⟩ := List.mem_map.mp this
    exact ⟨r2, hr2, hk2⟩
  · intro u hu
    have : u.ID ∈ db.update_transactions.map (fun u => u.ID) := by
      rw [← h3]
      exact List.mem_map.mpr ⟨u, hu, rfl⟩
    obtain ⟨u2, hu2, hk2⟩ := List.mem_map.mp this
    rw [h4, ← hk2]
    exact c u2 hu2
  · obtain ⟨u, hu, hk⟩ := d
    have : uid ∈ db2.update_transactions.map (fun u => u.ID) := by
      rw [h3]
      exact List.mem_map.mpr ⟨u, hu, hk⟩
    obtain ⟨u2, hu2, hk2⟩ := List.mem_map.mp this
    exact ⟨u2, hu2, hk2⟩

theorem processEvent_identifies (s : UpdateService) (f : Faults) (e : PlaybookDispatcherEvent)
    (w : World) (hwf : w.db.wf) (pid : String) (k uid : Nat)
    (h : w.db.identifies pid k uid) :
    (processEvent s f e w).1.db.identifies pid k uid := by
  obtain ⟨h1, h2, h3, h4⟩ := processEvent_keys s f e w hwf
  exact identifies_of_keys _ _ pid k uid h1 h2 h3 h4 h

theorem identifies_joined (db : DB) (pid : String) (k uid : Nat)
    (h : db.identifies pid k uid) : (uid, k) ∈ db.updatetransaction_dispatchrecords := by
  obtain ⟨_, _, c, u, hu, hk⟩ := h
  have := (c u hu).mpr hk
  rw [hk] at this
  exact this

theorem preload_has_error (db : DB) (k uid : Nat)
    (h1 : db.recordStatusOf k = some DispatchRecordStatus.Error)
    (h2 : (uid, k) ∈ db.updatetransaction_dispatchrecords) :
    ∃ d ∈ db.preloadDispatchRecords uid, d.Status = DispatchRecordStatus.Error := by
  unfold DB.recordStatusOf at h1
  cases hf : db.dispatch_records.find? (fun r => r.ID = k) with
  | none =>
    rw [hf] at h1
    cases h1
  | some d =>
    rw [hf] at h1
    simp only [Option.map_some', Option.some.injEq] at h1
    have hm := List.mem_of_find?_eq_some hf
    have hk : d.ID = k := by
      have := List.find?_some hf
      simpa using this
    refine ⟨d, ?_, h1⟩
    unfold DB.preloadDispatchRecords
    rw [List.mem_filter]
    refine ⟨hm, ?_⟩
    rw [hk]
    simpa using h2

theorem find_upsert_key (r : UpdateTransaction) (rows : List UpdateTransaction) (k : Nat)
    (hk : r.ID = k) :
    (upsert (fun x => x.ID) r rows).find? (fun u => u.ID = k) = some r := by
  subst hk
  exact find_upsert_same (fun x : UpdateTransaction => x.ID) r rows

theorem processEvent_keeps_error (s : UpdateService) (f : Faults) (e : PlaybookDispatcherEvent)
    (w : World) (hwf : w.db.wf) (pid : String) (k uid : Nat)
    (h : w.db.identifies pid k uid)
    (hne : e.Payload.ID ≠ "") (hpid : e.Payload.ID ≠ pid)
    (hk : w.db.recordStatusOf k = some DispatchRecordStatus.Error)
    (hu : w.db.statusOf uid = some UpdateStatus.Error) :
    (processEvent s f e w).1.db.recordStatusOf k = some DispatchRecordStatus.Error ∧
    (processEvent s f e w).1.db.statusOf uid = some UpdateStatus.Error := by
  obtain ⟨hj, hc⟩ := processEvent_cases s f e w hwf
  have hjoin : (uid, k) ∈ (processEvent s f e w).1.db.updatetransaction_dispatchrecords := by
    rw [hj]
    exact identifies_joined _ pid k uid h
  rcases hc with ⟨h1, h2⟩ | ⟨r0, hr0, hp, h1, h2⟩
  · unfold DB.recordStatusOf DB.statusOf
    rw [h1, h2]
    exact ⟨hk, hu⟩
  · have hr0k : k ≠ r0.ID := by
      intro hkk
      have := (h.1 r0 hr0).mpr hkk.symm
      rw [hp hne] at this
      exact hpid this
    have hk2 : (processEvent s f e w).1.db.recordStatusOf k =
        some DispatchRecordStatus.Error := by
      unfold DB.recordStatusOf
      rw [h1, find_setRecordStatus_other _ _ _ _ hr0k]
      exact hk
    refine ⟨hk2, ?_⟩
    rcases h2 with h2 | ⟨row, _, h2⟩
    · unfold DB.statusOf
      rw [h2]
      exact hu
    · by_cases hrow : row.ID = uid
      · have hagg := aggregate_error row.Status _
          (preload_has_error _ k row.ID hk2 (by rw [hrow]; exact hjoin))
        have hfind := find_upsert_key
          { row.row with
            Status := aggregate row.Status
              ((processEvent s f e w).1.db.preloadDispatchRecords row.ID) }
          w.db.update_transactions uid hrow
        unfold DB.statusOf
        rw [h2, hfind]
        exact congrArg some hagg
      · have hne2 : uid ≠ ({ row.row with
            Status := aggregate row.Status
              ((processEvent s f e w).1.db.preloadDispatchRecords row.ID) } :
              UpdateTransaction).ID := fun hh => hrow hh.symm
        unfold DB.statusOf
        rw [h2, find_upsert_other (fun x : UpdateTransaction => x.ID) _ uid _ hne2]
        exact hu

theorem statusFor_failure (st : String)
    (h : st = PlaybookStatusFailure ∨ st = PlaybookStatusTimeout) :
    statusFor st = DispatchRecordStatus.Error := by
  unfold statusFor
  rw [if_pos h]

theorem failure_not_running (st : String)
    (h : st = PlaybookStatusFailure ∨ st = PlaybookStatusTimeout) :
    st ≠ PlaybookStatusRunning := by
  rcases h with h | h <;> rw [h] <;> decide

theorem identifies_lookup (db : DB) (pid : String) (k uid : Nat) (hne : pid ≠ "")
    (h : db.identifies pid k uid) :
    ∃ r, db.FirstDispatchRecord false pid = .ok r ∧ r.ID = k := by
  obtain ⟨a, ⟨rk, hrk, hk⟩, _, _⟩ := h
  unfold DB.FirstDispatchRecord
  simp only [Bool.false_eq_true, if_false, if_neg hne]
  cases hl : leastBy (fun r => r.ID)
      (db.dispatch_records.filter (fun r => r.PlaybookDispatcherID = pid)) with
  | none =>
    have hnil := (leastBy_eq_none _ _).mp hl
    have : rk ∈ db.dispatch_records.filter (fun r => r.PlaybookDispatcherID = pid) := by
      rw [List.mem_filter]
      exact ⟨hrk, by simpa using (a rk hrk).mpr hk⟩
    rw [hnil] at this
    cases this
  | some r0 =>
    have hm := leastBy_mem _ _ _ hl
    rw [List.mem_filter] at hm
    refine ⟨_, rfl, ?_⟩
    exact (a r0 hm.1).mp (by simpa using hm.2)

theorem identifies_owner (db : DB) (pid : String) (k uid : Nat)
    (h : db.identifies pid k uid) :
    ∃ u, db.FirstUpdateByDispatchRecord false k = .ok u ∧ u.ID = uid := by
  obtain ⟨_, _, c, ⟨u0, hu0, hk⟩⟩ := h
  unfold DB.FirstUpdateByDispatchRecord
  simp only [Bool.false_eq_true, if_false]
  cases hl : leastBy (fun u => u.ID)
      (db.update_transactions.filter
        (fun u => (u.ID, k) ∈ db.updatetransaction_dispatchrecords)) with
  | none =>
    have hnil := (leastBy_eq_none _ _).mp hl
    have : u0 ∈ db.update_transactions.filter
        (fun u => (u.ID, k) ∈ db.updatetransaction_dispatchrecords) := by
      rw [List.mem_filter]
      exact ⟨hu0, by simpa using (c u0 hu0).mpr hk⟩
    rw [hnil] at this
    cases this
  | some row =>
    have hm := leastBy_mem _ _ _ hl
    rw [List.mem_filter] at hm
    refine ⟨_, rfl, ?_⟩
    exact (c row hm.1).mp (by simpa using hm.2)

theorem processEvent_failure (s : UpdateService) (f : Faults) (e : PlaybookDispatcherEvent)
    (w : World) (hwf : w.db.wf) (k uid : Nat)
    (h : w.db.identifies e.Payload.ID k uid) (hne : e.Payload.ID ≠ "")
    (hfail : e.Payload.Status = PlaybookStatusFailure ∨ e.Payload.Status = PlaybookStatusTimeout)
    (hf1 : f.findDispatchRecord = false) (hf2 : f.saveDispatchRecord = false)
    (hf3 : f.findUpdate = false) (hf4 : f.saveUpdate = false) :
    (processEvent s f e w).1.db.recordStatusOf k = some DispatchRecordStatus.Error ∧
    (processEvent s f e w).1.db.statusOf uid = some UpdateStatus.Error := by
  obtain ⟨r, hfind, hrk⟩ := identifies_lookup _ _ k uid hne h
  have hown0 := identifies_owner _ _ k uid h
  rw [← hrk] at hown0
  obtain ⟨u, hown, huid⟩ := hown0
  have hrun := failure_not_running _ hfail
  have hst := statusFor_failure _ hfail
  have hdev : ¬ (statusFor e.Payload.Status = DispatchRecordStatus.Complete ∧
      r.Device = none) := by
    rw [hst]
    rintro ⟨hc, _⟩
    cases hc
  have h1 := processEvent_record_status s f e w r hwf hrun hf1 hf2 hfind hdev
  have h2 := processEvent_owner_status s f e w r u hwf hrun hf1 hf2 hf3 hf4 hfind hdev hown
  rw [hst, hrk] at h1
  rw [huid] at h2
  refine ⟨h1, ?_⟩
  rw [h2]
  have hj : (uid, k) ∈ (processEvent s f e w).1.db.updatetransaction_dispatchrecords := by
    rw [(processEvent_keys s f e w hwf).2.2.2]
    exact identifies_joined _ _ k uid h
  exact congrArg some (aggregate_error _ _ (preload_has_error _ k uid h1 hj))

theorem processEvents_append (s : UpdateService)
    (unmarshal : List Nat → Except Err (Option PlaybookDispatcherEvent))
    (a b : List (Faults × List Nat)) (w : World) :
    processEvents s unmarshal (a ++ b) w =
      processEvents s unmarshal b (processEvents s unmarshal a w) := by
  induction a generalizing w with
  | nil => rfl
  | cons p rest ih =>
    simp only [List.cons_append, processEvents]
    exact ih _

theorem processEvents_inv (s : UpdateService)
    (unmarshal : List Nat → Except Err (Option PlaybookDispatcherEvent))
    (msgs : List (Faults × List Nat)) (w : World) (pid : String) (k uid : Nat)
    (hwf : w.db.wf) (h : w.db.identifies pid k uid) :
    (processEvents s unmarshal msgs w).db.wf ∧
    (processEvents s unmarshal msgs w).db.identifies pid k uid := by
  induction msgs generalizing w with
  | nil => exact ⟨hwf, h⟩
  | cons p rest ih =>
    simp only [processEvents]
    apply ih
    · unfold ProcessPlaybookDispatcherRunEvent
      cases hd : unmarshal p.2 with
      | error err => exact hwf
      | ok o =>
        cases o with
        | none => exact hwf
        | some e => exact processEvent_wf s p.1 e w hwf
    · unfold ProcessPlaybookDispatcherRunEvent
      cases hd : unmarshal p.2 with
      | error err => exact h
      | ok o =>
        cases o with
        | none => exact h
        | some e => exact processEvent_identifies s p.1 e w hwf pid k uid h

theorem processEvents_keeps_error (s : UpdateService)
    (unmarshal : List Nat → Except Err (Option PlaybookDispatcherEvent))
    (msgs : List (Faults × List Nat)) (w : World) (pid : String) (k uid : Nat)
    (hother : ∀ p ∈ msgs, ∀ e, unmarshal p.2 = .ok (some e) →
      e.Payload.ID ≠ "" ∧ e.Payload.ID ≠ pid)
    (hwf : w.db.wf) (h : w.db.identifies pid k uid)
    (hk : w.db.recordStatusOf k = some DispatchRecordStatus.Error)
    (hu : w.db.statusOf uid = some UpdateStatus.Error) :
    (processEvents s unmarshal msgs w).db.statusOf uid = some UpdateStatus.Error := by
  induction msgs generalizing w with
  | nil => exact hu
  | cons p rest ih =>
    simp only [processEvents]
    have hrest : ∀ q ∈ rest, ∀ e, unmarshal q.2 = .ok (some e) →
        e.Payload.ID ≠ "" ∧ e.Payload.ID ≠ pid :=
      fun q hq => hother q (List.mem_cons_of_mem _ hq)
    cases hd : unmarshal p.2 with
    | error err =>
      have : (ProcessPlaybookDispatcherRunEvent s p.1 unmarshal p.2 w).1 = w := by
        unfold ProcessPlaybookDispatcherRunEvent
        rw [hd]
      rw [this]
      exact ih w hrest hwf h hk hu
    | ok o =>
      cases o with
      | none =>
        have : (ProcessPlaybookDispatcherRunEvent s p.1 unmarshal p.2 w).1 = w := by
          unfold ProcessPlaybookDispatcherRunEvent
          rw [hd]
        rw [this]
        exact ih w hrest hwf h hk hu
      | some e =>
        rw [ProcessPlaybookDispatcherRunEvent_decoded s p.1 unmarshal p.2 e w hd]
        obtain ⟨hne, hpid⟩ := hother p (List.mem_cons_self _ _) e hd
        obtain ⟨k2, u2⟩ := processEvent_keeps_error s p.1 e w hwf pid k uid h hne hpid hk hu
        exact ih _ hrest (processEvent_wf s p.1 e w hwf)
          (processEvent_identifies s p.1 e w hwf pid k uid h) k2 u2

/-! ### The validation of a selection, both directions -/

theorem dedup_eq_singleton (l : List Nat) (s : Nat) (hne : l ≠ [])
    (h : ∀ x ∈ l, x = s) : l.dedup = [s] := by
  induction l with
  | nil => exact absurd rfl hne
  | cons a t ih =>
    have ha : a = s := h a (List.mem_cons_self _ _)
    cases t with
    | nil => rw [ha]; rfl
    | cons b t2 =>
      have hb : b = s := h b (List.mem_cons_of_mem _ (List.mem_cons_self _ _))
      have hmem : a ∈ b :: t2 := by rw [ha, hb]; exact List.mem_cons_self _ _
      rw [List.dedup_cons_of_mem hmem]
      exact ih (by simp) (fun x hx => h x (List.mem_cons_of_mem _ hx))

theorem ValidateUpdateSelection_iff (account : String) (imageIds : List Nat) (db : DB) :
    (ValidateUpdateSelection false account imageIds db).1 = true ↔
      ∃ imageSetID,
        (∃ i ∈ db.images, i.ID ∈ imageIds ∧ i.Account = account ∧
          i.ImageSetID = imageSetID) ∧
        ∀ i ∈ db.images, i.ID ∈ imageIds → i.Account = account →
          i.ImageSetID = imageSetID := by
  constructor
  · intro h
    obtain ⟨a, ha⟩ := ValidateUpdateSelection_true false account imageIds db h
    have hmem : ∀ x, x ∈ (db.images.filter
        (fun i => i.ID ∈ imageIds ∧ i.Account = account)).map
        (fun i => i.ImageSetID) ↔ x = a := by
      intro x
      rw [← List.mem_dedup, ha, List.mem_singleton]
    refine ⟨a, ?_, ?_⟩
    · obtain ⟨i, hi, hs⟩ := List.mem_map.mp ((hmem a).mpr rfl)
      obtain ⟨hm, hp⟩ := List.mem_filter.mp hi
      have hp2 : i.ID ∈ imageIds ∧ i.Account = account := by simpa using hp
      exact ⟨i, hm, hp2.1, hp2.2, hs⟩
    · intro i hi hid hacc
      apply (hmem _).mp
      exact List.mem_map.mpr ⟨i, List.mem_filter.mpr ⟨hi, by simpa using ⟨hid, hacc⟩⟩, rfl⟩
  · rintro ⟨s, ⟨i, hi, hid, hacc, hs⟩, hall⟩
    unfold ValidateUpdateSelection
    simp only [Bool.false_eq_true, if_false, beq_iff_eq]
    have hin : i ∈ db.images.filter (fun i => i.ID ∈ imageIds ∧ i.Account = account) :=
      List.mem_filter.mpr ⟨hi, by simpa using ⟨hid, hacc⟩⟩
    rw [dedup_eq_singleton _ s]
    · rfl
    · intro hnil
      have hm : i.ImageSetID ∈ (db.images.filter
          (fun i => i.ID ∈ imageIds ∧ i.Account = account)).map (fun i => i.ImageSetID) :=
        List.mem_map.mpr ⟨i, hin, rfl⟩
      rw [hnil] at hm
      cases hm
    · intro x hx
      obtain ⟨j, hj, hjs⟩ := List.mem_map.mp hx
      obtain ⟨hm, hp⟩ := List.mem_filter.mp hj
      have hp2 : j.ID ∈ imageIds ∧ j.Account = account := by simpa using hp
      rw [← hjs]
      exact hall j hm hp2.1 hp2.2

/-! ### CreateUpdate: the status after the fan-out -/

theorem SetUpdateStatus_status_stable (f f2 : Faults) (u : UpdateTransaction) (db db2 : DB) :
    (SetUpdateStatus f2 (SetUpdateStatus f u db).1 db2).1.Status =
      (SetUpdateStatus f u db).1.Status := by
  have h1 := SetUpdateStatus_status_aggregate f u db
  have h2 := SetUpdateStatus_record_statuses f u db
  have h3 : ∀ p : UpdateStatus, aggregate p (SetUpdateStatus f u db).1.DispatchRecords =
      aggregate p u.DispatchRecords := by
    intro p
    unfold aggregate
    rw [any_eq_of_map_status (fun s => s = DispatchRecordStatus.Error) h2,
      all_eq_of_map_status (fun s => s = DispatchRecordStatus.Complete) h2]
  rw [SetUpdateStatus_status_aggregate, h3, h1, aggregate_idem]

theorem SetUpdateStatus_fault_eq (f : Faults) (u : UpdateTransaction) (db : DB)
    (h : f.saveUpdate = true) :
    SetUpdateStatus f u db = ((SetUpdateStatus f u db).1, db, some Err.ErrStore) := by
  unfold SetUpdateStatus
  simp only [h, if_true]

theorem CreateUpdate.fanOut_aggregated (env : CreateEnv) (url : String)
    (n i : Nat) (update : UpdateTransaction) (db : DB) (u1 : UpdateTransaction)
    (hstart : ((∀ f db2, (SetUpdateStatus f update db2).1.Status = update.Status) ∧
        db.statusOf update.ID = some update.Status) ∨
      (1 ≤ n ∧ i < update.Devices.length))
    (hret : (CreateUpdate.fanOut env url n i update db).2.1 = some u1) :
    (∀ f db2, (SetUpdateStatus f u1 db2).1.Status = u1.Status) ∧
    (CreateUpdate.fanOut env url n i update db).1.statusOf u1.ID = some u1.Status := by
  induction n generalizing i update db with
  | zero =>
    simp only [CreateUpdate.fanOut, Option.some.injEq] at hret ⊢
    subst hret
    rcases hstart with h | ⟨h, _⟩
    · exact h
    · omega
  | succ n ih =>
    unfold CreateUpdate.fanOut at hret ⊢
    cases hd : update.Devices.drop i with
    | nil =>
      simp only [hd, Option.some.injEq] at hret ⊢
      subst hret
      rcases hstart with h | ⟨_, h⟩
      · exact h
      · have := List.drop_eq_nil_iff.mp hd
        omega
    | cons device tl =>
      simp only [hd] at hret ⊢
      cases he : env.ExecuteDispatcher ⟨device.RHCClientID, url, update.Account⟩ with
      | error err =>
        simp only [he] at hret
        cases hret
      | ok exc =>
        simp only [he] at hret ⊢
        cases hf : (env.statusFaults i).saveUpdate with
        | true =>
          rw [SetUpdateStatus_fault_eq _ _ _ hf] at hret
          simp only at hret
          cases hret
        | false =>
          rw [SetUpdateStatus_saved_eq _ _ _ hf] at hret ⊢
          simp only at hret ⊢
          refine ih (i + 1) _ _ (Or.inl ⟨?_, ?_⟩) hret
          · intro f db2
            exact SetUpdateStatus_status_stable _ _ _ _ _
          · exact SetUpdateStatus_persisted _ _ _ hf

/-! ### CreateUpdate: the records in the store during the fan-out -/

theorem foldl_max_gt {α : Type} (key : α → Nat) (rows : List α) (m : Nat) :
    m ≤ rows.foldl (fun m r => max m (key r + 1)) m ∧
    ∀ x ∈ rows, key x < rows.foldl (fun m r => max m (key r + 1)) m := by
  induction rows generalizing m with
  | nil => exact ⟨le_refl _, fun x hx => by cases hx⟩
  | cons y ys ih =>
    simp only [List.foldl_cons]
    obtain ⟨h1, h2⟩ := ih (max m (key y + 1))
    refine ⟨le_trans (le_max_left _ _) h1, ?_⟩
    intro x hx
    rcases List.mem_cons.mp hx with rfl | hx
    · exact lt_of_lt_of_le (Nat.lt_succ_self _) (le_trans (le_max_right _ _) h1)
    · exact h2 x hx

theorem nextID_fresh {α : Type} (key : α → Nat) (rows : List α) :
    rows.any (fun row => key row = nextID key rows) = false := by
  rw [Bool.eq_false_iff]
  intro h
  obtain ⟨x, hx, hk⟩ := List.any_eq_true.mp h
  have := (foldl_max_gt key rows 1).2 x hx
  have hk2 : key x = nextID key rows := by simpa using hk
  unfold nextID at hk2
  omega

theorem mem_addJoin (p q : Nat × Nat) (rows : List (Nat × Nat)) :
    q ∈ addJoin p rows ↔ q = p ∨ q ∈ rows := by
  unfold addJoin
  split
  · next h =>
    constructor
    · exact fun hq => Or.inr hq
    · rintro (rfl | hq)
      · exact h
      · exact hq
  · simp only [List.mem_append, List.mem_singleton]
    exact or_comm

theorem saveRecordDevice_id (full : Bool) (r : DispatchRecord) (ds : List Device) :
    (saveRecordDevice full r ds).1.ID = r.ID := by
  unfold saveRecordDevice
  cases r.Device <;> rfl

theorem saveRecordAssoc_stored (uid : Nat) (acc : List DispatchRecord × DB)
    (r : DispatchRecord)
    (hnd : (acc.2.dispatch_records.map (fun r => r.ID)).Nodup)
    (hrec : ∀ x ∈ acc.2.dispatch_records, x.ID ≠ 0 ∧ x.Device = none)
    (hr : r.storedFor uid acc.2 ∨ r.ID = 0) :
    ((saveRecordAssoc uid acc r).2.dispatch_records.map (fun r => r.ID)).Nodup ∧
    (∀ x ∈ (saveRecordAssoc uid acc r).2.dispatch_records, x.ID ≠ 0 ∧ x.Device = none) ∧
    (∃ r2, (saveRecordAssoc uid acc r).1 = acc.1 ++ [r2] ∧
      r2.storedFor uid (saveRecordAssoc uid acc r).2) ∧
    (∀ x ∈ acc.2.dispatch_records, x ∈ (saveRecordAssoc uid acc r).2.dispatch_records) ∧
    (∀ p ∈ acc.2.updatetransaction_dispatchrecords,
      p ∈ (saveRecordAssoc uid acc r).2.updatetransaction_dispatchrecords) ∧
    (r.ID ≠ 0 →
      (saveRecordAssoc uid acc r).2.dispatch_records = acc.2.dispatch_records ∧
      (saveRecordAssoc uid acc r).2.updatetransaction_dispatchrecords =
        acc.2.updatetransaction_dispatchrecords) := by
  rcases hr with ⟨hs, hrow, hj⟩ | h0
  · have hfix := saveRecord_fixed acc.2.FullSaveAssociations r acc.2.devices
      acc.2.dispatch_records hs
    have hrows : (saveRecordAssoc uid acc r).2.dispatch_records = acc.2.dispatch_records := by
      simp only [saveRecordAssoc, hfix]
      exact upsertAssoc_self _ (fun x : DispatchRecord => x.ID) r.row _ hrow hnd
    have hjoin : (saveRecordAssoc uid acc r).2.updatetransaction_dispatchrecords =
        acc.2.updatetransaction_dispatchrecords := by
      simp only [saveRecordAssoc, hfix]
      exact addJoin_self _ _ hj
    refine ⟨by rw [hrows]; exact hnd, by rw [hrows]; exact hrec, ⟨r, ?_, ?_⟩, ?_, ?_,
      fun _ => ⟨hrows, hjoin⟩⟩
    · simp only [saveRecordAssoc, hfix]
    · exact ⟨hs, by rw [hrows]; exact hrow, by rw [hjoin]; exact hj⟩
    · rw [hrows]; exact fun x hx => hx
    · rw [hjoin]; exact fun p hp => hp
  · have hsv := saveRecord_saved acc.2.FullSaveAssociations r acc.2.devices
      acc.2.dispatch_records
    have hid : (assignRecordID (saveRecordDevice acc.2.FullSaveAssociations r acc.2.devices).1
        acc.2.dispatch_records).ID = nextID (fun x => x.ID) acc.2.dispatch_records := by
      unfold assignRecordID
      rw [if_pos (by rw [saveRecordDevice_id]; exact h0)]
    have hrows : (saveRecordAssoc uid acc r).2.dispatch_records =
        acc.2.dispatch_records ++
          [(assignRecordID (saveRecordDevice acc.2.FullSaveAssociations r acc.2.devices).1
            acc.2.dispatch_records).row] := by
      simp only [saveRecordAssoc]
      unfold upsertAssoc
      have hk : ((assignRecordID
          (saveRecordDevice acc.2.FullSaveAssociations r acc.2.devices).1
          acc.2.dispatch_records).row).ID =
          nextID (fun x => x.ID) acc.2.dispatch_records := hid
      simp only [hk, nextID_fresh (fun x : DispatchRecord => x.ID) acc.2.dispatch_records,
        Bool.false_eq_true, if_false]
    have hjoin : (saveRecordAssoc uid acc r).2.updatetransaction_dispatchrecords =
        addJoin (uid, (assignRecordID
          (saveRecordDevice acc.2.FullSaveAssociations r acc.2.devices).1
          acc.2.dispatch_records).ID) acc.2.updatetransaction_dispatchrecords := rfl
    refine ⟨?_, ?_, ⟨_, rfl, hsv, ?_, ?_⟩, ?_, ?_, fun hne => absurd h0 hne⟩
    · rw [hrows, List.map_append, List.nodup_append]
      refine ⟨hnd, by simp, ?_⟩
      intro a ha hb
      simp only [List.map_cons, List.map_nil, List.mem_singleton] at hb
      obtain ⟨x, hx, rfl⟩ := List.mem_map.mp ha
      have hfr := nextID_fresh (fun x : DispatchRecord => x.ID) acc.2.dispatch_records
      rw [Bool.eq_false_iff] at hfr
      apply hfr
      apply List.any_eq_true.mpr
      refine ⟨x, hx, ?_⟩
      have : x.ID = nextID (fun x => x.ID) acc.2.dispatch_records := hb.trans hid
      simpa using this
    · intro x hx
      rw [hrows] at hx
      rcases List.mem_append.mp hx with hx | hx
      · exact hrec x hx
      · simp only [List.mem_singleton] at hx
        subst hx
        exact ⟨hsv.1, rfl⟩
    · rw [hrows]
      exact List.mem_append_right _ (List.mem_singleton_self _)
    · rw [hjoin, mem_addJoin]
      exact Or.inl rfl
    · rw [hrows]
      exact fun x hx => List.mem_append_left _ hx
    · rw [hjoin]
      exact fun p hp => (mem_addJoin _ _ _).mpr (Or.inr hp)

theorem storedFor_mono (r : DispatchRecord) (uid : Nat) (db db2 : DB)
    (h1 : ∀ x ∈ db.dispatch_records, x ∈ db2.dispatch_records)
    (h2 : ∀ p ∈ db.updatetransaction_dispatchrecords,
      p ∈ db2.updatetransaction_dispatchrecords)
    (h : r.storedFor uid db) : r.storedFor uid db2 :=
  ⟨h.1, h1 _ h.2.1, h2 _ h.2.2⟩

theorem foldl_saveRecordAssoc_stored (uid : Nat) (rs : List DispatchRecord)
    (acc : List DispatchRecord × DB)
    (hnd : (acc.2.dispatch_records.map (fun r => r.ID)).Nodup)
    (hrec : ∀ x ∈ acc.2.dispatch_records, x.ID ≠ 0 ∧ x.Device = none)
    (hacc : ∀ r ∈ acc.1, r.storedFor uid acc.2)
    (hrs : ∀ r ∈ rs, r.storedFor uid acc.2 ∨ r.ID = 0) :
    ((rs.foldl (saveRecordAssoc uid) acc).2.dispatch_records.map (fun r => r.ID)).Nodup ∧
    (∀ x ∈ (rs.foldl (saveRecordAssoc uid) acc).2.dispatch_records,
      x.ID ≠ 0 ∧ x.Device = none) ∧
    (∀ r ∈ (rs.foldl (saveRecordAssoc uid) acc).1,
      r.storedFor uid (rs.foldl (saveRecordAssoc uid) acc).2) ∧
    (∀ x ∈ acc.2.dispatch_records,
      x ∈ (rs.foldl (saveRecordAssoc uid) acc).2.dispatch_records) ∧
    (∀ p ∈ acc.2.updatetransaction_dispatchrecords,
      p ∈ (rs.foldl (saveRecordAssoc uid) acc).2.updatetransaction_dispatchrecords) ∧
    ((∀ r ∈ rs, r.ID ≠ 0) →
      (rs.foldl (saveRecordAssoc uid) acc).2.dispatch_records = acc.2.dispatch_records ∧
      (rs.foldl (saveRecordAssoc uid) acc).2.updatetransaction_dispatchrecords =
        acc.2.updatetransaction_dispatchrecords) := by
  induction rs generalizing acc with
  | nil => exact ⟨hnd, hrec, hacc, fun x hx => hx, fun p hp => hp, fun _ => ⟨rfl, rfl⟩⟩
  | cons r rs ih =>
    simp only [List.foldl_cons]
    obtain ⟨s1, s2, ⟨r2, s3, s4⟩, s5, s6, s7⟩ := saveRecordAssoc_stored uid acc r hnd hrec
      (hrs r (List.mem_cons_self _ _))
    have hacc2 : ∀ x ∈ (saveRecordAssoc uid acc r).1,
        x.storedFor uid (saveRecordAssoc uid acc r).2 := by
      intro x hx
      rw [s3] at hx
      rcases List.mem_append.mp hx with hx | hx
      · exact storedFor_mono x uid acc.2 _ s5 s6 (hacc x hx)
      · simp only [List.mem_singleton] at hx
        subst hx
        exact s4
    have hrs2 : ∀ x ∈ rs, x.storedFor uid (saveRecordAssoc uid acc r).2 ∨ x.ID = 0 := by
      intro x hx
      rcases hrs x (List.mem_cons_of_mem _ hx) with h | h
      · exact Or.inl (storedFor_mono x uid acc.2 _ s5 s6 h)
      · exact Or.inr h
    obtain ⟨t1, t2, t3, t4, t5, t6⟩ := ih (saveRecordAssoc uid acc r) s1 s2 hacc2 hrs2
    refine ⟨t1, t2, t3, fun x hx => t4 x (s5 x hx), fun p hp => t5 p (s6 p hp), ?_⟩
    intro hne
    obtain ⟨a1, a2⟩ := s7 (hne r (List.mem_cons_self _ _))
    obtain ⟨b1, b2⟩ := t6 (fun x hx => hne x (List.mem_cons_of_mem _ hx))
    exact ⟨b1.trans a1, b2.trans a2⟩

theorem foldl_assoc_stored (uid : Nat) (ds : List Device) (rs : List DispatchRecord)
    (dbX db : DB)
    (h1 : dbX.dispatch_records = db.dispatch_records)
    (h2 : dbX.updatetransaction_dispatchrecords = db.updatetransaction_dispatchrecords)
    (hnd : (db.dispatch_records.map (fun r => r.ID)).Nodup)
    (hrec : ∀ x ∈ db.dispatch_records, x.ID ≠ 0 ∧ x.Device = none)
    (hrs : ∀ r ∈ rs, r.storedFor uid db ∨ r.ID = 0) :
    (((rs.foldl (saveRecordAssoc uid)
        ([], (ds.foldl (saveUpdateDevice uid) ([], dbX)).2)).2.dispatch_records.map
          (fun r => r.ID)).Nodup) ∧
    (∀ x ∈ (rs.foldl (saveRecordAssoc uid)
        ([], (ds.foldl (saveUpdateDevice uid) ([], dbX)).2)).2.dispatch_records,
      x.ID ≠ 0 ∧ x.Device = none) ∧
    (∀ r ∈ (rs.foldl (saveRecordAssoc uid)
        ([], (ds.foldl (saveUpdateDevice uid) ([], dbX)).2)).1,
      r.storedFor uid (rs.foldl (saveRecordAssoc uid)
        ([], (ds.foldl (saveUpdateDevice uid) ([], dbX)).2)).2) ∧
    ((∀ r ∈ rs, r.ID ≠ 0) →
      (rs.foldl (saveRecordAssoc uid)
        ([], (ds.foldl (saveUpdateDevice uid) ([], dbX)).2)).2.dispatch_records =
          db.dispatch_records ∧
      (rs.foldl (saveRecordAssoc uid)
        ([], (ds.foldl (saveUpdateDevice uid)
          ([], dbX)).2)).2.updatetransaction_dispatchrecords =
          db.updatetransaction_dispatchrecords) := by
  obtain ⟨g1, g2, _⟩ := foldl_saveUpdateDevice_frame uid ds ([], dbX)
  have e1 : (ds.foldl (saveUpdateDevice uid) ([], dbX)).2.dispatch_records =
      db.dispatch_records := g1.trans h1
  have e2 : (ds.foldl (saveUpdateDevice uid) ([], dbX)).2.updatetransaction_dispatchrecords =
      db.updatetransaction_dispatchrecords := g2.trans h2
  have hrs2 : ∀ r ∈ rs,
      r.storedFor uid (ds.foldl (saveUpdateDevice uid) ([], dbX)).2 ∨ r.ID = 0 := by
    intro r hr
    rcases hrs r hr with h | h
    · exact Or.inl ⟨h.1, by rw [e1]; exact h.2.1, by rw [e2]; exact h.2.2⟩
    · exact Or.inr h
  obtain ⟨t1, t2, t3, _, _, t6⟩ := foldl_saveRecordAssoc_stored uid rs
    ([], (ds.foldl (saveUpdateDevice uid) ([], dbX)).2)
    (by rw [e1]; exact hnd) (by rw [e1]; exact hrec) (fun r hr => by cases hr) hrs2
  refine ⟨t1, t2, t3, fun hne => ?_⟩
  obtain ⟨b1, b2⟩ := t6 hne
  exact ⟨b1.trans e1, b2.trans e2⟩

theorem DB.SaveUpdate_stored (db : DB) (u : UpdateTransaction)
    (hnd : (db.dispatch_records.map (fun r => r.ID)).Nodup)
    (hrec : ∀ x ∈ db.dispatch_records, x.ID ≠ 0 ∧ x.Device = none)
    (hid : u.ID ≠ 0)
    (hrs : ∀ r ∈ u.DispatchRecords, r.storedFor u.ID db ∨ r.ID = 0) :
    (((db.SaveUpdate u).2.dispatch_records.map (fun r => r.ID)).Nodup) ∧
    (∀ x ∈ (db.SaveUpdate u).2.dispatch_records, x.ID ≠ 0 ∧ x.Device = none) ∧
    (db.SaveUpdate u).1.stored (db.SaveUpdate u).2 ∧
    ((∀ r ∈ u.DispatchRecords, r.ID ≠ 0) →
      (db.SaveUpdate u).2.dispatch_records = db.dispatch_records ∧
      (db.SaveUpdate u).2.updatetransaction_dispatchrecords =
        db.updatetransaction_dispatchrecords) := by
  obtain ⟨_, h2, _, h4⟩ := saveUpdateCommit_saved db.FullSaveAssociations u db.commits
  have hsid := DB.SaveUpdate_id db u hid
  unfold UpdateTransaction.stored
  rw [hsid]
  unfold DB.SaveUpdate
  simp only
  rw [h2, if_neg hid, h4, h2]
  obtain ⟨t1, t2, t3, t4⟩ := foldl_assoc_stored u.ID
    (saveUpdateCommit db.FullSaveAssociations u db.commits).1.Devices u.DispatchRecords
    { db with
      commits := (saveUpdateCommit db.FullSaveAssociations u db.commits).2
      update_transactions :=
        upsert (fun x => x.ID) (saveUpdateCommit db.FullSaveAssociations u db.commits).1.row
          db.update_transactions }
    db rfl rfl hnd hrec hrs
  exact ⟨t1, t2, ⟨hid, t3⟩, t4⟩

theorem CreateUpdate.responses_frame (url : String) (sf : Bool)
    (exc : List DispatcherResponse) (device : Device) (records : List DispatchRecord)
    (db : DB) :
    (CreateUpdate.responses url sf exc device records db).2.2.dispatch_records =
      db.dispatch_records ∧
    (CreateUpdate.responses url sf exc device records db).2.2.updatetransaction_dispatchrecords =
      db.updatetransaction_dispatchrecords ∧
    ∀ r ∈ (CreateUpdate.responses url sf exc device records db).2.1,
      r ∈ records ∨ r.ID = 0 := by
  induction exc generalizing device records db with
  | nil => exact ⟨rfl, rfl, fun r hr => Or.inl hr⟩
  | cons x xs ih =>
    simp only [CreateUpdate.responses]
    obtain ⟨h1, h2, h3⟩ := ih
      (if sf = true then
        ((if x.StatusCode = http.StatusCreated then
            (({ device with Connected := true } : Device),
              (⟨0, url, 0, none, models.DispatchRecordStatusCreated,
                x.PlaybookDispatcherID⟩ : DispatchRecord))
          else
            ({ device with Connected := false },
              ⟨0, url, 0, none, models.DispatchRecordStatusError, ""⟩)).1, db)
        else db.SaveDevice
          (if x.StatusCode = http.StatusCreated then
            (({ device with Connected := true } : Device),
              (⟨0, url, 0, none, models.DispatchRecordStatusCreated,
                x.PlaybookDispatcherID⟩ : DispatchRecord))
          else
            ({ device with Connected := false },
              ⟨0, url, 0, none, models.DispatchRecordStatusError, ""⟩)).1).1
      (records ++
        [(if x.StatusCode = http.StatusCreated then
            (({ device with Connected := true } : Device),
              (⟨0, url, 0, none, models.DispatchRecordStatusCreated,
                x.PlaybookDispatcherID⟩ : DispatchRecord))
          else
            ({ device with Connected := false },
              ⟨0, url, 0, none, models.DispatchRecordStatusError, ""⟩)).2])
      (if sf = true then
        ((if x.StatusCode = http.StatusCreated then
            (({ device with Connected := true } : Device),
              (⟨0, url, 0, none, models.DispatchRecordStatusCreated,
                x.PlaybookDispatcherID⟩ : DispatchRecord))
          else
            ({ device with Connected := false },
              ⟨0, url, 0, none, models.DispatchRecordStatusError, ""⟩)).1, db)
        else db.SaveDevice
          (if x.StatusCode = http.StatusCreated then
            (({ device with Connected := true } : Device),
              (⟨0, url, 0, none, models.DispatchRecordStatusCreated,
                x.PlaybookDispatcherID⟩ : DispatchRecord))
          else
            ({ device with Connected := false },
              ⟨0, url, 0, none, models.DispatchRecordStatusError, ""⟩)).1).2
    have hdb : ∀ d : Device,
        (if sf = true then (d, db) else db.SaveDevice d).2.dispatch_records =
          db.dispatch_records ∧
        (if sf = true then (d, db)
          else db.SaveDevice d).2.updatetransaction_dispatchrecords =
          db.updatetransaction_dispatchrecords := by
      intro d
      cases sf with
      | true => exact ⟨rfl, rfl⟩
      | false =>
        simp only [Bool.false_eq_true, if_false]
        unfold DB.SaveDevice
        split <;> exact ⟨rfl, rfl⟩
    refine ⟨h1.trans (hdb _).1, h2.trans (hdb _).2, ?_⟩
    intro r hr
    rcases h3 r hr with h | h
    · rcases List.mem_append.mp h with h | h
      · exact Or.inl h
      · simp only [List.mem_singleton] at h
        subst h
        right
        split <;> rfl
    · exact Or.inr h

theorem SetUpdateStatus_eq_save (f : Faults) (u : UpdateTransaction) (db : DB)
    (h : f.saveUpdate = false) :
    ∃ st, (SetUpdateStatus f u db).1 = (db.SaveUpdate { u with Status := st }).1 ∧
      (SetUpdateStatus f u db).2.1 = (db.SaveUpdate { u with Status := st }).2 := by
  unfold SetUpdateStatus
  simp only [h, Bool.false_eq_true, if_false]
  by_cases hs : (SetUpdateStatus.loop u.DispatchRecords true u.Status).1 = true
  · exact ⟨models.UpdateStatusSuccess, by rw [if_pos hs], by rw [if_pos hs]⟩
  · exact ⟨(SetUpdateStatus.loop u.DispatchRecords true u.Status).2, by rw [if_neg hs],
      by rw [if_neg hs]⟩

theorem SetUpdateStatus_stored (f : Faults) (u : UpdateTransaction) (db : DB)
    (hf : f.saveUpdate = false)
    (hnd : (db.dispatch_records.map (fun r => r.ID)).Nodup)
    (hrec : ∀ x ∈ db.dispatch_records, x.ID ≠ 0 ∧ x.Device = none)
    (hid : u.ID ≠ 0)
    (hrs : ∀ r ∈ u.DispatchRecords, r.storedFor u.ID db ∨ r.ID = 0) :
    (((SetUpdateStatus f u db).2.1.dispatch_records.map (fun r => r.ID)).Nodup) ∧
    (∀ x ∈ (SetUpdateStatus f u db).2.1.dispatch_records, x.ID ≠ 0 ∧ x.Device = none) ∧
    (SetUpdateStatus f u db).1.stored (SetUpdateStatus f u db).2.1 ∧
    (SetUpdateStatus f u db).1.ID = u.ID := by
  obtain ⟨st, e1, e2⟩ := SetUpdateStatus_eq_save f u db hf
  rw [e1, e2]
  obtain ⟨t1, t2, t3, _⟩ := DB.SaveUpdate_stored db { u with Status := st } hnd hrec hid hrs
  exact ⟨t1, t2, t3, DB.SaveUpdate_id db { u with Status := st } hid⟩

theorem CreateUpdate.fanOut_done (env : CreateEnv) (url : String) (n i : Nat)
    (update : UpdateTransaction) (db : DB) (h : update.Devices.drop i = []) :
    CreateUpdate.fanOut env url n i update db = (db, some update, none, []) := by
  cases n with
  | zero => rfl
  | succ n =>
    unfold CreateUpdate.fanOut
    simp only [h]

theorem CreateUpdate.fanOut_ok (env : CreateEnv) (url : String) (n i : Nat)
    (update : UpdateTransaction) (db : DB) (u1 : UpdateTransaction)
    (hnd : (db.dispatch_records.map (fun r => r.ID)).Nodup)
    (hrec : ∀ x ∈ db.dispatch_records, x.ID ≠ 0 ∧ x.Device = none)
    (hst : update.stored db)
    (hret : (CreateUpdate.fanOut env url n i update db).2.1 = some u1) :
    (((CreateUpdate.fanOut env url n i update db).1.dispatch_records.map
      (fun r => r.ID)).Nodup) ∧
    (∀ x ∈ (CreateUpdate.fanOut env url n i update db).1.dispatch_records,
      x.ID ≠ 0 ∧ x.Device = none) ∧
    u1.stored (CreateUpdate.fanOut env url n i update db).1 ∧
    u1.ID = update.ID ∧ u1.Account = update.Account ∧
    u1.Devices.map (fun d => d.RHCClientID) = update.Devices.map (fun d => d.RHCClientID) ∧
    (CreateUpdate.fanOut env url n i update db).2.2.2 =
      (((update.Devices.drop i).take n).map (fun d => d.RHCClientID)).map
        (fun c => (⟨c, url, update.Account⟩ : DispatcherPayload)) := by
  induction n generalizing i update db with
  | zero =>
    simp only [CreateUpdate.fanOut, Option.some.injEq] at hret ⊢
    subst hret
    exact ⟨hnd, hrec, hst, rfl, rfl, rfl, by simp⟩
  | succ n ih =>
    cases hd : update.Devices.drop i with
    | nil =>
      rw [CreateUpdate.fanOut_done env url _ i update db hd] at hret ⊢
      simp only [Option.some.injEq] at hret
      subst hret
      exact ⟨hnd, hrec, hst, rfl, rfl, rfl, by simp⟩
    | cons device tl =>
      have key : ∀ (U : UpdateTransaction) (D : DB),
          U.Devices = update.Devices → U.Account = update.Account → U.ID = update.ID →
          (D.dispatch_records.map (fun r => r.ID)).Nodup →
          (∀ x ∈ D.dispatch_records, x.ID ≠ 0 ∧ x.Device = none) →
          (∀ r ∈ U.DispatchRecords, r.storedFor U.ID D ∨ r.ID = 0) →
          (CreateUpdate.fanOut env url n (i + 1) (SetUpdateStatus (env.statusFaults i) U D).1
              (SetUpdateStatus (env.statusFaults i) U D).2.1).2.1 = some u1 →
          (env.statusFaults i).saveUpdate = false →
          (((CreateUpdate.fanOut env url n (i + 1)
              (SetUpdateStatus (env.statusFaults i) U D).1
              (SetUpdateStatus (env.statusFaults i) U D).2.1).1.dispatch_records.map
            (fun r => r.ID)).Nodup) ∧
          (∀ x ∈ (CreateUpdate.fanOut env url n (i + 1)
              (SetUpdateStatus (env.statusFaults i) U D).1
              (SetUpdateStatus (env.statusFaults i) U D).2.1).1.dispatch_records,
            x.ID ≠ 0 ∧ x.Device = none) ∧
          u1.stored (CreateUpdate.fanOut env url n (i + 1)
              (SetUpdateStatus (env.statusFaults i) U D).1
              (SetUpdateStatus (env.statusFaults i) U D).2.1).1 ∧
          u1.ID = update.ID ∧ u1.Account = update.Account ∧
          u1.Devices.map (fun d => d.RHCClientID) =
            update.Devices.map (fun d => d.RHCClientID) ∧
          (CreateUpdate.fanOut env url n (i + 1)
              (SetUpdateStatus (env.statusFaults i) U D).1
              (SetUpdateStatus (env.statusFaults i) U D).2.1).2.2.2 =
            ((tl.take n).map (fun d => d.RHCClientID)).map
              (fun c => (⟨c, url, update.Account⟩ : DispatcherPayload)) := by
        intro U D hU hA hI hnd2 hrec2 hrs hret2 hf
        have hUid : U.ID ≠ 0 := by rw [hI]; exact hst.1
        obtain ⟨s1, s2, s3, s4⟩ := SetUpdateStatus_stored (env.statusFaults i) U D hf
          hnd2 hrec2 hUid hrs
        obtain ⟨t1, t2, t3, t4, t5, t6, t7⟩ := ih (i + 1) _ _ s1 s2 s3 hret2
        have hr := SetUpdateStatus_devices_rhc (env.statusFaults i) U D
        have htl : update.Devices.drop (i + 1) = tl := by
          rw [← List.drop_drop, hd]
          rfl
        refine ⟨t1, t2, t3, by rw [t4, s4, hI], by rw [t5, SetUpdateStatus_account, hA],
          by rw [t6, hr, hU], ?_⟩
        rw [t7, SetUpdateStatus_account, hA, List.map_take, List.map_drop, hr, hU,
          ← List.map_drop, ← List.map_take, htl]
      unfold CreateUpdate.fanOut at hret ⊢
      simp only [hd] at hret ⊢
      cases he : env.ExecuteDispatcher ⟨device.RHCClientID, url, update.Account⟩ with
      | error err =>
        simp only [he] at hret
        cases hret
      | ok exc =>
        simp only [he] at hret ⊢
        cases hf : (env.statusFaults i).saveUpdate with
        | true =>
          rw [SetUpdateStatus_fault_eq _ _ _ hf] at hret
          simp only at hret
          cases hret
        | false =>
          rw [SetUpdateStatus_saved_eq _ _ _ hf] at hret ⊢
          simp only at hret ⊢
          obtain ⟨f1, f2, f3⟩ := CreateUpdate.responses_frame url (env.saveDevice i) exc
            device [] db
          obtain ⟨k1, k2, k3, k4, k5, k6, k7⟩ := key _ _ (by rfl) (by rfl) (by rfl)
            (by rw [f1]; exact hnd) (by rw [f1]; exact hrec)
            (by
              intro r hr
              rcases List.mem_append.mp hr with hr | hr
              · left
                obtain ⟨a, b, c⟩ := hst.2 r hr
                exact ⟨a, by rw [f1]; exact b, by rw [f2]; exact c⟩
              · right
                obtain ⟨r0, hr0, rfl⟩ := List.mem_map.mp hr
                rcases f3 r0 hr0 with h | h
                · cases h
                · exact h)
            hret hf
          refine ⟨k1, k2, k3, k4, k5, k6, ?_⟩
          rw [k7]
          simp only [List.take_succ_cons, List.map_cons]

theorem CreateUpdate.fanOut_fail (env : CreateEnv) (url : String) (n i : Nat)
    (update : UpdateTransaction) (db : DB) (device : Device) (tl : List Device) (err : Err)
    (hd : update.Devices.drop i = device :: tl)
    (he : env.ExecuteDispatcher ⟨device.RHCClientID, url, update.Account⟩ = .error err) :
    CreateUpdate.fanOut env url (n + 1) i update db =
      ((if env.saveError then db
          else (db.SaveUpdate { update with Status := models.UpdateStatusError }).2),
        none, some err, [⟨device.RHCClientID, url, update.Account⟩]) := by
  unfold CreateUpdate.fanOut
  simp only [hd, he]

theorem CreateUpdate.fanOut_step (env : CreateEnv) (url : String) (i : Nat)
    (update : UpdateTransaction) (db : DB) (device : Device) (tl : List Device)
    (exc : List DispatcherResponse)
    (hd : update.Devices.drop i = device :: tl)
    (he : env.ExecuteDispatcher ⟨device.RHCClientID, url, update.Account⟩ = .ok exc)
    (hf : (env.statusFaults i).saveUpdate = false) :
    ∃ (U : UpdateTransaction) (D : DB), ∀ n,
      CreateUpdate.fanOut env url (n + 1) i update db =
        ((CreateUpdate.fanOut env url n (i + 1) (SetUpdateStatus (env.statusFaults i) U D).1
            (SetUpdateStatus (env.statusFaults i) U D).2.1).1,
          (CreateUpdate.fanOut env url n (i + 1) (SetUpdateStatus (env.statusFaults i) U D).1
            (SetUpdateStatus (env.statusFaults i) U D).2.1).2.1,
          (CreateUpdate.fanOut env url n (i + 1) (SetUpdateStatus (env.statusFaults i) U D).1
            (SetUpdateStatus (env.statusFaults i) U D).2.1).2.2.1,
          ⟨device.RHCClientID, url, update.Account⟩ ::
            (CreateUpdate.fanOut env url n (i + 1)
              (SetUpdateStatus (env.statusFaults i) U D).1
              (SetUpdateStatus (env.statusFaults i) U D).2.1).2.2.2) := by
  refine ⟨{ update with
      DispatchRecords := update.DispatchRecords ++
        (CreateUpdate.responses url (env.saveDevice i) exc device [] db).2.1.map
          (fun r => { r with
            Device := some (CreateUpdate.responses url (env.saveDevice i) exc device [] db).1 }) },
    (CreateUpdate.responses url (env.saveDevice i) exc device [] db).2.2, fun n => ?_⟩
  rw [CreateUpdate.fanOut]
  simp only [hd, he]
  rw [SetUpdateStatus_saved_eq _ _ _ hf]

theorem CreateUpdate.fanOut_split (env : CreateEnv) (url : String) (a b i : Nat)
    (update : UpdateTransaction) (db : DB) (u1 : UpdateTransaction)
    (hret : (CreateUpdate.fanOut env url a i update db).2.1 = some u1) :
    CreateUpdate.fanOut env url (a + b) i update db =
      ((CreateUpdate.fanOut env url b (i + a) u1
          (CreateUpdate.fanOut env url a i update db).1).1,
        (CreateUpdate.fanOut env url b (i + a) u1
          (CreateUpdate.fanOut env url a i update db).1).2.1,
        (CreateUpdate.fanOut env url b (i + a) u1
          (CreateUpdate.fanOut env url a i update db).1).2.2.1,
        (CreateUpdate.fanOut env url a i update db).2.2.2 ++
          (CreateUpdate.fanOut env url b (i + a) u1
            (CreateUpdate.fanOut env url a i update db).1).2.2.2) := by
  induction a generalizing i update db with
  | zero =>
    simp only [CreateUpdate.fanOut, Option.some.injEq] at hret
    subst hret
    simp only [CreateUpdate.fanOut, Nat.zero_add, Nat.add_zero, List.nil_append]
  | succ a ih =>
    cases hd : update.Devices.drop i with
    | nil =>
      have hd2 : update.Devices.drop (i + (a + 1)) = [] := by
        rw [List.drop_eq_nil_iff] at hd ⊢
        omega
      rw [CreateUpdate.fanOut_done env url _ i update db hd] at hret ⊢
      simp only [Option.some.injEq] at hret
      subst hret
      rw [CreateUpdate.fanOut_done env url _ i update db hd,
        CreateUpdate.fanOut_done env url _ _ update db hd2]
      rfl
    | cons device tl =>
      cases he : env.ExecuteDispatcher ⟨device.RHCClientID, url, update.Account⟩ with
      | error err =>
        rw [CreateUpdate.fanOut_fail env url a i update db device tl err hd he] at hret
        cases hret
      | ok exc =>
        cases hf : (env.statusFaults i).saveUpdate with
        | true =>
          unfold CreateUpdate.fanOut at hret
          simp only [hd, he] at hret
          rw [SetUpdateStatus_fault_eq _ _ _ hf] at hret
          simp only at hret
          cases hret
        | false =>
          obtain ⟨U, D, hstep⟩ := CreateUpdate.fanOut_step env url i update db device tl exc
            hd he hf
          rw [hstep a] at hret ⊢
          simp only at hret ⊢
          rw [show a + 1 + b = (a + b) + 1 by omega, hstep (a + b), ih (i + 1) _ _ hret,
            show i + 1 + a = i + (a + 1) by omega]
          simp only [List.cons_append]

theorem take_succ_of_drop {α : Type} (l : List α) (k : Nat) (x : α) (r : List α)
    (h : l.drop k = x :: r) : l.take (k + 1) = l.take k ++ [x] := by
  induction k generalizing l with
  | zero =>
    simp only [List.drop_zero] at h
    rw [h]
    rfl
  | succ k ih =>
    cases l with
    | nil => simp at h
    | cons a t =>
      simp only [List.drop_succ_cons] at h
      simp only [List.take_succ_cons, List.cons_append, ih t h]

theorem CreateUpdate_eq_fanOut (env : CreateEnv) (id : Nat) (db : DB)
    (update : UpdateTransaction) (repo : Repo) (playbookURL : String)
    (hb : env.build = .ok (update, some repo))
    (ht : WriteTemplate env.cfg env.template
        ⟨"rhel-edge", repo.URL, repo.URL, "false", update.ID⟩ update.Account =
      .ok playbookURL) :
    CreateUpdate env id db =
      CreateUpdate.fanOut env playbookURL update.Devices.length 0 update
        (CreateUpdate.begin env id db) := by
  unfold CreateUpdate CreateUpdate.begin
  simp only [hb, ht]

theorem CreateUpdate.begin_frame (env : CreateEnv) (id : Nat) (db : DB) (hwf : db.wf)
    (hid : id ≠ 0) (row : UpdateTransaction)
    (hrow : db.update_transactions.find? (fun u => u.ID = id) = some row) :
    (CreateUpdate.begin env id db).dispatch_records = db.dispatch_records ∧
    (CreateUpdate.begin env id db).updatetransaction_dispatchrecords =
      db.updatetransaction_dispatchrecords := by
  obtain ⟨g1, g2, _⟩ := CreateUpdate_first_save db hwf id hid row hrow env.saveBuilding
  exact ⟨g1, g2⟩
/-! ### CreateUpdate: the records of the fan-out -/

theorem markConnected_id (device : Device) (x : DispatcherResponse) :
    (markConnected device x).ID = device.ID := by
  unfold markConnected
  split <;> rfl

theorem foldl_markConnected_id (exc : List DispatcherResponse) (device : Device) :
    (exc.foldl markConnected device).ID = device.ID := by
  induction exc generalizing device with
  | nil => rfl
  | cons x xs ih =>
    simp only [List.foldl_cons]
    rw [ih, markConnected_id]

theorem CreateUpdate.responses_fst (url : String) (sf : Bool)
    (exc : List DispatcherResponse) (device : Device) (records : List DispatchRecord)
    (db : DB) (h : device.ID ≠ 0) :
    (CreateUpdate.responses url sf exc device records db).1 =
      exc.foldl markConnected device := by
  induction exc generalizing device records db with
  | nil => rfl
  | cons x xs ih =>
    have hm : (markConnected device x).ID ≠ 0 := by rw [markConnected_id]; exact h
    simp only [CreateUpdate.responses, List.foldl_cons]
    have hp : (if x.StatusCode = http.StatusCreated then
          (({ device with Connected := true } : Device),
            (⟨0, url, 0, none, models.DispatchRecordStatusCreated,
              x.PlaybookDispatcherID⟩ : DispatchRecord))
        else
          ({ device with Connected := false },
            ⟨0, url, 0, none, models.DispatchRecordStatusError, ""⟩)).1 =
        markConnected device x := by
      unfold markConnected
      split <;> rfl
    rw [hp]
    cases sf with
    | true =>
      simp only [if_true]
      exact ih _ _ _ hm
    | false =>
      simp only [Bool.false_eq_true, if_false]
      rw [DB.SaveDevice_fst _ _ hm]
      exact ih _ _ _ hm

theorem CreateUpdate.responses_snd (url : String) (sf : Bool)
    (exc : List DispatcherResponse) (device : Device) (records : List DispatchRecord)
    (db : DB) (D : Device) :
    (CreateUpdate.responses url sf exc device records db).2.1.map
        (fun r => ({ r with DeviceID := D.ID, Device := some D } : DispatchRecord)) =
      records.map (fun r => ({ r with DeviceID := D.ID, Device := some D } : DispatchRecord)) ++
        exc.map (responseRecord url D) := by
  induction exc generalizing device records db with
  | nil => simp [CreateUpdate.responses]
  | cons x xs ih =>
    simp only [CreateUpdate.responses]
    rw [ih]
    simp only [List.map_append, List.map_cons, List.map_nil, List.append_assoc,
      List.singleton_append]
    congr 1
    congr 1
    unfold responseRecord
    by_cases hx : x.StatusCode = http.StatusCreated
    · simp only [if_pos hx]
    · simp only [if_neg hx]

theorem saveRecord_fresh (full : Bool) (r : DispatchRecord) (ds : List Device)
    (rows : List DispatchRecord) (d : Device) (h0 : r.ID = 0) (hd : r.Device = some d)
    (hid : d.ID ≠ 0) :
    ({ assignRecordID (saveRecordDevice full r ds).1 rows with ID := 0 } : DispatchRecord) =
      { r with DeviceID := d.ID } := by
  have h1 : (saveRecordDevice full r ds).1 = { r with DeviceID := d.ID } := by
    unfold saveRecordDevice
    simp only [hd, saveDeviceAssoc_fixed full d ds hid]
  rw [h1]
  unfold assignRecordID
  rw [if_pos (by exact h0)]
  cases r
  simp only at h0
  simp [h0]

theorem foldl_saveRecordAssoc_fresh (uid : Nat) (rs : List DispatchRecord)
    (acc : List DispatchRecord × DB) (d : Device) (hid : d.ID ≠ 0)
    (hrs : ∀ r ∈ rs, r.ID = 0 ∧ r.Device = some d) :
    (rs.foldl (saveRecordAssoc uid) acc).1.map
        (fun r => ({ r with ID := 0 } : DispatchRecord)) =
      acc.1.map (fun r => ({ r with ID := 0 } : DispatchRecord)) ++
        rs.map (fun r => ({ r with DeviceID := d.ID } : DispatchRecord)) := by
  induction rs generalizing acc with
  | nil => simp
  | cons r rs ih =>
    obtain ⟨h0, hd⟩ := hrs r (List.mem_cons_self _ _)
    simp only [List.foldl_cons]
    rw [ih _ (fun x hx => hrs x (List.mem_cons_of_mem _ hx))]
    simp only [saveRecordAssoc, List.map_append, List.map_cons, List.map_nil,
      saveRecord_fresh _ r _ _ d h0 hd hid, List.append_assoc, List.singleton_append]

theorem foldl_saveRecordAssoc_fst (uid : Nat) (rs : List DispatchRecord)
    (acc : List DispatchRecord × DB) :
    ∃ out, (rs.foldl (saveRecordAssoc uid) acc).1 = acc.1 ++ out := by
  induction rs generalizing acc with
  | nil => exact ⟨[], by simp⟩
  | cons r rs ih =>
    simp only [List.foldl_cons]
    obtain ⟨out, ho⟩ := ih (saveRecordAssoc uid acc r)
    rw [ho]
    exact ⟨_, by simp only [saveRecordAssoc, List.append_assoc]; rfl⟩

theorem DB.SaveUpdate_records (db : DB) (u : UpdateTransaction)
    (old new : List DispatchRecord) (d : Device) (hid : d.ID ≠ 0)
    (hu : u.DispatchRecords = old ++ new)
    (hold : ∀ r ∈ old, r.saved)
    (hnew : ∀ r ∈ new, r.ID = 0 ∧ r.Device = some d) :
    ∃ out, (db.SaveUpdate u).1.DispatchRecords = old ++ out ∧
      out.map (fun r => ({ r with ID := 0 } : DispatchRecord)) =
        new.map (fun r => ({ r with DeviceID := d.ID } : DispatchRecord)) := by
  obtain ⟨_, _, _, h4⟩ := saveUpdateCommit_saved db.FullSaveAssociations u db.commits
  have key : ∀ (uid : Nat) (acc : DB),
      ∃ out, ((old ++ new).foldl (saveRecordAssoc uid) ([], acc)).1 = old ++ out ∧
        out.map (fun r => ({ r with ID := 0 } : DispatchRecord)) =
          new.map (fun r => ({ r with DeviceID := d.ID } : DispatchRecord)) := by
    intro uid acc
    rw [List.foldl_append]
    obtain ⟨out, ho⟩ := foldl_saveRecordAssoc_fst uid new
      (old.foldl (saveRecordAssoc uid) ([], acc))
    have hfix := foldl_saveRecordAssoc_fixed uid old ([], acc) hold
    rw [hfix] at ho
    simp only [List.nil_append] at ho
    refine ⟨out, ho, ?_⟩
    have hd := foldl_saveRecordAssoc_fresh uid new
      (old.foldl (saveRecordAssoc uid) ([], acc)) d hid hnew
    rw [ho, hfix] at hd
    simp only [List.nil_append, List.map_append] at hd
    exact List.append_cancel_left hd
  unfold DB.SaveUpdate
  simp only
  split
  · simp only [h4, hu]
    exact key _ _
  · simp only [h4, hu]
    exact key _ _

theorem DB.SaveUpdate_devices (db : DB) (u : UpdateTransaction)
    (h : ∀ d ∈ u.Devices, d.ID ≠ 0) : (db.SaveUpdate u).1.Devices = u.Devices := by
  obtain ⟨_, _, h3, _⟩ := saveUpdateCommit_saved db.FullSaveAssociations u db.commits
  unfold DB.SaveUpdate
  simp only
  rw [foldl_saveUpdateDevice_fixed]
  · simp only [List.nil_append]
    split
    · exact h3
    · exact h3
  · intro d hd
    apply h
    have : (if (saveUpdateCommit db.FullSaveAssociations u db.commits).1.ID = 0 then
        { (saveUpdateCommit db.FullSaveAssociations u db.commits).1 with
          ID := nextID (fun x => x.ID) db.update_transactions }
        else (saveUpdateCommit db.FullSaveAssociations u db.commits).1).Devices =
        u.Devices := by
      split
      · exact h3
      · exact h3
    rw [this] at hd
    exact hd

theorem SetUpdateStatus_records (f : Faults) (u : UpdateTransaction) (db : DB)
    (hf : f.saveUpdate = false)
    (old new : List DispatchRecord) (d : Device) (hid : d.ID ≠ 0)
    (hu : u.DispatchRecords = old ++ new)
    (hold : ∀ r ∈ old, r.saved)
    (hnew : ∀ r ∈ new, r.ID = 0 ∧ r.Device = some d)
    (hdev : ∀ x ∈ u.Devices, x.ID ≠ 0) :
    (∃ out, (SetUpdateStatus f u db).1.DispatchRecords = old ++ out ∧
      out.map (fun r => ({ r with ID := 0 } : DispatchRecord)) =
        new.map (fun r => ({ r with DeviceID := d.ID } : DispatchRecord))) ∧
    (∀ r ∈ (SetUpdateStatus f u db).1.DispatchRecords, r.saved) ∧
    (SetUpdateStatus f u db).1.Devices = u.Devices := by
  rw [SetUpdateStatus_update_eq, hf]
  simp only [Bool.false_eq_true, if_false]
  exact ⟨DB.SaveUpdate_records db _ old new d hid hu hold hnew,
    (DB.SaveUpdate_saved db _).2.2.2, DB.SaveUpdate_devices db _ hdev⟩

theorem CreateUpdate.fanOut_records (env : CreateEnv) (url : String)
    (resp : DispatcherPayload → List DispatcherResponse)
    (hex : ∀ p, env.ExecuteDispatcher p = .ok (resp p))
    (hsave : ∀ i, (env.statusFaults i).saveUpdate = false)
    (n i : Nat) (update : UpdateTransaction) (db : DB)
    (hlen : update.Devices.length = n + i)
    (hsaved : ∀ r ∈ update.DispatchRecords, r.saved)
    (hdev : ∀ d ∈ update.Devices, d.ID ≠ 0) :
    ∃ u1 new,
      (CreateUpdate.fanOut env url n i update db).2.1 = some u1 ∧
      u1.DispatchRecords = update.DispatchRecords ++ new ∧
      u1.Devices = update.Devices ∧
      new.map (fun r => ({ r with ID := 0 } : DispatchRecord)) =
        (update.Devices.drop i).flatMap
          (fun d => (resp ⟨d.RHCClientID, url, update.Account⟩).map
            (responseRecord url
              ((resp ⟨d.RHCClientID, url, update.Account⟩).foldl markConnected d))) ∧
      ∀ r ∈ new, r.ID ≠ 0 := by
  induction n generalizing i update db with
  | zero =>
    have : update.Devices.drop i = [] := by
      apply List.drop_eq_nil_of_le
      omega
    refine ⟨update, [], ?_, ?_, rfl, ?_, fun _ hr => nomatch hr⟩
    · simp only [CreateUpdate.fanOut]
    · simp
    · simp [this]
  | succ n ih =>
    have key : ∀ (U : UpdateTransaction) (D : DB) (tl : List Device)
        (new1 : List DispatchRecord) (Dv : Device),
        U.Devices = update.Devices → U.Account = update.Account →
        U.DispatchRecords = update.DispatchRecords ++ new1 →
        Dv.ID ≠ 0 → (∀ r ∈ new1, r.ID = 0 ∧ r.Device = some Dv) →
        update.Devices.drop (i + 1) = tl →
        ∃ u1 new,
          (CreateUpdate.fanOut env url n (i + 1) (SetUpdateStatus (env.statusFaults i) U D).1
              (SetUpdateStatus (env.statusFaults i) U D).2.1).2.1 = some u1 ∧
          u1.DispatchRecords = update.DispatchRecords ++ new ∧
          u1.Devices = update.Devices ∧
          new.map (fun r => ({ r with ID := 0 } : DispatchRecord)) =
            new1.map (fun r => ({ r with DeviceID := Dv.ID } : DispatchRecord)) ++
              tl.flatMap
                (fun d => (resp ⟨d.RHCClientID, url, update.Account⟩).map
                  (responseRecord url
                    ((resp ⟨d.RHCClientID, url, update.Account⟩).foldl markConnected d))) ∧
          ∀ r ∈ new, r.ID ≠ 0 := by
      intro U D tl new1 Dv hU hA hR hDv hnew1 htl
      obtain ⟨⟨out, ho1, ho2⟩, hs2, hs3⟩ := SetUpdateStatus_records (env.statusFaults i) U D
        (hsave i) update.DispatchRecords new1 Dv hDv hR hsaved hnew1 (by rw [hU]; exact hdev)
      have hlen2 : (SetUpdateStatus (env.statusFaults i) U D).1.Devices.length =
          n + (i + 1) := by
        rw [hs3, hU]
        omega
      obtain ⟨u1, new2, g1, g2, g3, g4, g5⟩ := ih (i + 1) _ _ hlen2 hs2
        (by rw [hs3, hU]; exact hdev)
      refine ⟨u1, out ++ new2, g1, ?_, ?_, ?_, ?_⟩
      · rw [g2, ho1, List.append_assoc]
      · rw [g3, hs3, hU]
      · rw [List.map_append, g4, ho2, SetUpdateStatus_account, hA, hs3, hU, htl]
      · intro r hr
        rcases List.mem_append.mp hr with h | h
        · have hm : r ∈ (SetUpdateStatus (env.statusFaults i) U D).1.DispatchRecords := by
            rw [ho1]
            exact List.mem_append_right _ h
          exact (hs2 r hm).1
        · exact g5 r h
    unfold CreateUpdate.fanOut
    cases hd : update.Devices.drop i with
    | nil =>
      have := List.drop_eq_nil_iff.mp hd
      omega
    | cons device tl =>
      simp only
      simp only [hex]
      rw [SetUpdateStatus_saved_eq _ _ _ (hsave i)]
      simp only
      have htl : update.Devices.drop (i + 1) = tl := by
        rw [← List.drop_drop, hd]
        rfl
      have hdevice : device.ID ≠ 0 := by
        apply hdev
        apply List.mem_of_mem_drop
        rw [hd]
        exact List.mem_cons_self _ _
      have hfst := CreateUpdate.responses_fst url (env.saveDevice i)
        (resp ⟨device.RHCClientID, url, update.Account⟩) device [] db hdevice
      have hDv : (CreateUpdate.responses url (env.saveDevice i)
          (resp ⟨device.RHCClientID, url, update.Account⟩) device [] db).1.ID ≠ 0 := by
        rw [hfst, foldl_markConnected_id]
        exact hdevice
      obtain ⟨u1, new, g1, g2, g3, g4, g5⟩ := key
        { update with
          DispatchRecords := update.DispatchRecords ++
            (CreateUpdate.responses url (env.saveDevice i)
              (resp ⟨device.RHCClientID, url, update.Account⟩) device [] db).2.1.map
              (fun r => { r with
                Device := some (CreateUpdate.responses url (env.saveDevice i)
                  (resp ⟨device.RHCClientID, url, update.Account⟩) device [] db).1 }) }
        (CreateUpdate.responses url (env.saveDevice i)
          (resp ⟨device.RHCClientID, url, update.Account⟩) device [] db).2.2
        tl _ _ rfl rfl rfl hDv
        (by
          intro r hr
          obtain ⟨r0, hr0, rfl⟩ := List.mem_map.mp hr
          rcases (CreateUpdate.responses_frame url (env.saveDevice i)
            (resp ⟨device.RHCClientID, url, update.Account⟩) device [] db).2.2 r0 hr0 with h | h
          · cases h
          · exact ⟨h, rfl⟩)
        htl
      refine ⟨u1, new, g1, g2, g3, ?_, g5⟩
      rw [g4, List.map_map]
      have hs := CreateUpdate.responses_snd url (env.saveDevice i)
        (resp ⟨device.RHCClientID, url, update.Account⟩) device [] db
        (CreateUpdate.responses url (env.saveDevice i)
          (resp ⟨device.RHCClientID, url, update.Account⟩) device [] db).1
      simp only [List.map_nil, List.nil_append] at hs
      simp only [List.flatMap_cons]
      rw [← hfst, ← hs]
      rfl

/-! ### CreateUpdate: the device rows after the fan-out -/

theorem CreateUpdate.responses_cons (url : String) (sf : Bool) (x : DispatcherResponse)
    (xs : List DispatcherResponse) (device : Device) (records : List DispatchRecord)
    (db : DB) :
    ∃ rec, CreateUpdate.responses url sf (x :: xs) device records db =
      CreateUpdate.responses url sf xs
        (if sf then (markConnected device x, db) else db.SaveDevice (markConnected device x)).1
        (records ++ [rec])
        (if sf then (markConnected device x, db) else db.SaveDevice (markConnected device x)).2 := by
  have hp : (if x.StatusCode = http.StatusCreated then
        (({ device with Connected := true } : Device),
          (⟨0, url, 0, none, models.DispatchRecordStatusCreated,
            x.PlaybookDispatcherID⟩ : DispatchRecord))
      else
        ({ device with Connected := false },
          ⟨0, url, 0, none, models.DispatchRecordStatusError, ""⟩)).1 =
      markConnected device x := by
    unfold markConnected
    split <;> rfl
  refine ⟨(if x.StatusCode = http.StatusCreated then
        (({ device with Connected := true } : Device),
          (⟨0, url, 0, none, models.DispatchRecordStatusCreated,
            x.PlaybookDispatcherID⟩ : DispatchRecord))
      else
        ({ device with Connected := false },
          ⟨0, url, 0, none, models.DispatchRecordStatusError, ""⟩)).2, ?_⟩
  rw [CreateUpdate.responses]
  simp only [hp]

theorem CreateUpdate.responses_store (url : String) (sf : Bool)
    (exc : List DispatcherResponse) (device : Device) (records : List DispatchRecord)
    (db : DB) (h : device.ID ≠ 0) :
    (CreateUpdate.responses url sf exc device records db).2.2.FullSaveAssociations =
      db.FullSaveAssociations ∧
    (∀ k, k ≠ device.ID →
      (CreateUpdate.responses url sf exc device records db).2.2.deviceOf k = db.deviceOf k) ∧
    (sf = false → exc ≠ [] →
      (CreateUpdate.responses url sf exc device records db).2.2.deviceOf device.ID =
        some (exc.foldl markConnected device)) := by
  induction exc generalizing device records db with
  | nil => exact ⟨rfl, fun _ _ => rfl, fun _ hne => absurd rfl hne⟩
  | cons x xs ih =>
    have hm : (markConnected device x).ID ≠ 0 := by rw [markConnected_id]; exact h
    obtain ⟨rec, hrec⟩ := CreateUpdate.responses_cons url sf x xs device records db
    rw [hrec]
    cases sf with
    | true =>
      simp only [if_true]
      obtain ⟨i1, i2, _⟩ := ih (markConnected device x) (records ++ [rec]) db hm
      refine ⟨i1, ?_, fun hf => by cases hf⟩
      intro k hk
      exact i2 k (by rw [markConnected_id]; exact hk)
    | false =>
      simp only [Bool.false_eq_true, if_false]
      have hs1 : (db.SaveDevice (markConnected device x)).1 = markConnected device x :=
        DB.SaveDevice_fst _ _ hm
      have hs2 : (db.SaveDevice (markConnected device x)).2 =
          { db with devices := upsert (fun d => d.ID) (markConnected device x) db.devices } := by
        unfold DB.SaveDevice
        rw [if_neg hm]
      rw [hs1]
      obtain ⟨i1, i2, i3⟩ := ih (markConnected device x) (records ++ [rec])
        (db.SaveDevice (markConnected device x)).2 hm
      refine ⟨?_, ?_, ?_⟩
      · rw [i1, hs2]
      · intro k hk
        rw [i2 k (by rw [markConnected_id]; exact hk), hs2]
        unfold DB.deviceOf
        exact find_upsert_other (fun d : Device => d.ID) _ k db.devices
          (by show k ≠ (markConnected device x).ID; rw [markConnected_id]; exact hk)
      · intro _ _
        simp only [List.foldl_cons]
        cases xs with
        | nil =>
          simp only [CreateUpdate.responses, List.foldl_nil]
          have := DB.SaveDevice_stored db (markConnected device x) hm
          rw [markConnected_id] at this
          exact this
        | cons y ys =>
          have := i3 rfl (List.cons_ne_nil y ys)
          rw [markConnected_id] at this
          exact this

theorem saveDeviceAssoc_extends (d : Device) (ds : List Device) :
    ∃ l, (saveDeviceAssoc false d ds).2 = ds ++ l := by
  unfold saveDeviceAssoc
  split
  · exact ⟨_, rfl⟩
  · unfold upsertAssoc
    split
    · exact ⟨[], by simp⟩
    · exact ⟨_, rfl⟩

theorem saveRecordDevice_extends (r : DispatchRecord) (ds : List Device) :
    ∃ l, (saveRecordDevice false r ds).2 = ds ++ l := by
  unfold saveRecordDevice
  split
  · exact ⟨[], by simp⟩
  · exact saveDeviceAssoc_extends _ _

theorem foldl_saveUpdateDevice_extends (uid : Nat) (ds : List Device)
    (acc : List Device × DB) (h : acc.2.FullSaveAssociations = false) :
    (ds.foldl (saveUpdateDevice uid) acc).2.FullSaveAssociations = false ∧
    ∃ l, (ds.foldl (saveUpdateDevice uid) acc).2.devices = acc.2.devices ++ l := by
  induction ds generalizing acc with
  | nil => exact ⟨h, [], by simp⟩
  | cons d ds ih =>
    simp only [List.foldl_cons]
    obtain ⟨i1, l, i2⟩ := ih (saveUpdateDevice uid acc d) h
    refine ⟨i1, ?_⟩
    obtain ⟨l0, hl0⟩ := saveDeviceAssoc_extends d acc.2.devices
    refine ⟨l0 ++ l, ?_⟩
    rw [i2]
    simp only [saveUpdateDevice, h, hl0, List.append_assoc]

theorem foldl_saveRecordAssoc_extends (uid : Nat) (rs : List DispatchRecord)
    (acc : List DispatchRecord × DB) (h : acc.2.FullSaveAssociations = false) :
    (rs.foldl (saveRecordAssoc uid) acc).2.FullSaveAssociations = false ∧
    ∃ l, (rs.foldl (saveRecordAssoc uid) acc).2.devices = acc.2.devices ++ l := by
  induction rs generalizing acc with
  | nil => exact ⟨h, [], by simp⟩
  | cons r rs ih =>
    simp only [List.foldl_cons]
    obtain ⟨i1, l, i2⟩ := ih (saveRecordAssoc uid acc r) h
    refine ⟨i1, ?_⟩
    obtain ⟨l0, hl0⟩ := saveRecordDevice_extends r acc.2.devices
    refine ⟨l0 ++ l, ?_⟩
    rw [i2]
    simp only [saveRecordAssoc, h, hl0, List.append_assoc]

theorem DB.SaveUpdate_extends (db : DB) (u : UpdateTransaction)
    (h : db.FullSaveAssociations = false) :
    (db.SaveUpdate u).2.FullSaveAssociations = false ∧
    ∃ l, (db.SaveUpdate u).2.devices = db.devices ++ l := by
  unfold DB.SaveUpdate
  simp only
  obtain ⟨a1, la, a2⟩ := foldl_saveUpdateDevice_extends
    (if (saveUpdateCommit db.FullSaveAssociations u db.commits).1.ID = 0 then
      { (saveUpdateCommit db.FullSaveAssociations u db.commits).1 with
        ID := nextID (fun x => x.ID) db.update_transactions }
      else (saveUpdateCommit db.FullSaveAssociations u db.commits).1).ID
    (if (saveUpdateCommit db.FullSaveAssociations u db.commits).1.ID = 0 then
      { (saveUpdateCommit db.FullSaveAssociations u db.commits).1 with
        ID := nextID (fun x => x.ID) db.update_transactions }
      else (saveUpdateCommit db.FullSaveAssociations u db.commits).1).Devices
    ([], { db with
      commits := (saveUpdateCommit db.FullSaveAssociations u db.commits).2
      update_transactions := upsert (fun x => x.ID)
        (if (saveUpdateCommit db.FullSaveAssociations u db.commits).1.ID = 0 then
          { (saveUpdateCommit db.FullSaveAssociations u db.commits).1 with
            ID := nextID (fun x => x.ID) db.update_transactions }
          else (saveUpdateCommit db.FullSaveAssociations u db.commits).1).row
        db.update_transactions }) h
  obtain ⟨b1, lb, b2⟩ := foldl_saveRecordAssoc_extends
    (if (saveUpdateCommit db.FullSaveAssociations u db.commits).1.ID = 0 then
      { (saveUpdateCommit db.FullSaveAssociations u db.commits).1 with
        ID := nextID (fun x => x.ID) db.update_transactions }
      else (saveUpdateCommit db.FullSaveAssociations u db.commits).1).ID
    (if (saveUpdateCommit db.FullSaveAssociations u db.commits).1.ID = 0 then
      { (saveUpdateCommit db.FullSaveAssociations u db.commits).1 with
        ID := nextID (fun x => x.ID) db.update_transactions }
      else (saveUpdateCommit db.FullSaveAssociations u db.commits).1).DispatchRecords
    ([], _) a1
  refine ⟨b1, la ++ lb, ?_⟩
  rw [b2, a2, List.append_assoc]

theorem SetUpdateStatus_extends (f : Faults) (u : UpdateTransaction) (db : DB)
    (h : db.FullSaveAssociations = false) :
    (SetUpdateStatus f u db).2.1.FullSaveAssociations = false ∧
    ∃ l, (SetUpdateStatus f u db).2.1.devices = db.devices ++ l := by
  unfold SetUpdateStatus
  simp only
  split
  · exact ⟨h, [], by simp⟩
  · exact DB.SaveUpdate_extends db _ h

theorem deviceOf_extends (db db2 : DB) (l : List Device)
    (h : db2.devices = db.devices ++ l) (k : Nat) (x : Device)
    (hx : db.deviceOf k = some x) : db2.deviceOf k = some x := by
  unfold DB.deviceOf at hx ⊢
  rw [h, List.find?_append, hx]
  rfl

theorem CreateUpdate.begin_extends (env : CreateEnv) (id : Nat) (db : DB)
    (h : db.FullSaveAssociations = false) :
    (CreateUpdate.begin env id db).FullSaveAssociations = false ∧
    ∃ l, (CreateUpdate.begin env id db).devices = db.devices ++ l := by
  unfold CreateUpdate.begin
  split
  · exact ⟨h, [], by simp⟩
  · exact DB.SaveUpdate_extends db _ h

theorem SetUpdateStatus_devices (f : Faults) (u : UpdateTransaction) (db : DB)
    (hdev : ∀ x ∈ u.Devices, x.ID ≠ 0) :
    (SetUpdateStatus f u db).1.Devices = u.Devices := by
  rw [SetUpdateStatus_update_eq]
  split
  · rfl
  · exact DB.SaveUpdate_devices db _ hdev

theorem CreateUpdate.fanOut_devices (env : CreateEnv) (url : String)
    (resp : DispatcherPayload → List DispatcherResponse)
    (hex : ∀ p, env.ExecuteDispatcher p = .ok (resp p))
    (hsave : ∀ i, (env.statusFaults i).saveUpdate = false)
    (hsd : ∀ i, env.saveDevice i = false)
    (n i : Nat) (update : UpdateTransaction) (db : DB)
    (hlen : update.Devices.length = n + i)
    (hfull : db.FullSaveAssociations = false)
    (hdev : ∀ d ∈ update.Devices, d.ID ≠ 0)
    (hnd : (update.Devices.map (fun d => d.ID)).Nodup) :
    (∀ d ∈ update.Devices.drop i, resp ⟨d.RHCClientID, url, update.Account⟩ ≠ [] →
      (CreateUpdate.fanOut env url n i update db).1.deviceOf d.ID =
        some ((resp ⟨d.RHCClientID, url, update.Account⟩).foldl markConnected d)) ∧
    (∀ k x, k ∉ (update.Devices.drop i).map (fun d => d.ID) → db.deviceOf k = some x →
      (CreateUpdate.fanOut env url n i update db).1.deviceOf k = some x) := by
  induction n generalizing i update db with
  | zero =>
    have : update.Devices.drop i = [] := by
      apply List.drop_eq_nil_of_le
      omega
    rw [this]
    exact ⟨fun _ hd => (nomatch hd), fun k x _ hx => hx⟩
  | succ n ih =>
    have key : ∀ (U : UpdateTransaction) (D : DB) (tl : List Device),
        U.Devices = update.Devices → U.Account = update.Account →
        D.FullSaveAssociations = false →
        update.Devices.drop (i + 1) = tl →
        (∀ d ∈ tl, resp ⟨d.RHCClientID, url, update.Account⟩ ≠ [] →
          (CreateUpdate.fanOut env url n (i + 1) (SetUpdateStatus (env.statusFaults i) U D).1
              (SetUpdateStatus (env.statusFaults i) U D).2.1).1.deviceOf d.ID =
            some ((resp ⟨d.RHCClientID, url, update.Account⟩).foldl markConnected d)) ∧
        (∀ k x, k ∉ tl.map (fun d => d.ID) → D.deviceOf k = some x →
          (CreateUpdate.fanOut env url n (i + 1) (SetUpdateStatus (env.statusFaults i) U D).1
              (SetUpdateStatus (env.statusFaults i) U D).2.1).1.deviceOf k = some x) := by
      intro U D tl hU hA hD htl
      have hs3 := SetUpdateStatus_devices (env.statusFaults i) U D (by rw [hU]; exact hdev)
      obtain ⟨hf2, l, hl⟩ := SetUpdateStatus_extends (env.statusFaults i) U D hD
      have hlen2 : (SetUpdateStatus (env.statusFaults i) U D).1.Devices.length =
          n + (i + 1) := by
        rw [hs3, hU]
        omega
      obtain ⟨A, B⟩ := ih (i + 1) _ _ hlen2 hf2 (by rw [hs3, hU]; exact hdev)
        (by rw [hs3, hU]; exact hnd)
      rw [hs3, hU, htl, SetUpdateStatus_account, hA] at A
      rw [hs3, hU, htl] at B
      exact ⟨A, fun k x hk hx => B k x hk (deviceOf_extends D _ l hl k x hx)⟩
    unfold CreateUpdate.fanOut
    cases hd : update.Devices.drop i with
    | nil =>
      have := List.drop_eq_nil_iff.mp hd
      omega
    | cons device tl =>
      simp only
      simp only [hex]
      rw [SetUpdateStatus_saved_eq _ _ _ (hsave i)]
      simp only
      have htl : update.Devices.drop (i + 1) = tl := by
        rw [← List.drop_drop, hd]
        rfl
      have hdevice : device.ID ≠ 0 := by
        apply hdev
        apply List.mem_of_mem_drop
        rw [hd]
        exact List.mem_cons_self _ _
      have hnd2 : ((device :: tl).map (fun d => d.ID)).Nodup := by
        rw [← hd, List.map_drop]
        exact List.Nodup.sublist (List.drop_sublist _ _) hnd
      have hnot : device.ID ∉ tl.map (fun d => d.ID) := by
        simp only [List.map_cons, List.nodup_cons] at hnd2
        exact hnd2.1
      obtain ⟨s1, s2, s3⟩ := CreateUpdate.responses_store url (env.saveDevice i)
        (resp ⟨device.RHCClientID, url, update.Account⟩) device [] db hdevice
      obtain ⟨A, B⟩ := key
        { update with
          DispatchRecords := update.DispatchRecords ++
            (CreateUpdate.responses url (env.saveDevice i)
              (resp ⟨device.RHCClientID, url, update.Account⟩) device [] db).2.1.map
              (fun r => { r with
                Device := some (CreateUpdate.responses url (env.saveDevice i)
                  (resp ⟨device.RHCClientID, url, update.Account⟩) device [] db).1 }) }
        (CreateUpdate.responses url (env.saveDevice i)
          (resp ⟨device.RHCClientID, url, update.Account⟩) device [] db).2.2
        tl rfl rfl (by rw [s1]; exact hfull) htl
      refine ⟨?_, ?_⟩
      · intro d hdm hne
        rcases List.mem_cons.mp hdm with h | h
        · subst h
          exact B d.ID _ hnot (s3 (hsd i) hne)
        · exact A d h hne
      · intro k x hk hx
        simp only [List.map_cons, List.mem_cons, not_or] at hk
        exact B k x hk.2 (by rw [s2 k hk.1]; exact hx)

theorem foldl_markConnected_with (exc : List DispatcherResponse) (device : Device) (c : Bool) :
    ({ exc.foldl markConnected device with Connected := c } : Device) =
      { device with Connected := c } := by
  induction exc generalizing device with
  | nil => rfl
  | cons x xs ih =>
    simp only [List.foldl_cons]
    rw [ih]
    unfold markConnected
    split <;> rfl

theorem foldl_markConnected_last (pre : List DispatcherResponse) (x : DispatcherResponse)
    (device : Device) :
    (pre ++ [x]).foldl markConnected device =
      { device with Connected := decide (x.StatusCode = http.StatusCreated) } := by
  rw [List.foldl_append]
  simp only [List.foldl_cons, List.foldl_nil]
  rw [← foldl_markConnected_with pre device]
  unfold markConnected
  by_cases hx : x.StatusCode = http.StatusCreated
  · rw [if_pos hx, decide_eq_true hx]
  · rw [if_neg hx, decide_eq_false hx]

theorem responseRecord_fields (url : String) (D : Device) (x : DispatcherResponse) :
    (responseRecord url D x).PlaybookURL = url ∧
    (responseRecord url D x).DeviceID = D.ID ∧
    (responseRecord url D x).Device = some D ∧
    (x.StatusCode = http.StatusCreated →
      (responseRecord url D x).Status = models.DispatchRecordStatusCreated ∧
      (responseRecord url D x).PlaybookDispatcherID = x.PlaybookDispatcherID) ∧
    (x.StatusCode ≠ http.StatusCreated →
      (responseRecord url D x).Status = models.DispatchRecordStatusError ∧
      (responseRecord url D x).PlaybookDispatcherID = "") := by
  unfold responseRecord
  by_cases hx : x.StatusCode = http.StatusCreated
  · rw [if_pos hx]
    exact ⟨rfl, rfl, rfl, fun _ => ⟨rfl, rfl⟩, fun h => absurd hx h⟩
  · rw [if_neg hx]
    exact ⟨rfl, rfl, rfl, fun h => absurd h hx, fun _ => ⟨rfl, rfl⟩⟩

theorem mem_new_of_response (url : String) (new : List DispatchRecord) (l : List Device)
    (R : Device → List DispatcherResponse) (D : Device → Device)
    (h : new.map (fun r => ({ r with ID := 0 } : DispatchRecord)) =
      l.flatMap (fun d => (R d).map (responseRecord url (D d))))
    (d : Device) (hd : d ∈ l) (x : DispatcherResponse) (hx : x ∈ R d) :
    ∃ r ∈ new, ({ r with ID := 0 } : DispatchRecord) = responseRecord url (D d) x := by
  have hm : responseRecord url (D d) x ∈
      new.map (fun r => ({ r with ID := 0 } : DispatchRecord)) := by
    rw [h]
    exact List.mem_flatMap.mpr ⟨d, hd, List.mem_map.mpr ⟨x, hx, rfl⟩⟩
  obtain ⟨r, hr, he⟩ := List.mem_map.mp hm
  exact ⟨r, hr, he⟩

theorem flatMap_single_response (url account : String)
    (resp : DispatcherPayload → List DispatcherResponse)
    (h : ∀ p, (resp p).length = 1) (l : List Device) :
    (l.flatMap (fun d =>
      (resp ⟨d.RHCClientID, url, account⟩).map
        (responseRecord url ((resp ⟨d.RHCClientID, url, account⟩).foldl markConnected d)))).map
        (fun r => (r.DeviceID, r.Device.map (fun v => v.ID))) =
      l.map (fun d => (d.ID, some d.ID)) := by
  induction l with
  | nil => rfl
  | cons d l ih =>
    obtain ⟨x, hx⟩ := List.length_eq_one.mp (h ⟨d.RHCClientID, url, account⟩)
    simp only [List.flatMap_cons, List.map_append, List.map_cons, ih, hx, List.map_nil,
      List.singleton_append, List.foldl_cons, List.foldl_nil]
    obtain ⟨_, f2, f3, _⟩ := responseRecord_fields url (markConnected d x) x
    rw [f2, f3, markConnected_id]
    simp only [Option.map_some', markConnected_id]

theorem flatMap_device_ids (url account : String)
    (resp : DispatcherPayload → List DispatcherResponse) (l : List Device) :
    (l.flatMap (fun d =>
      (resp ⟨d.RHCClientID, url, account⟩).map
        (responseRecord url ((resp ⟨d.RHCClientID, url, account⟩).foldl markConnected d)))).map
        (fun r => (r.DeviceID, r.Device.map (fun v => v.ID))) =
      l.flatMap (fun d =>
        (resp ⟨d.RHCClientID, url, account⟩).map (fun _ => (d.ID, some d.ID))) := by
  induction l with
  | nil => rfl
  | cons d l ih =>
    simp only [List.flatMap_cons, List.map_append, ih, List.map_map]
    congr 1
    apply List.map_congr_left
    intro x _
    obtain ⟨_, f2, f3, _⟩ := responseRecord_fields url
      ((resp ⟨d.RHCClientID, url, account⟩).foldl markConnected d) x
    simp only [Function.comp_apply, f2, f3, foldl_markConnected_id, Option.map_some']

/-! ## The claims -/

/-- C1: whenever the dispatch records of an update transaction contain a record
in Error, whatever the prior status and wherever the record sits, the update is
in Error after `SetUpdateStatus`, and that is the status stored when the save
succeeds. -/
theorem C1_error_record_gives_error (f : Faults) (update : UpdateTransaction) (db : DB)
    (h : ∃ d ∈ update.DispatchRecords, d.Status = models.DispatchRecordStatusError) :
    (SetUpdateStatus f update db).1.Status = models.UpdateStatusError ∧
    (f.saveUpdate = false →
      (SetUpdateStatus f update db).2.1.statusOf (SetUpdateStatus f update db).1.ID =
        some models.UpdateStatusError) := by
  have hs : (SetUpdateStatus f update db).1.Status = UpdateStatus.Error := by
    rw [SetUpdateStatus_status]
    have : update.DispatchRecords.any (fun d => d.Status = DispatchRecordStatus.Error) = true := by
      obtain ⟨d, hd, he⟩ := h
      exact List.any_eq_true.mpr ⟨d, hd, by simpa using he⟩
    simp [this]
  refine ⟨hs, fun hf => ?_⟩
  rw [SetUpdateStatus_persisted f update db hf, hs]

/-- Witness for C1: a rollout previously in Success whose records are Complete,
Error and Running. -/
theorem C1_error_record_gives_error_witness :
    (SetUpdateStatus noFaults
      ⟨1, "acc", 0, none, [],
        [⟨1, "u", 1, none, .Complete, "a"⟩, ⟨2, "u", 2, none, .Error, ""⟩,
         ⟨3, "u", 3, none, .Running, "c"⟩], .Success⟩
      ⟨false, [], [], [], [], [], [], []⟩).1.Status = models.UpdateStatusError :=
  (C1_error_record_gives_error noFaults _ _ ⟨⟨2, "u", 2, none, .Error, ""⟩, by decide, rfl⟩).1

/-- C2, as stated, fails: with no dispatch records at all `SetUpdateStatus`
turns a Building update into Success, and an update already in Success stays in
Success while its only record is Running. -/
theorem C2_counterexample :
    ¬ ((SetUpdateStatus noFaults ⟨1, "acc", 0, none, [], [], .Building⟩
          ⟨false, [], [], [], [], [], [], []⟩).1.Status = models.UpdateStatusSuccess ↔
        (([] : List DispatchRecord) ≠ [] ∧
          ∀ d ∈ ([] : List DispatchRecord), d.Status = models.DispatchRecordStatusComplete)) ∧
    ¬ ((SetUpdateStatus noFaults
          ⟨1, "acc", 0, none, [], [⟨1, "u", 1, none, .Running, "a"⟩], .Success⟩
          ⟨false, [], [], [], [], [], [], []⟩).1.Status = models.UpdateStatusSuccess ↔
        ([(⟨1, "u", 1, none, .Running, "a"⟩ : DispatchRecord)] ≠ [] ∧
          ∀ d ∈ [(⟨1, "u", 1, none, .Running, "a"⟩ : DispatchRecord)],
            d.Status = models.DispatchRecordStatusComplete)) := by
  constructor
  · intro h
    have h1 := h.mp (by decide)
    exact h1.1 rfl
  · intro h
    have h1 := h.mp (by decide)
    have h2 := h1.2 _ (List.mem_singleton.mpr rfl)
    exact absurd h2 (by decide)

/-- C2, amended: the status after `SetUpdateStatus` is Success exactly when every
dispatch record is Complete (which includes the empty list), or no record is in
Error and the update was in Success before. -/
theorem C2_success_iff (f : Faults) (update : UpdateTransaction) (db : DB) :
    (SetUpdateStatus f update db).1.Status = models.UpdateStatusSuccess ↔
      (∀ d ∈ update.DispatchRecords, d.Status = models.DispatchRecordStatusComplete) ∨
      ((∀ d ∈ update.DispatchRecords, d.Status ≠ models.DispatchRecordStatusError) ∧
        update.Status = models.UpdateStatusSuccess) := by
  rw [SetUpdateStatus_status]
  by_cases h1 : update.DispatchRecords.any (fun d => d.Status = DispatchRecordStatus.Error) = true
  · obtain ⟨d, hd, he⟩ := (any_error_iff _).mp h1
    simp only [h1, if_true]
    constructor
    · intro h; exact absurd h (by decide)
    · rintro (h | ⟨h, _⟩)
      · have := h d hd
        rw [he] at this
        exact absurd this (by decide)
      · exact absurd he (h d hd)
  · have hne : ∀ d ∈ update.DispatchRecords, d.Status ≠ DispatchRecordStatus.Error := by
      intro d hd he
      exact h1 ((any_error_iff _).mpr ⟨d, hd, he⟩)
    simp only [h1, if_false, Bool.false_eq_true]
    by_cases h2 : update.DispatchRecords.all
        (fun d => d.Status = DispatchRecordStatus.Complete) = true
    · simp only [h2, if_true, true_iff]
      exact Or.inl ((all_complete_iff _).mp h2)
    · simp only [h2, if_false, Bool.false_eq_true]
      constructor
      · intro h; exact Or.inr ⟨hne, h⟩
      · rintro (h | ⟨_, h⟩)
        · exact absurd ((all_complete_iff _).mpr h) h2
        · exact h

/-- C3, as stated, fails: two updates with the same single Running record, one
Building and one in Success before, end in different statuses. -/
theorem C3_counterexample :
    (SetUpdateStatus noFaults
        ⟨1, "acc", 0, none, [], [⟨1, "u", 1, none, .Running, "a"⟩], .Building⟩
        ⟨false, [], [], [], [], [], [], []⟩).1.Status ≠
    (SetUpdateStatus noFaults
        ⟨1, "acc", 0, none, [], [⟨1, "u", 1, none, .Running, "a"⟩], .Success⟩
        ⟨false, [], [], [], [], [], [], []⟩).1.Status := by
  decide

/-- C3, amended: for two updates with the same dispatch records, the status
after `SetUpdateStatus` is the same for both when a record is in Error (then
Error) or every record is Complete (then Success); in every other case each
update keeps the status it had before. -/
theorem C3_status_from_records_or_prior (f1 f2 : Faults) (u1 u2 : UpdateTransaction)
    (db1 db2 : DB) (h : u1.DispatchRecords = u2.DispatchRecords) :
    ((∃ d ∈ u1.DispatchRecords, d.Status = models.DispatchRecordStatusError) →
      (SetUpdateStatus f1 u1 db1).1.Status = models.UpdateStatusError ∧
      (SetUpdateStatus f2 u2 db2).1.Status = models.UpdateStatusError) ∧
    ((∀ d ∈ u1.DispatchRecords, d.Status = models.DispatchRecordStatusComplete) →
      (SetUpdateStatus f1 u1 db1).1.Status = models.UpdateStatusSuccess ∧
      (SetUpdateStatus f2 u2 db2).1.Status = models.UpdateStatusSuccess) ∧
    ((¬ ∃ d ∈ u1.DispatchRecords, d.Status = models.DispatchRecordStatusError) →
      (¬ ∀ d ∈ u1.DispatchRecords, d.Status = models.DispatchRecordStatusComplete) →
      (SetUpdateStatus f1 u1 db1).1.Status = u1.Status ∧
      (SetUpdateStatus f2 u2 db2).1.Status = u2.Status) := by
  rw [SetUpdateStatus_status, SetUpdateStatus_status, ← h]
  refine ⟨fun he => ?_, fun hc => ?_, fun he hc => ?_⟩
  · simp [(any_error_iff _).mpr he]
  · have hne : ¬ u1.DispatchRecords.any
        (fun d => d.Status = DispatchRecordStatus.Error) = true := by
      intro ha
      obtain ⟨d, hd, hde⟩ := (any_error_iff _).mp ha
      have := hc d hd
      rw [hde] at this
      exact absurd this (by decide)
    simp [hne, (all_complete_iff _).mpr hc]
  · have h1 : ¬ u1.DispatchRecords.any (fun d => d.Status = DispatchRecordStatus.Error) = true :=
      fun ha => he ((any_error_iff _).mp ha)
    have h2 : ¬ u1.DispatchRecords.all
        (fun d => d.Status = DispatchRecordStatus.Complete) = true :=
      fun ha => hc ((all_complete_iff _).mp ha)
    simp [h1, h2]

/-- Witness for C3: same single Running record, prior statuses Building and
Success. -/
theorem C3_status_from_records_or_prior_witness :
    (SetUpdateStatus noFaults
        ⟨1, "acc", 0, none, [], [⟨1, "u", 1, none, .Running, "a"⟩], .Building⟩
        ⟨false, [], [], [], [], [], [], []⟩).1.Status = UpdateStatus.Building ∧
    (SetUpdateStatus noFaults
        ⟨2, "acc", 0, none, [], [⟨1, "u", 1, none, .Running, "a"⟩], .Success⟩
        ⟨false, [], [], [], [], [], [], []⟩).1.Status = UpdateStatus.Success :=
  (C3_status_from_records_or_prior noFaults noFaults
    ⟨1, "acc", 0, none, [], [⟨1, "u", 1, none, .Running, "a"⟩], .Building⟩
    ⟨2, "acc", 0, none, [], [⟨1, "u", 1, none, .Running, "a"⟩], .Success⟩
    ⟨false, [], [], [], [], [], [], []⟩ ⟨false, [], [], [], [], [], [], []⟩ rfl).2.2
    (by decide) (by decide)

/-- C4: `SetUpdateStatus` applied a second time to the update it returned gives
the same status and leaves the statuses of the dispatch records as they were;
when the second save succeeds, that status is the one stored, and when the
first save succeeded the second call returns the very same update, records
included. -/
theorem C4_SetUpdateStatus_idempotent (f1 f2 : Faults) (update : UpdateTransaction) (db : DB) :
    (SetUpdateStatus f2 (SetUpdateStatus f1 update db).1
        (SetUpdateStatus f1 update db).2.1).1.Status =
      (SetUpdateStatus f1 update db).1.Status ∧
    (SetUpdateStatus f2 (SetUpdateStatus f1 update db).1
        (SetUpdateStatus f1 update db).2.1).1.DispatchRecords.map (fun r => r.Status) =
      (SetUpdateStatus f1 update db).1.DispatchRecords.map (fun r => r.Status) ∧
    (SetUpdateStatus f1 update db).1.DispatchRecords.map (fun r => r.Status) =
      update.DispatchRecords.map (fun r => r.Status) ∧
    (f2.saveUpdate = false →
      (SetUpdateStatus f2 (SetUpdateStatus f1 update db).1
          (SetUpdateStatus f1 update db).2.1).2.1.statusOf
        (SetUpdateStatus f2 (SetUpdateStatus f1 update db).1
          (SetUpdateStatus f1 update db).2.1).1.ID =
        some (SetUpdateStatus f1 update db).1.Status) ∧
    (f1.saveUpdate = false →
      (SetUpdateStatus f2 (SetUpdateStatus f1 update db).1
          (SetUpdateStatus f1 update db).2.1).1 = (SetUpdateStatus f1 update db).1) := by
  have hrec := SetUpdateStatus_record_statuses f1 update db
  have hst : (SetUpdateStatus f2 (SetUpdateStatus f1 update db).1
        (SetUpdateStatus f1 update db).2.1).1.Status =
      (SetUpdateStatus f1 update db).1.Status := by
    rw [SetUpdateStatus_status f2]
    rw [any_eq_of_map_status (fun s => s = DispatchRecordStatus.Error) hrec,
      all_eq_of_map_status (fun s => s = DispatchRecordStatus.Complete) hrec]
    rw [SetUpdateStatus_status f1]
    by_cases h1 : update.DispatchRecords.any
        (fun d => d.Status = DispatchRecordStatus.Error) = true
    · simp [h1]
    · by_cases h2 : update.DispatchRecords.all
          (fun d => d.Status = DispatchRecordStatus.Complete) = true
      · simp [h1, h2]
      · simp [h1, h2]
  refine ⟨hst, SetUpdateStatus_record_statuses f2 _ _, hrec, fun hf => ?_,
    fun hf => SetUpdateStatus_twice f1 f2 update db hf⟩
  rw [SetUpdateStatus_persisted f2 _ _ hf, hst]

/-- Witness for C4: an update with one new Complete record and one new Created
record, saved into an empty store, and recomputed a second time. -/
theorem C4_SetUpdateStatus_idempotent_witness :
    (SetUpdateStatus noFaults
        (SetUpdateStatus noFaults
          ⟨0, "acc", 0, none, [],
            [⟨0, "u", 0, none, .Complete, "a"⟩, ⟨0, "u", 0, none, .Created, "b"⟩], .Building⟩
          ⟨false, [], [], [], [], [], [], []⟩).1
        (SetUpdateStatus noFaults
          ⟨0, "acc", 0, none, [],
            [⟨0, "u", 0, none, .Complete, "a"⟩, ⟨0, "u", 0, none, .Created, "b"⟩], .Building⟩
          ⟨false, [], [], [], [], [], [], []⟩).2.1).1 =
      (SetUpdateStatus noFaults
          ⟨0, "acc", 0, none, [],
            [⟨0, "u", 0, none, .Complete, "a"⟩, ⟨0, "u", 0, none, .Created, "b"⟩], .Building⟩
          ⟨false, [], [], [], [], [], [], []⟩).1 :=
  (C4_SetUpdateStatus_idempotent noFaults noFaults
    ⟨0, "acc", 0, none, [],
      [⟨0, "u", 0, none, .Complete, "a"⟩, ⟨0, "u", 0, none, .Created, "b"⟩], .Building⟩
    ⟨false, [], [], [], [], [], [], []⟩).2.2.2.2 rfl

/-- C5, as stated, fails. (a) `CreateUpdate` whose build fails stores the update
as Error although it has no dispatch record at all. (b) After a `CreateUpdate`
that dispatched to both devices (two records Created, update Building) the
interruption watcher stores the update as Error although no record is in
Error. (c) After a failure event and then a success event for the same record
the update is stored as Error while its records are Complete and Created. -/
theorem C5_counterexample :
    ((CreateUpdate (exampleEnv (.error Err.ErrCollaborator)) 1 exampleFreshDB).1.statusOf 1 =
        some models.UpdateStatusError ∧
      ¬ ∃ r ∈ (CreateUpdate (exampleEnv (.error Err.ErrCollaborator)) 1
          exampleFreshDB).1.preloadDispatchRecords 1,
        r.Status = models.DispatchRecordStatusError) ∧
    ((CreateUpdate (exampleEnv exampleBuilt) 1 exampleFreshDB).1.statusOf 1 =
        some models.UpdateStatusBuilding ∧
      (interruptionWatcher false (exampleFreshDB.FindUpdate 1 UpdateStatus.Building)
          (CreateUpdate (exampleEnv exampleBuilt) 1 exampleFreshDB).1).statusOf 1 =
        some models.UpdateStatusError ∧
      ¬ ∃ r ∈ (interruptionWatcher false (exampleFreshDB.FindUpdate 1 UpdateStatus.Building)
          (CreateUpdate (exampleEnv exampleBuilt) 1 exampleFreshDB).1).preloadDispatchRecords 1,
        r.Status = models.DispatchRecordStatusError) ∧
    ((ProcessPlaybookDispatcherRunEvent exampleService noFaults
          (decodesTo (exampleEvent "run-1" "success")) []
          (ProcessPlaybookDispatcherRunEvent exampleService noFaults
            (decodesTo (exampleEvent "run-1" "failure")) []
            ⟨exampleDB false .Created .Created .Building, 0⟩).1).1.db.statusOf 1 =
        some models.UpdateStatusError ∧
      ¬ ∃ r ∈ (ProcessPlaybookDispatcherRunEvent exampleService noFaults
          (decodesTo (exampleEvent "run-1" "success")) []
          (ProcessPlaybookDispatcherRunEvent exampleService noFaults
            (decodesTo (exampleEvent "run-1" "failure")) []
            ⟨exampleDB false .Created .Created .Building, 0⟩).1).1.db.preloadDispatchRecords 1,
        r.Status = models.DispatchRecordStatusError) := by
  decide

/-- C5, amended: after `ProcessPlaybookDispatcherRunEvent` has processed an
event that is not a running event, found its dispatch record and the update
that owns it and met no store error, the stored status of that update is Error
when at least one of its dispatch records is in Error, Success when all of them
are Complete, and otherwise the status the update had before the event. -/
theorem C5_status_after_event (s : UpdateService) (f : Faults)
    (unmarshal : List Nat → Except Err (Option PlaybookDispatcherEvent)) (message : List Nat)
    (e : PlaybookDispatcherEvent) (w : World) (r : DispatchRecord) (u : UpdateTransaction)
    (hdec : unmarshal message = .ok (some e))
    (hrun : e.Payload.Status ≠ PlaybookStatusRunning)
    (hwf : w.db.wf)
    (hf1 : f.findDispatchRecord = false) (hf2 : f.saveDispatchRecord = false)
    (hf3 : f.findUpdate = false) (hf4 : f.saveUpdate = false)
    (hfind : w.db.FirstDispatchRecord false e.Payload.ID = .ok r)
    (hdevice : e.Payload.Status = PlaybookStatusSuccess → r.Device ≠ none)
    (hown : w.db.FirstUpdateByDispatchRecord false r.ID = .ok u) :
    ((∃ d ∈ (ProcessPlaybookDispatcherRunEvent s f unmarshal message w).1.db.preloadDispatchRecords
          u.ID, d.Status = models.DispatchRecordStatusError) →
      (ProcessPlaybookDispatcherRunEvent s f unmarshal message w).1.db.statusOf u.ID =
        some models.UpdateStatusError) ∧
    ((∀ d ∈ (ProcessPlaybookDispatcherRunEvent s f unmarshal message w).1.db.preloadDispatchRecords
          u.ID, d.Status = models.DispatchRecordStatusComplete) →
      (ProcessPlaybookDispatcherRunEvent s f unmarshal message w).1.db.statusOf u.ID =
        some models.UpdateStatusSuccess) ∧
    ((¬ ∃ d ∈ (ProcessPlaybookDispatcherRunEvent s f unmarshal message w).1.db.preloadDispatchRecords
          u.ID, d.Status = models.DispatchRecordStatusError) →
      (¬ ∀ d ∈ (ProcessPlaybookDispatcherRunEvent s f unmarshal message w).1.db.preloadDispatchRecords
          u.ID, d.Status = models.DispatchRecordStatusComplete) →
      (ProcessPlaybookDispatcherRunEvent s f unmarshal message w).1.db.statusOf u.ID =
        some u.Status) := by
  rw [ProcessPlaybookDispatcherRunEvent_decoded s f unmarshal message e w hdec]
  have hdev : ¬ (statusFor e.Payload.Status = DispatchRecordStatus.Complete ∧ r.Device = none) := by
    rintro ⟨hc, hn⟩
    by_cases hs : e.Payload.Status = PlaybookStatusSuccess
    · exact hdevice hs hn
    · rw [statusFor_other _ hrun hs] at hc
      exact absurd hc (by decide)
  have hown2 := processEvent_owner_status s f e w r u hwf hrun hf1 hf2 hf3 hf4 hfind hdev hown
  refine ⟨fun h => ?_, fun h => ?_, fun h1 h2 => ?_⟩
  · rw [hown2, aggregate_error _ _ h]
  · rw [hown2, aggregate_success _ _ h]
  · rw [hown2, aggregate_prior _ _ h1 h2]

/-- Witness for C5: the success event for `run-2` while `run-1` is Complete
makes the update Success. -/
theorem C5_status_after_event_witness :
    (ProcessPlaybookDispatcherRunEvent exampleService noFaults
        (decodesTo (exampleEvent "run-2" "success")) []
        ⟨exampleDB false .Complete .Created .Building, 0⟩).1.db.statusOf 1 =
      some models.UpdateStatusSuccess :=
  (C5_status_after_event exampleService noFaults
    (decodesTo (exampleEvent "run-2" "success")) [] (exampleEvent "run-2" "success")
    ⟨exampleDB false .Complete .Created .Building, 0⟩
    ⟨2, "url", 2, some ⟨2, "acc", "rhc-2", "abc", "old", true, 0, false⟩, .Created, "run-2"⟩
    ⟨1, "acc", 1, none, [],
      [⟨1, "url", 1, none, .Complete, "run-1"⟩, ⟨2, "url", 2, none, .Created, "run-2"⟩],
      .Building⟩
    rfl (by decide) (by decide) rfl rfl rfl rfl rfl (fun _ => by decide) rfl).2.1 (by decide)

/-- C6, as stated, fails: with record `run-1` stored in Error (and its update in
Error), the commit of a success event for `run-1` stores the record as Complete
and, the other record being Complete, the update as Success. -/
theorem C6_counterexample :
    (exampleDB false .Error .Complete .Error).recordStatusOf 1 =
      some models.DispatchRecordStatusError ∧
    (exampleDB false .Error .Complete .Error).statusOf 1 = some models.UpdateStatusError ∧
    (ProcessPlaybookDispatcherRunEvent exampleService noFaults
        (decodesTo (exampleEvent "run-1" "success")) []
        ⟨exampleDB false .Error .Complete .Error, 0⟩).1.db.recordStatusOf 1 =
      some models.DispatchRecordStatusComplete ∧
    (ProcessPlaybookDispatcherRunEvent exampleService noFaults
        (decodesTo (exampleEvent "run-1" "success")) []
        ⟨exampleDB false .Error .Complete .Error, 0⟩).1.db.statusOf 1 =
      some models.UpdateStatusSuccess := by
  decide

/-- C6, amended: the commit of a success event stores the dispatch record it
finds as Complete whatever status the record had in the store, Error included;
the owning update is then recomputed from its records: Error when another
record is in Error, Success when all are Complete, and otherwise the status it
had before (so an update in Error stays in Error while some record is not yet
Complete). -/
theorem C6_success_overwrites_record (s : UpdateService) (f : Faults)
    (unmarshal : List Nat → Except Err (Option PlaybookDispatcherEvent)) (message : List Nat)
    (e : PlaybookDispatcherEvent) (w : World) (r : DispatchRecord) (u : UpdateTransaction)
    (hdec : unmarshal message = .ok (some e))
    (hst : e.Payload.Status = PlaybookStatusSuccess)
    (hwf : w.db.wf)
    (hf1 : f.findDispatchRecord = false) (hf2 : f.saveDispatchRecord = false)
    (hf3 : f.findUpdate = false) (hf4 : f.saveUpdate = false)
    (hfind : w.db.FirstDispatchRecord false e.Payload.ID = .ok r)
    (hdevice : r.Device ≠ none)
    (hown : w.db.FirstUpdateByDispatchRecord false r.ID = .ok u) :
    (ProcessPlaybookDispatcherRunEvent s f unmarshal message w).1.db.recordStatusOf r.ID =
      some models.DispatchRecordStatusComplete ∧
    ((∃ d ∈ (ProcessPlaybookDispatcherRunEvent s f unmarshal message w).1.db.preloadDispatchRecords
          u.ID, d.Status = models.DispatchRecordStatusError) →
      (ProcessPlaybookDispatcherRunEvent s f unmarshal message w).1.db.statusOf u.ID =
        some models.UpdateStatusError) ∧
    ((∀ d ∈ (ProcessPlaybookDispatcherRunEvent s f unmarshal message w).1.db.preloadDispatchRecords
          u.ID, d.Status = models.DispatchRecordStatusComplete) →
      (ProcessPlaybookDispatcherRunEvent s f unmarshal message w).1.db.statusOf u.ID =
        some models.UpdateStatusSuccess) ∧
    ((¬ ∃ d ∈ (ProcessPlaybookDispatcherRunEvent s f unmarshal message w).1.db.preloadDispatchRecords
          u.ID, d.Status = models.DispatchRecordStatusError) →
      (¬ ∀ d ∈ (ProcessPlaybookDispatcherRunEvent s f unmarshal message w).1.db.preloadDispatchRecords
          u.ID, d.Status = models.DispatchRecordStatusComplete) →
      (ProcessPlaybookDispatcherRunEvent s f unmarshal message w).1.db.statusOf u.ID =
        some u.Status) := by
  rw [ProcessPlaybookDispatcherRunEvent_decoded s f unmarshal message e w hdec]
  have hrun : e.Payload.Status ≠ PlaybookStatusRunning := by rw [hst]; decide
  have hdev : ¬ (statusFor e.Payload.Status = DispatchRecordStatus.Complete ∧ r.Device = none) :=
    fun h => hdevice h.2
  have hrec := processEvent_record_status s f e w r hwf hrun hf1 hf2 hfind hdev
  have hown2 := processEvent_owner_status s f e w r u hwf hrun hf1 hf2 hf3 hf4 hfind hdev hown
  rw [hst, statusFor_success] at hrec
  refine ⟨hrec, fun h => ?_, fun h => ?_, fun h1 h2 => ?_⟩
  · rw [hown2, aggregate_error _ _ h]
  · rw [hown2, aggregate_success _ _ h]
  · rw [hown2, aggregate_prior _ _ h1 h2]

/-- Witness for C6: record `run-1` is stored in Error, record `run-2` is still
Created and the update is in Error; the success event for `run-1` stores it as
Complete and the update keeps its status. -/
theorem C6_success_overwrites_record_witness :
    (ProcessPlaybookDispatcherRunEvent exampleService noFaults
        (decodesTo (exampleEvent "run-1" "success")) []
        ⟨exampleDB false .Error .Created .Error, 0⟩).1.db.recordStatusOf 1 =
      some models.DispatchRecordStatusComplete :=
  (C6_success_overwrites_record exampleService noFaults
    (decodesTo (exampleEvent "run-1" "success")) [] (exampleEvent "run-1" "success")
    ⟨exampleDB false .Error .Created .Error, 0⟩
    ⟨1, "url", 1, some ⟨1, "acc", "rhc-1", "abc", "old", true, 0, false⟩, .Error, "run-1"⟩
    ⟨1, "acc", 1, none, [],
      [⟨1, "url", 1, none, .Error, "run-1"⟩, ⟨2, "url", 2, none, .Created, "run-2"⟩], .Error⟩
    rfl rfl (by decide) rfl rfl rfl rfl rfl (by decide) rfl).1

/-- C7, as stated, fails: a running event whose identifier matches no dispatch
record returns nil, not a not-found error. -/
theorem C7_counterexample :
    (∀ r ∈ (exampleDB false .Created .Created .Building).dispatch_records,
      r.PlaybookDispatcherID ≠ "no-such-run") ∧
    (ProcessPlaybookDispatcherRunEvent exampleService noFaults
        (decodesTo (exampleEvent "no-such-run" "running")) []
        ⟨exampleDB false .Created .Created .Building, 0⟩).2 = Outcome.nil := by
  decide

/-- C7, amended: a running event returns nil and changes nothing, whatever its
identifier; an event of any other status whose non-empty identifier is the
`PlaybookDispatcherID` of no dispatch record returns an error and leaves the
store unchanged, and that error is the not-found error unless the lookup itself
fails in the store. -/
theorem C7_unknown_identifier (s : UpdateService) (f : Faults)
    (unmarshal : List Nat → Except Err (Option PlaybookDispatcherEvent)) (message : List Nat)
    (e : PlaybookDispatcherEvent) (w : World)
    (hdec : unmarshal message = .ok (some e)) :
    (e.Payload.Status = PlaybookStatusRunning →
      ProcessPlaybookDispatcherRunEvent s f unmarshal message w = (w, Outcome.nil)) ∧
    (e.Payload.Status ≠ PlaybookStatusRunning → e.Payload.ID ≠ "" →
      (∀ r ∈ w.db.dispatch_records, r.PlaybookDispatcherID ≠ e.Payload.ID) →
      (ProcessPlaybookDispatcherRunEvent s f unmarshal message w).1.db = w.db ∧
      (∃ err, (ProcessPlaybookDispatcherRunEvent s f unmarshal message w).2 =
        Outcome.error err) ∧
      (f.findDispatchRecord = false →
        (ProcessPlaybookDispatcherRunEvent s f unmarshal message w).2 =
          Outcome.error Err.ErrRecordNotFound)) := by
  rw [ProcessPlaybookDispatcherRunEvent_decoded s f unmarshal message e w hdec]
  refine ⟨fun h => processEvent_running s f e w h, fun hrun hid hno => ?_⟩
  have hnf := FirstDispatchRecord_notFound w.db e.Payload.ID hid hno
  by_cases hf : f.findDispatchRecord = true
  · have hl : w.db.FirstDispatchRecord f.findDispatchRecord e.Payload.ID =
        .error Err.ErrStore := by
      unfold DB.FirstDispatchRecord
      rw [if_pos hf]
    obtain ⟨h1, h2⟩ := processEvent_lookup_error s f e w _ hrun hl
    refine ⟨h1, ⟨_, h2⟩, fun hff => ?_⟩
    rw [hff] at hf
    cases hf
  · have hf' : f.findDispatchRecord = false := by simpa using hf
    rw [← hf'] at hnf
    obtain ⟨h1, h2⟩ := processEvent_lookup_error s f e w _ hrun hnf
    exact ⟨h1, ⟨_, h2⟩, fun _ => h2⟩

/-- Witness for C7: a failure event for an identifier that no record carries. -/
theorem C7_unknown_identifier_witness :
    (ProcessPlaybookDispatcherRunEvent exampleService noFaults
        (decodesTo (exampleEvent "no-such-run" "failure")) []
        ⟨exampleDB false .Created .Created .Building, 0⟩).1.db =
      exampleDB false .Created .Created .Building ∧
    (ProcessPlaybookDispatcherRunEvent exampleService noFaults
        (decodesTo (exampleEvent "no-such-run" "failure")) []
        ⟨exampleDB false .Created .Created .Building, 0⟩).2 =
      Outcome.error Err.ErrRecordNotFound :=
  have h := (C7_unknown_identifier exampleService noFaults
    (decodesTo (exampleEvent "no-such-run" "failure")) [] (exampleEvent "no-such-run" "failure")
    ⟨exampleDB false .Created .Created .Building, 0⟩ rfl).2
    (by decide) (by decide) (by decide)
  ⟨h.1, h.2.2 rfl⟩

/-- C8, as stated, fails: a running event for the existing record `run-1`,
stored as Created, returns nil and leaves the whole store as it was; the
record is still Created, not Running. -/
theorem C8_counterexample :
    ProcessPlaybookDispatcherRunEvent exampleService noFaults
        (decodesTo (exampleEvent "run-1" "running")) []
        ⟨exampleDB false .Created .Created .Building, 0⟩ =
      (⟨exampleDB false .Created .Created .Building, 0⟩, Outcome.nil) ∧
    (exampleDB false .Created .Created .Building).dispatch_records.map
        (fun r => (r.ID, r.PlaybookDispatcherID)) = [(1, "run-1"), (2, "run-2")] ∧
    (ProcessPlaybookDispatcherRunEvent exampleService noFaults
        (decodesTo (exampleEvent "run-1" "running")) []
        ⟨exampleDB false .Created .Created .Building, 0⟩).1.db.recordStatusOf 1 =
      some models.DispatchRecordStatusCreated ∧
    models.DispatchRecordStatusCreated ≠ models.DispatchRecordStatusRunning := by
  decide

/-- C8, amended: an event whose status is running returns nil at once, whatever
the store calls would have done: no dispatch record is looked up or written,
so every record keeps the status it had (the record the identifier matches is
not set to Running), no time is slept, and the status of no update is
recomputed. -/
theorem C8_running_event_returns_at_once (s : UpdateService) (f : Faults)
    (unmarshal : List Nat → Except Err (Option PlaybookDispatcherEvent)) (message : List Nat)
    (e : PlaybookDispatcherEvent) (w : World)
    (hdec : unmarshal message = .ok (some e))
    (hst : e.Payload.Status = PlaybookStatusRunning) :
    ProcessPlaybookDispatcherRunEvent s f unmarshal message w = (w, Outcome.nil) ∧
    (∀ k, (ProcessPlaybookDispatcherRunEvent s f unmarshal message w).1.db.recordStatusOf k =
      w.db.recordStatusOf k) ∧
    (∀ uid, (ProcessPlaybookDispatcherRunEvent s f unmarshal message w).1.db.statusOf uid =
      w.db.statusOf uid) := by
  have h : ProcessPlaybookDispatcherRunEvent s f unmarshal message w = (w, Outcome.nil) := by
    rw [ProcessPlaybookDispatcherRunEvent_decoded s f unmarshal message e w hdec]
    exact processEvent_running s f e w hst
  refine ⟨h, fun k => ?_, fun uid => ?_⟩
  · rw [h]
  · rw [h]

/-- Witness for C8: the running event for `run-1` on the example store, with
every store call set to fail: nil is returned and record 1 is still Created. -/
theorem C8_running_event_returns_at_once_witness :
    ProcessPlaybookDispatcherRunEvent exampleService
        ⟨true, true, true, true, true, true, true, true⟩
        (decodesTo (exampleEvent "run-1" "running")) []
        ⟨exampleDB false .Created .Created .Building, 0⟩ =
      (⟨exampleDB false .Created .Created .Building, 0⟩, Outcome.nil) ∧
    (ProcessPlaybookDispatcherRunEvent exampleService
        ⟨true, true, true, true, true, true, true, true⟩
        (decodesTo (exampleEvent "run-1" "running")) []
        ⟨exampleDB false .Created .Created .Building, 0⟩).1.db.recordStatusOf 1 =
      (exampleDB false .Created .Created .Building).recordStatusOf 1 :=
  have h := C8_running_event_returns_at_once exampleService
    ⟨true, true, true, true, true, true, true, true⟩
    (decodesTo (exampleEvent "run-1" "running")) [] (exampleEvent "run-1" "running")
    ⟨exampleDB false .Created .Created .Building, 0⟩ rfl rfl
  ⟨h.1, h.2.1 1⟩

/-- C9: an event whose status is neither running nor success (failure, timeout
or any other string) and whose lookup finds a dispatch record stores that
record as Error; when the record belongs to an update transaction, the update
is recomputed and stored as Error, and the call returns nil. -/
theorem C9_failure_event_gives_error (s : UpdateService) (f : Faults)
    (unmarshal : List Nat → Except Err (Option PlaybookDispatcherEvent)) (message : List Nat)
    (e : PlaybookDispatcherEvent) (w : World) (r : DispatchRecord) (u : UpdateTransaction)
    (hdec : unmarshal message = .ok (some e))
    (hrun : e.Payload.Status ≠ PlaybookStatusRunning)
    (hsucc : e.Payload.Status ≠ PlaybookStatusSuccess)
    (hwf : w.db.wf)
    (hf1 : f.findDispatchRecord = false) (hf2 : f.saveDispatchRecord = false)
    (hf3 : f.findUpdate = false) (hf4 : f.saveUpdate = false)
    (hfind : w.db.FirstDispatchRecord false e.Payload.ID = .ok r)
    (hown : w.db.FirstUpdateByDispatchRecord false r.ID = .ok u) :
    (ProcessPlaybookDispatcherRunEvent s f unmarshal message w).1.db.recordStatusOf r.ID =
      some models.DispatchRecordStatusError ∧
    (ProcessPlaybookDispatcherRunEvent s f unmarshal message w).1.db.statusOf u.ID =
      some models.UpdateStatusError ∧
    (ProcessPlaybookDispatcherRunEvent s f unmarshal message w).2 = Outcome.nil := by
  rw [ProcessPlaybookDispatcherRunEvent_decoded s f unmarshal message e w hdec]
  have hse := statusFor_other e.Payload.Status hrun hsucc
  have hdev : ¬ (statusFor e.Payload.Status = DispatchRecordStatus.Complete ∧ r.Device = none) := by
    rw [hse]
    intro h
    exact absurd h.1 (by decide)
  have hrec := processEvent_record_status s f e w r hwf hrun hf1 hf2 hfind hdev
  have hown2 := processEvent_owner_status s f e w r u hwf hrun hf1 hf2 hf3 hf4 hfind hdev hown
  obtain ⟨h1, h2, _, _, _, h6⟩ :=
    processEvent_effect s f e w r u hwf hrun hf1 hf2 hf3 hf4 hfind hdev hown
  obtain ⟨r0, hr0, hr, _⟩ := FirstDispatchRecord_ok w.db e.Payload.ID r hfind
  obtain ⟨row, _, _, hjoin, hu⟩ := FirstUpdateByDispatchRecord_ok w.db r.ID u hown
  have huid : u.ID = row.ID := by rw [hu]; rfl
  have hrid : r.ID = r0.ID := by rw [hr]
  have hex : ∃ d ∈ (processEvent s f e w).1.db.preloadDispatchRecords u.ID,
      d.Status = DispatchRecordStatus.Error := by
    refine ⟨{ r0 with Status := DispatchRecordStatus.Error }, ?_, rfl⟩
    unfold DB.preloadDispatchRecords
    rw [h1, h2, List.mem_filter, hse]
    constructor
    · unfold setRecordStatus
      refine List.mem_map.mpr ⟨r0, hr0, ?_⟩
      rw [if_pos hrid.symm]
    · rw [huid]
      simpa [hrid] using hjoin
  have hagg := aggregate_error u.Status _ hex
  rw [hse] at hrec
  refine ⟨hrec, ?_, ?_⟩
  · rw [hown2, hagg]
  · apply h6
    rw [hagg]
    decide

/-- Witness for C9: a timeout event for `run-2` while `run-1` is Complete. -/
theorem C9_failure_event_gives_error_witness :
    (ProcessPlaybookDispatcherRunEvent exampleService noFaults
        (decodesTo (exampleEvent "run-2" "timeout")) []
        ⟨exampleDB false .Complete .Created .Building, 0⟩).1.db.statusOf 1 =
      some models.UpdateStatusError :=
  (C9_failure_event_gives_error exampleService noFaults
    (decodesTo (exampleEvent "run-2" "timeout")) [] (exampleEvent "run-2" "timeout")
    ⟨exampleDB false .Complete .Created .Building, 0⟩
    ⟨2, "url", 2, some ⟨2, "acc", "rhc-2", "abc", "old", true, 0, false⟩, .Created, "run-2"⟩
    ⟨1, "acc", 1, none, [],
      [⟨1, "url", 1, none, .Complete, "run-1"⟩, ⟨2, "url", 2, none, .Created, "run-2"⟩],
      .Building⟩
    rfl (by decide) (by decide) (by decide) rfl rfl rfl rfl rfl rfl).2.1

/-- C10, as stated, fails: device 1 holds `AvailableHash` "abc" and
`CurrentHash` "old"; after the success event for its record the record in
memory carries the device with both hashes equal to `os.DevNull`, and the stored
device has neither `CurrentHash` "abc" together with `AvailableHash` "abc",
whether associations are saved in full or not. -/
theorem C10_counterexample :
    (exampleDB true .Created .Created .Building).deviceOf 1 =
      some ⟨1, "acc", "rhc-1", "abc", "old", true, 0, false⟩ ∧
    applyPlaybookStatus "success"
        ⟨1, "url", 1, some ⟨1, "acc", "rhc-1", "abc", "old", true, 0, false⟩, .Created, "run-1"⟩ =
      some ⟨1, "url", 1, some ⟨1, "acc", "rhc-1", "/dev/null", "/dev/null", true, 0, false⟩,
        .Complete, "run-1"⟩ ∧
    (ProcessPlaybookDispatcherRunEvent exampleService noFaults
        (decodesTo (exampleEvent "run-1" "success")) []
        ⟨exampleDB true .Created .Created .Building, 0⟩).1.db.deviceOf 1 =
      some ⟨1, "acc", "rhc-1", "/dev/null", "/dev/null", true, 0, false⟩ ∧
    (ProcessPlaybookDispatcherRunEvent exampleService noFaults
        (decodesTo (exampleEvent "run-1" "success")) []
        ⟨exampleDB false .Created .Created .Building, 0⟩).1.db.deviceOf 1 =
      some ⟨1, "acc", "rhc-1", "abc", "old", true, 0, false⟩ := by
  decide

/-- C10, amended: a success event whose lookup finds a dispatch record with its
device takes the grace delay, stores the record as Complete, and overwrites
the `AvailableHash` of the device carried by the record with `os.DevNull`; the
stored device has that `AvailableHash` when the store saves associations in
full. -/
theorem C10_success_event (s : UpdateService) (f : Faults)
    (unmarshal : List Nat → Except Err (Option PlaybookDispatcherEvent)) (message : List Nat)
    (e : PlaybookDispatcherEvent) (w : World) (r : DispatchRecord) (d : Device)
    (hdec : unmarshal message = .ok (some e))
    (hst : e.Payload.Status = PlaybookStatusSuccess)
    (hwf : w.db.wf)
    (hf1 : f.findDispatchRecord = false) (hf2 : f.saveDispatchRecord = false)
    (hfind : w.db.FirstDispatchRecord false e.Payload.ID = .ok r)
    (hdevice : r.Device = some d) :
    (∃ r1 d1, applyPlaybookStatus e.Payload.Status r = some r1 ∧
      r1.Status = models.DispatchRecordStatusComplete ∧ r1.Device = some d1 ∧
      d1.ID = d.ID ∧ d1.AvailableHash = os.DevNull) ∧
    (ProcessPlaybookDispatcherRunEvent s f unmarshal message w).1.db.recordStatusOf r.ID =
      some models.DispatchRecordStatusComplete ∧
    (w.db.FullSaveAssociations = true →
      ((ProcessPlaybookDispatcherRunEvent s f unmarshal message w).1.db.deviceOf d.ID).map
          (fun x => x.AvailableHash) = some os.DevNull) ∧
    (ProcessPlaybookDispatcherRunEvent s f unmarshal message w).1.slept =
      w.slept + s.WaitForReboot := by
  rw [ProcessPlaybookDispatcherRunEvent_decoded s f unmarshal message e w hdec]
  have hrun : e.Payload.Status ≠ PlaybookStatusRunning := by rw [hst]; decide
  have hsf : statusFor e.Payload.Status = DispatchRecordStatus.Complete := by
    rw [hst]; exact statusFor_success
  have hdev : ¬ (statusFor e.Payload.Status = DispatchRecordStatus.Complete ∧ r.Device = none) := by
    intro h
    rw [hdevice] at h
    cases h.2
  have hrec := processEvent_record_status s f e w r hwf hrun hf1 hf2 hfind hdev
  obtain ⟨_, _, h3, h4, _⟩ := processEvent_records s f e w r hwf hrun hf1 hf2 hfind hdev
  have hed : eventDevice e.Payload.Status r = some (stampDevice d) := by
    unfold eventDevice
    rw [if_pos hsf, hdevice]
    rfl
  refine ⟨⟨{ r with Status := statusFor e.Payload.Status,
                    Device := eventDevice e.Payload.Status r },
      stampDevice d, ?_, hsf, hed, rfl, rfl⟩, ?_, ?_, ?_⟩
  · rw [applyPlaybookStatus_eq, if_neg hdev]
  · rw [hsf] at hrec; exact hrec
  · intro hfull
    obtain ⟨r0, _, hr, _⟩ := FirstDispatchRecord_ok w.db e.Payload.ID r hfind
    have hfd : w.db.devices.find? (fun x => x.ID = r0.DeviceID) = some d := by
      rw [hr] at hdevice
      exact hdevice
    have hmem : d ∈ w.db.devices := List.mem_of_find?_eq_some hfd
    have hfind2 : (devicesAfterSave w.db (some (stampDevice d))).find?
        (fun x => x.ID = d.ID) = some (stampDevice d) := by
      unfold devicesAfterSave upsertAssoc
      have hany : w.db.devices.any (fun row => row.ID = (stampDevice d).ID) = true :=
        any_key_of_mem (fun x : Device => x.ID) d _ hmem
      simp only [hany, hfull, if_true]
      exact find_replaceBy_same (fun x : Device => x.ID) (stampDevice d) _ hany
    have hc := find_hashes_congr _ _ d.ID h3
    rw [hed, hfind2] at hc
    unfold DB.deviceOf
    cases hfin : (processEvent s f e w).1.db.devices.find? (fun x => x.ID = d.ID) with
    | none => rw [hfin] at hc; cases hc
    | some x =>
      rw [hfin] at hc
      simp only [Option.map_some', Option.some.injEq, Device.hashes, stampDevice,
        Prod.mk.injEq] at hc
      simp only [Option.map_some', Option.some.injEq]
      exact hc.2.1
  · rw [h4, hst]
    rfl

/-- Witness for C10: the success event for `run-1` on the example store saving
associations in full. -/
theorem C10_success_event_witness :
    ((ProcessPlaybookDispatcherRunEvent exampleService noFaults
        (decodesTo (exampleEvent "run-1" "success")) []
        ⟨exampleDB true .Created .Created .Building, 0⟩).1.db.deviceOf 1).map
      (fun x => x.AvailableHash) = some os.DevNull :=
  (C10_success_event exampleService noFaults
    (decodesTo (exampleEvent "run-1" "success")) [] (exampleEvent "run-1" "success")
    ⟨exampleDB true .Created .Created .Building, 0⟩
    ⟨1, "url", 1, some ⟨1, "acc", "rhc-1", "abc", "old", true, 0, false⟩, .Created, "run-1"⟩
    ⟨1, "acc", "rhc-1", "abc", "old", true, 0, false⟩
    rfl rfl (by decide) rfl rfl rfl rfl).2.2.1 rfl

/-- C11: a payload that fails to decode makes `ProcessPlaybookDispatcherRunEvent`
return the decoding error with the store and the time slept exactly as they
were, whatever the store and whatever the outcome the store calls would have
had. -/
theorem C11_decode_error_no_effect (s : UpdateService) (f : Faults)
    (unmarshal : List Nat → Except Err (Option PlaybookDispatcherEvent)) (message : List Nat)
    (w : World) (err : Err) (hdec : unmarshal message = .error err) :
    ProcessPlaybookDispatcherRunEvent s f unmarshal message w = (w, Outcome.error err) := by
  unfold ProcessPlaybookDispatcherRunEvent
  rw [hdec]

/-- Witness for C11: a decoder that rejects the message. -/
theorem C11_decode_error_no_effect_witness :
    ProcessPlaybookDispatcherRunEvent exampleService noFaults
        (fun _ => .error Err.ErrDecode) [123, 34]
        ⟨exampleDB false .Created .Created .Building, 0⟩ =
      (⟨exampleDB false .Created .Created .Building, 0⟩, Outcome.error Err.ErrDecode) :=
  C11_decode_error_no_effect exampleService noFaults (fun _ => .error Err.ErrDecode) [123, 34]
    ⟨exampleDB false .Created .Created .Building, 0⟩ Err.ErrDecode rfl


/-- C12: failure dominates.  Take a well-formed store and a run of events, each
decoded from its message, whose dispatcher ids are non-empty and pairwise
different (one event per dispatch record).  If one of the events reports
failure or timeout for the dispatch record `k` of update transaction `uid`, and
the store calls made for that event do not fail, then after the whole run, in
whatever order the events came and whatever the other events report, the
stored status of update transaction `uid` is Error. -/
theorem C12_failure_dominates (s : UpdateService)
    (unmarshal : List Nat → Except Err (Option PlaybookDispatcherEvent))
    (events : List (Faults × List Nat × PlaybookDispatcherEvent)) (w : World)
    (uid k : Nat) (f : Faults) (m : List Nat) (e : PlaybookDispatcherEvent)
    (hwf : w.db.wf)
    (hdec : ∀ p ∈ events, unmarshal p.2.1 = .ok (some p.2.2))
    (hids : (events.map (fun p => p.2.2.Payload.ID)).Nodup)
    (hne : ∀ p ∈ events, p.2.2.Payload.ID ≠ "")
    (hmem : (f, m, e) ∈ events)
    (hfail : e.Payload.Status = PlaybookStatusFailure ∨
      e.Payload.Status = PlaybookStatusTimeout)
    (hf1 : f.findDispatchRecord = false) (hf2 : f.saveDispatchRecord = false)
    (hf3 : f.findUpdate = false) (hf4 : f.saveUpdate = false)
    (hid : w.db.identifies e.Payload.ID k uid) :
    (processEvents s unmarshal (events.map (fun p => (p.1, p.2.1))) w).db.statusOf uid =
      some models.UpdateStatusError := by
  obtain ⟨pre, post, rfl⟩ := List.append_of_mem hmem
  simp only [List.map_append, List.map_cons] at hids ⊢
  rw [processEvents_append]
  simp only [processEvents]
  obtain ⟨wf1, id1⟩ := processEvents_inv s unmarshal (pre.map (fun p => (p.1, p.2.1))) w
    e.Payload.ID k uid hwf hid
  have hd := hdec (f, m, e) hmem
  simp only at hd
  rw [ProcessPlaybookDispatcherRunEvent_decoded s f unmarshal m e _ hd]
  have hne0 : e.Payload.ID ≠ "" := hne (f, m, e) hmem
  obtain ⟨k2, u2⟩ := processEvent_failure s f e _ wf1 k uid id1 hne0 hfail hf1 hf2 hf3 hf4
  have hnd := (List.nodup_cons.mp (List.nodup_append.mp hids).2.1).1
  apply processEvents_keeps_error s unmarshal _ _ e.Payload.ID k uid ?_
    (processEvent_wf s f e _ wf1) (processEvent_identifies s f e _ wf1 _ k uid id1) k2 u2
  intro p hp e2 he2
  obtain ⟨q, hq, rfl⟩ := List.mem_map.mp hp
  have hq2 : q ∈ pre ++ (f, m, e) :: post :=
    List.mem_append_right _ (List.mem_cons_of_mem _ hq)
  have hdq := hdec q hq2
  simp only at he2
  rw [hdq] at he2
  simp only [Except.ok.injEq, Option.some.injEq] at he2
  subst he2
  refine ⟨hne q hq2, fun hh => hnd ?_⟩
  rw [← hh]
  exact List.mem_map.mpr ⟨q, hq, rfl⟩

/-- Witness for C12: three dispatch records of one update, all Created; the
events come in the order success for `run-1`, failure for `run-3`, success for
`run-2`, and the update ends in Error. -/
theorem C12_failure_dominates_witness :
    (processEvents exampleService exampleDecoder
        [(noFaults, [1]), (noFaults, [3]), (noFaults, [2])]
        ⟨exampleRolloutDB, 0⟩).db.statusOf 1 = some models.UpdateStatusError :=
  C12_failure_dominates exampleService exampleDecoder
    [(noFaults, [1], exampleEvent "run-1" "success"),
      (noFaults, [3], exampleEvent "run-3" "failure"),
      (noFaults, [2], exampleEvent "run-2" "success")]
    ⟨exampleRolloutDB, 0⟩ 1 3 noFaults [3] (exampleEvent "run-3" "failure")
    (by decide)
    (fun p hp => by
      simp only [List.mem_cons, List.mem_singleton, List.not_mem_nil, or_false] at hp
      rcases hp with rfl | rfl | rfl <;> rfl)
    (by decide) (by decide) (by decide) (Or.inl rfl) rfl rfl rfl rfl (by decide)
/-- C13: for an update whose status is not Success,
`UpdateDevicesFromUpdateTransaction` returns nil and the store it leaves is the
store it was given, whatever the outcome the store calls would have had; so
the store is changed only for an update in Success. -/
theorem C13_not_success_changes_nothing (f : Faults) (update : UpdateTransaction) (db : DB) :
    (update.Status ≠ models.UpdateStatusSuccess →
      UpdateDevicesFromUpdateTransaction f update db = (db, none)) ∧
    ((UpdateDevicesFromUpdateTransaction f update db).1 ≠ db →
      update.Status = models.UpdateStatusSuccess) := by
  refine ⟨fun h => UpdateDevicesFromUpdateTransaction_not_success f update db h, fun h => ?_⟩
  by_contra hne
  rw [UpdateDevicesFromUpdateTransaction_not_success f update db hne] at h
  exact h rfl

/-- Witness for C13: update 1 of the example store, held with status Error. -/
theorem C13_not_success_changes_nothing_witness :
    UpdateDevicesFromUpdateTransaction noFaults (exampleFleetUpdate .Error) (exampleFleetDB []) =
      (exampleFleetDB [], none) :=
  (C13_not_success_changes_nothing noFaults (exampleFleetUpdate .Error) (exampleFleetDB [])).1
    (by decide)

/-- C14: `UpdateDevicesFromUpdateTransaction` leaves every table but the devices
as it is; row by row, a device keeps its id, account, client id, hashes and
connectivity flag, and a device of another account than the update's, or one
that is not in the device set of the update, is not changed at all. -/
theorem C14_only_targeted_devices (f : Faults) (update : UpdateTransaction) (db : DB) :
    List.Forall₂
      (fun d d1 : Device =>
        d1.ID = d.ID ∧ d1.Account = d.Account ∧ d1.RHCClientID = d.RHCClientID ∧
        d1.AvailableHash = d.AvailableHash ∧ d1.CurrentHash = d.CurrentHash ∧
        d1.Connected = d.Connected ∧
        ((d.Account ≠ update.Account ∨ (update.ID, d.ID) ∉ db.updatetransaction_devices) →
          d1 = d))
      db.devices (UpdateDevicesFromUpdateTransaction f update db).1.devices ∧
    (UpdateDevicesFromUpdateTransaction f update db).1.dispatch_records = db.dispatch_records ∧
    (UpdateDevicesFromUpdateTransaction f update db).1.update_transactions =
      db.update_transactions ∧
    (UpdateDevicesFromUpdateTransaction f update db).1.updatetransaction_dispatchrecords =
      db.updatetransaction_dispatchrecords ∧
    (UpdateDevicesFromUpdateTransaction f update db).1.updatetransaction_devices =
      db.updatetransaction_devices ∧
    (UpdateDevicesFromUpdateTransaction f update db).1.commits = db.commits ∧
    (UpdateDevicesFromUpdateTransaction f update db).1.images = db.images := by
  rcases UpdateDevicesFromUpdateTransaction_devices f update db with h | ⟨imageID, ua, h⟩
  · rw [h]
    refine ⟨?_, rfl, rfl, rfl, rfl, rfl, rfl⟩
    rw [List.forall₂_same]
    intro d _
    exact ⟨rfl, rfl, rfl, rfl, rfl, rfl, fun _ => rfl⟩
  · rw [h]
    refine ⟨?_, rfl, rfl, rfl, rfl, rfl, rfl⟩
    simp only
    rw [List.forall₂_map_right_iff, List.forall₂_same]
    intro d _
    unfold updateDeviceRow
    by_cases hc : d.Account = update.Account ∧
        d.ID ∈ (db.preloadDevices update.ID).map (fun d => d.ID)
    · rw [if_pos hc]
      refine ⟨rfl, rfl, rfl, rfl, rfl, rfl, fun hor => ?_⟩
      rcases hor with h1 | h2
      · exact absurd hc.1 h1
      · exact absurd (mem_preloadDevices_ids db update.ID d.ID hc.2) h2
    · rw [if_neg hc]
      exact ⟨rfl, rfl, rfl, rfl, rfl, rfl, fun _ => rfl⟩

/-- C15, as stated, fails: update 1 (account `acc`, in Success) has devices 1
and 2 in its device set and its commit resolves to image 7; the call returns
nil, yet device 2, which belongs to another account, keeps image pointer 0. -/
theorem C15_counterexample :
    (UpdateDevicesFromUpdateTransaction noFaults (exampleFleetUpdate .Success)
        (exampleFleetDB [])).2 = none ∧
    (1, 2) ∈ (exampleFleetDB []).updatetransaction_devices ∧
    ((exampleFleetDB []).deviceImage "acc" ⟨1, "ost"⟩).map (fun i => i.ID) = some 7 ∧
    ((UpdateDevicesFromUpdateTransaction noFaults (exampleFleetUpdate .Success)
        (exampleFleetDB [])).1.deviceOf 1).map (fun d => d.ImageID) = some 7 ∧
    ((UpdateDevicesFromUpdateTransaction noFaults (exampleFleetUpdate .Success)
        (exampleFleetDB [])).1.deviceOf 2).map (fun d => d.ImageID) = some 0 := by
  decide

/-- C15, amended: for an update in Success, when
`UpdateDevicesFromUpdateTransaction` returns nil the update was reloaded with
its commit, the image of that commit was found, and every device of the
update's account that is in the device set of the update has that image's id
as image pointer and, as update-available flag, whether that image has later
images. -/
theorem C15_targeted_devices_updated (f : Faults) (update : UpdateTransaction) (db : DB)
    (hst : update.Status = models.UpdateStatusSuccess)
    (hnil : (UpdateDevicesFromUpdateTransaction f update db).2 = none) :
    ∃ currentUpdate commit deviceImage,
      db.reloadUpdate update = some currentUpdate ∧ currentUpdate.Commit = some commit ∧
      db.deviceImage update.Account commit = some deviceImage ∧
      ∀ d ∈ (UpdateDevicesFromUpdateTransaction f update db).1.devices,
        (update.ID, d.ID) ∈ db.updatetransaction_devices → d.Account = update.Account →
        d.ImageID = deviceImage.ID ∧
        d.UpdateAvailable = decide ((db.updateImages deviceImage).length > 0) := by
  obtain ⟨cu, commit, img, h1, h2, h3, _, h5⟩ :=
    UpdateDevicesFromUpdateTransaction_targets f update db hst hnil
  exact ⟨cu, commit, img, h1, h2, h3, h5⟩

/-- Witness for C15: update 1 of the example store. -/
theorem C15_targeted_devices_updated_witness :
    ∃ currentUpdate commit deviceImage,
      (exampleFleetDB []).reloadUpdate (exampleFleetUpdate .Success) = some currentUpdate ∧
      currentUpdate.Commit = some commit ∧
      (exampleFleetDB []).deviceImage (exampleFleetUpdate .Success).Account commit =
        some deviceImage ∧
      ∀ d ∈ (UpdateDevicesFromUpdateTransaction noFaults (exampleFleetUpdate .Success)
          (exampleFleetDB [])).1.devices,
        ((exampleFleetUpdate .Success).ID, d.ID) ∈
          (exampleFleetDB []).updatetransaction_devices →
        d.Account = (exampleFleetUpdate .Success).Account →
        d.ImageID = deviceImage.ID ∧
        d.UpdateAvailable = decide (((exampleFleetDB []).updateImages deviceImage).length > 0) :=
  C15_targeted_devices_updated noFaults (exampleFleetUpdate .Success) (exampleFleetDB [])
    rfl rfl

/-- C16, as stated, fails: image 8 is in the image set of the resolved image 7,
has status Success and was created later, but belongs to another account; the
flag written to device 1 is false. -/
theorem C16_counterexample :
    ((exampleFleetDB [⟨8, "other", 2, 1, .Success, 9⟩]).deviceImage "acc" ⟨1, "ost"⟩) =
      some ⟨7, "acc", 1, 1, .Success, 5⟩ ∧
    (∃ i ∈ (exampleFleetDB [⟨8, "other", 2, 1, .Success, 9⟩]).images,
      i.ImageSetID = 1 ∧ i.Status = models.ImageStatusSuccess ∧ i.CreatedAt > 5) ∧
    (UpdateDevicesFromUpdateTransaction noFaults (exampleFleetUpdate .Success)
        (exampleFleetDB [⟨8, "other", 2, 1, .Success, 9⟩])).2 = none ∧
    ((UpdateDevicesFromUpdateTransaction noFaults (exampleFleetUpdate .Success)
        (exampleFleetDB [⟨8, "other", 2, 1, .Success, 9⟩])).1.deviceOf 1).map
      (fun d => (d.ImageID, d.UpdateAvailable)) = some (7, false) := by
  decide

/-- C16, amended: the update-available flag that
`UpdateDevicesFromUpdateTransaction` writes to the devices it targets is true
exactly when there is an image of the same account and the same image set as
the resolved image, with status Success and created strictly later than the
resolved image. -/
theorem C16_update_available_iff (f : Faults) (update : UpdateTransaction) (db : DB)
    (hst : update.Status = models.UpdateStatusSuccess)
    (hnil : (UpdateDevicesFromUpdateTransaction f update db).2 = none) :
    ∃ currentUpdate commit deviceImage,
      db.reloadUpdate update = some currentUpdate ∧ currentUpdate.Commit = some commit ∧
      db.deviceImage update.Account commit = some deviceImage ∧
      ∀ d ∈ (UpdateDevicesFromUpdateTransaction f update db).1.devices,
        (update.ID, d.ID) ∈ db.updatetransaction_devices → d.Account = update.Account →
        (d.UpdateAvailable = true ↔
          ∃ i ∈ db.images, i.Account = deviceImage.Account ∧
            i.ImageSetID = deviceImage.ImageSetID ∧
            i.Status = models.ImageStatusSuccess ∧ i.CreatedAt > deviceImage.CreatedAt) := by
  obtain ⟨cu, commit, img, h1, h2, h3, _, h5⟩ :=
    UpdateDevicesFromUpdateTransaction_targets f update db hst hnil
  refine ⟨cu, commit, img, h1, h2, h3, fun d hd hj hacc => ?_⟩
  rw [(h5 d hd hj hacc).2]
  exact updateImages_nonempty_iff db img

/-- Witness for C16: a later Success image 9 of the same account and image set
makes the flag of device 1 true. -/
theorem C16_update_available_iff_witness :
    ((UpdateDevicesFromUpdateTransaction noFaults (exampleFleetUpdate .Success)
        (exampleFleetDB [⟨9, "acc", 2, 1, .Success, 6⟩])).1.deviceOf 1).map
      (fun d => d.UpdateAvailable) = some true ∧
    ∃ currentUpdate commit deviceImage,
      (exampleFleetDB [⟨9, "acc", 2, 1, .Success, 6⟩]).reloadUpdate
        (exampleFleetUpdate .Success) = some currentUpdate ∧
      currentUpdate.Commit = some commit ∧
      (exampleFleetDB [⟨9, "acc", 2, 1, .Success, 6⟩]).deviceImage
        (exampleFleetUpdate .Success).Account commit = some deviceImage ∧
      ∀ d ∈ (UpdateDevicesFromUpdateTransaction noFaults (exampleFleetUpdate .Success)
          (exampleFleetDB [⟨9, "acc", 2, 1, .Success, 6⟩])).1.devices,
        ((exampleFleetUpdate .Success).ID, d.ID) ∈
          (exampleFleetDB [⟨9, "acc", 2, 1, .Success, 6⟩]).updatetransaction_devices →
        d.Account = (exampleFleetUpdate .Success).Account →
        (d.UpdateAvailable = true ↔
          ∃ i ∈ (exampleFleetDB [⟨9, "acc", 2, 1, .Success, 6⟩]).images,
            i.Account = deviceImage.Account ∧ i.ImageSetID = deviceImage.ImageSetID ∧
            i.Status = models.ImageStatusSuccess ∧ i.CreatedAt > deviceImage.CreatedAt) :=
  ⟨by decide,
    C16_update_available_iff noFaults (exampleFleetUpdate .Success)
      (exampleFleetDB [⟨9, "acc", 2, 1, .Success, 6⟩]) rfl rfl⟩

/-- C17: for an update in Success whose reloaded row has no commit,
`UpdateDevicesFromUpdateTransaction` returns `ErrUndefinedCommit` and leaves the
store as it was. -/
theorem C17_undefined_commit (f : Faults) (update currentUpdate : UpdateTransaction) (db : DB)
    (hst : update.Status = models.UpdateStatusSuccess)
    (hf : f.reloadUpdate = false)
    (hreload : db.reloadUpdate update = some currentUpdate)
    (hcommit : currentUpdate.Commit = none) :
    UpdateDevicesFromUpdateTransaction f update db = (db, some Err.ErrUndefinedCommit) := by
  rw [UpdateDevicesFromUpdateTransaction_steps]
  have h1 : ¬ update.Status ≠ models.UpdateStatusSuccess := fun h => h hst
  rw [if_neg h1, hf]
  simp only [Bool.false_eq_true, if_false, hreload, hcommit]

/-- Witness for C17: update 1 of the example store once its commit row is
gone. -/
theorem C17_undefined_commit_witness :
    UpdateDevicesFromUpdateTransaction noFaults (exampleFleetUpdate .Success)
        { exampleFleetDB [] with commits := [] } =
      ({ exampleFleetDB [] with commits := [] }, some Err.ErrUndefinedCommit) :=
  C17_undefined_commit noFaults (exampleFleetUpdate .Success)
    ⟨1, "acc", 1, none,
      [⟨1, "acc", "rhc-1", "abc", "old", true, 0, false⟩,
       ⟨2, "other", "rhc-2", "abc", "old", true, 0, false⟩], [], .Success⟩
    { exampleFleetDB [] with commits := [] } rfl rfl rfl rfl

/-- C18, as stated, fails: for account `acc` and the ids 1 and 4 the result is
true although image 4 belongs to another account and to another image set;
and for the ids 1 and 99 it is true although no image has id 99. -/
theorem C18_counterexample :
    ValidateUpdateSelection false "acc" [1, 4] exampleImagesDB = (true, none) ∧
    (∃ i ∈ exampleImagesDB.images, i.ID = 4 ∧ i.Account ≠ "acc" ∧ i.ImageSetID ≠ 1) ∧
    ValidateUpdateSelection false "acc" [1, 99] exampleImagesDB = (true, none) ∧
    (∀ i ∈ exampleImagesDB.images, i.ID ≠ 99) := by
  decide

/-- C18, amended: whenever `ValidateUpdateSelection` returns true, at least one
id in `imageIds` is the id of an image of the account, and all the images of
the account whose id is in `imageIds` belong to one and the same image set; ids
that are the id of no image of the account are not looked at. -/
theorem C18_true_means_one_image_set (fault : Bool) (account : String) (imageIds : List Nat)
    (db : DB) (h : (ValidateUpdateSelection fault account imageIds db).1 = true) :
    ∃ imageSetID,
      (∃ i ∈ db.images, i.ID ∈ imageIds ∧ i.Account = account) ∧
      ∀ i ∈ db.images, i.ID ∈ imageIds → i.Account = account → i.ImageSetID = imageSetID := by
  obtain ⟨a, ha⟩ := ValidateUpdateSelection_true fault account imageIds db h
  have hmem : ∀ x, x ∈ (db.images.filter (fun i => i.ID ∈ imageIds ∧ i.Account = account)).map
      (fun i => i.ImageSetID) ↔ x = a := by
    intro x
    rw [← List.mem_dedup, ha, List.mem_singleton]
  refine ⟨a, ?_, ?_⟩
  · obtain ⟨i, hi, _⟩ := List.mem_map.mp ((hmem a).mpr rfl)
    obtain ⟨hm, hp⟩ := List.mem_filter.mp hi
    exact ⟨i, hm, by simpa using hp⟩
  · intro i hi hid hacc
    apply (hmem _).mp
    exact List.mem_map.mpr ⟨i, List.mem_filter.mpr ⟨hi, by simpa using ⟨hid, hacc⟩⟩, rfl⟩

/-- Witness for C18: images 1 and 2 of image set 1 give true; images 1 and 3,
of image sets 1 and 2, give false. -/
theorem C18_true_means_one_image_set_witness :
    ValidateUpdateSelection false "acc" [1, 3] exampleImagesDB = (false, none) ∧
    ∃ imageSetID,
      (∃ i ∈ exampleImagesDB.images, i.ID ∈ [1, 2] ∧ i.Account = "acc") ∧
      ∀ i ∈ exampleImagesDB.images, i.ID ∈ [1, 2] → i.Account = "acc" →
        i.ImageSetID = imageSetID :=
  ⟨by decide, C18_true_means_one_image_set false "acc" [1, 2] exampleImagesDB (by decide)⟩


/-- C19: when the build or the writing of the template fails, `CreateUpdate`
returns that error with a nil update, has sent no request to the dispatcher,
leaves the dispatch records of the store exactly as they were, and (when the
save succeeds) has stored the update as Error.  The update is a row of a
well-formed store; in the template case the update returned by the build is
that row's update, carrying only dispatch records that are rows joined to
it. -/
theorem C19_build_or_template_failure (env : CreateEnv) (id : Nat) (db : DB)
    (row : UpdateTransaction) (err : Err) (hwf : db.wf) (hid : id ≠ 0)
    (hrow : db.update_transactions.find? (fun u => u.ID = id) = some row) :
    (env.build = .error err →
      (CreateUpdate env id db).2 = (none, some err, []) ∧
      (CreateUpdate env id db).1.dispatch_records = db.dispatch_records ∧
      (env.saveError = false →
        (CreateUpdate env id db).1.statusOf id = some models.UpdateStatusError)) ∧
    (∀ update repo, env.build = .ok (update, some repo) →
      WriteTemplate env.cfg env.template
          ⟨"rhel-edge", repo.URL, repo.URL, "false", update.ID⟩ update.Account = .error err →
      update.ID = id →
      (∀ r ∈ update.DispatchRecords, r ∈ db.dispatch_records ∧
        (id, r.ID) ∈ db.updatetransaction_dispatchrecords) →
      (CreateUpdate env id db).2 = (none, some err, []) ∧
      (CreateUpdate env id db).1.dispatch_records = db.dispatch_records ∧
      (env.saveError = false →
        (CreateUpdate env id db).1.statusOf id = some models.UpdateStatusError)) := by
  obtain ⟨g1, g2, row0, g3, g4⟩ := CreateUpdate_first_save db hwf id hid row hrow env.saveBuilding
  have hnd0 := hwf.1
  have hrec0 := hwf.2.2.2.1
  rw [← g1] at hnd0 hrec0
  constructor
  · intro hb
    unfold CreateUpdate
    simp only [hb, g3]
    cases hse : env.saveError with
    | true =>
      simp only [if_true]
      exact ⟨trivial, g1, fun h => by cases h⟩
    | false =>
      simp only [Bool.false_eq_true, if_false]
      obtain ⟨e1, _, e3⟩ := SaveUpdate_error_effect _ hnd0 hrec0 row0.row
        (by show row0.ID ≠ 0; rw [g4]; exact hid)
        (by intro r hr; cases hr)
      have hk : row0.row.ID = id := g4
      exact ⟨trivial, e1.trans g1, fun _ => statusOf_congr _ _ _ _ hk e3⟩
  · intro update repo hb ht huid hrows
    unfold CreateUpdate
    simp only [hb, ht]
    cases hse : env.saveError with
    | true =>
      simp only [if_true]
      exact ⟨trivial, g1, fun h => by cases h⟩
    | false =>
      simp only [Bool.false_eq_true, if_false]
      obtain ⟨e1, _, e3⟩ := SaveUpdate_error_effect _ hnd0 hrec0 update
        (by rw [huid]; exact hid)
        (by
          intro r hr
          rw [g1, g2, huid]
          exact hrows r hr)
      exact ⟨trivial, e1.trans g1, fun _ => statusOf_congr _ _ _ _ huid e3⟩

/-- Witness for C19: on the example store, once with a failing build and once
with a template that cannot be uploaded. -/
theorem C19_build_or_template_failure_witness :
    ((CreateUpdate (exampleEnv (.error Err.ErrCollaborator)) 1 exampleFreshDB).2 =
        (none, some Err.ErrCollaborator, []) ∧
      (CreateUpdate (exampleEnv (.error Err.ErrCollaborator)) 1
        exampleFreshDB).1.dispatch_records = exampleFreshDB.dispatch_records ∧
      (CreateUpdate (exampleEnv (.error Err.ErrCollaborator)) 1 exampleFreshDB).1.statusOf 1 =
        some models.UpdateStatusError) ∧
    ((CreateUpdate exampleEnvNoTemplate 1 exampleFreshDB).2 =
        (none, some Err.ErrCollaborator, []) ∧
      (CreateUpdate exampleEnvNoTemplate 1 exampleFreshDB).1.dispatch_records =
        exampleFreshDB.dispatch_records ∧
      (CreateUpdate exampleEnvNoTemplate 1 exampleFreshDB).1.statusOf 1 =
        some models.UpdateStatusError) :=
  have h1 := (C19_build_or_template_failure (exampleEnv (.error Err.ErrCollaborator)) 1
    exampleFreshDB ⟨1, "acc", 1, none, [], [], UpdateStatus.Created⟩ Err.ErrCollaborator
    (by decide) (by decide) rfl).1 rfl
  have h2 := (C19_build_or_template_failure exampleEnvNoTemplate 1
    exampleFreshDB ⟨1, "acc", 1, none, [], [], UpdateStatus.Created⟩ Err.ErrCollaborator
    (by decide) (by decide) rfl).2
    (exampleFreshDB.FindUpdate 1 UpdateStatus.Building) ⟨"repo"⟩ rfl rfl rfl (by decide)
  ⟨⟨h1.1, h1.2.1, h1.2.2 rfl⟩, ⟨h2.1, h2.2.1, h2.2.2 rfl⟩⟩
/-- C20: when the dispatcher call and the saves of the update do not fail, a
call of `CreateUpdate` on a rollout whose devices and prior records have
primary keys returns the rollout with one new dispatch record per response of
the dispatcher, after the records it had, in the order of the devices and of
their responses.  The record of a response with status code 201 carries the
status Created, the dispatcher id of the response and the playbook URL; the
record of a response with any other code carries the status Error, no
dispatcher id and the playbook URL.  Each record has a primary key and
points, also by `DeviceID`, to the device of the request, whose `Connected` is
the one the responses of that request leave: true exactly when the last of
them has code 201.
A request is sent for every device of the rollout whatever the status codes
are.  When the saves of the devices succeed, the device ids are distinct and
associations are not overwritten on save, the stored row of a device that got
a response has `Connected` true exactly when the last response to its request
has code 201, and is otherwise the device as the rollout held it. -/
theorem C20_fan_out_responses (env : CreateEnv) (id : Nat) (db : DB)
    (update : UpdateTransaction) (repo : Repo) (playbookURL : String)
    (resp : DispatcherPayload → List DispatcherResponse)
    (hb : env.build = .ok (update, some repo))
    (ht : WriteTemplate env.cfg env.template
        ⟨"rhel-edge", repo.URL, repo.URL, "false", update.ID⟩ update.Account =
      .ok playbookURL)
    (hex : ∀ p, env.ExecuteDispatcher p = .ok (resp p))
    (hsave : ∀ i, (env.statusFaults i).saveUpdate = false)
    (hsaved : ∀ r ∈ update.DispatchRecords, r.saved)
    (hdev : ∀ d ∈ update.Devices, d.ID ≠ 0) :
    ∃ u1 new,
      (CreateUpdate env id db).2.1 = some u1 ∧
      (CreateUpdate env id db).2.2.1 = none ∧
      (CreateUpdate env id db).2.2.2 =
        update.Devices.map (fun d => ⟨d.RHCClientID, playbookURL, update.Account⟩) ∧
      u1.DispatchRecords = update.DispatchRecords ++ new ∧
      new.map (fun r => ({ r with ID := 0 } : DispatchRecord)) =
        update.Devices.flatMap (fun d =>
          (resp ⟨d.RHCClientID, playbookURL, update.Account⟩).map
            (responseRecord playbookURL
              ((resp ⟨d.RHCClientID, playbookURL, update.Account⟩).foldl markConnected d))) ∧
      (∀ d ∈ update.Devices, ∀ pre last,
        resp ⟨d.RHCClientID, playbookURL, update.Account⟩ = pre ++ [last] →
        ∀ x ∈ pre ++ [last],
        ∃ r ∈ new, r.ID ≠ 0 ∧ r.PlaybookURL = playbookURL ∧ r.DeviceID = d.ID ∧
          r.Device =
            some { d with Connected := decide (last.StatusCode = http.StatusCreated) } ∧
          (x.StatusCode = http.StatusCreated →
            r.Status = models.DispatchRecordStatusCreated ∧
            r.PlaybookDispatcherID = x.PlaybookDispatcherID) ∧
          (x.StatusCode ≠ http.StatusCreated →
            r.Status = models.DispatchRecordStatusError ∧ r.PlaybookDispatcherID = "")) ∧
      (db.FullSaveAssociations = false → (∀ i, env.saveDevice i = false) →
        (update.Devices.map (fun d => d.ID)).Nodup →
        ∀ d ∈ update.Devices, ∀ pre x,
          resp ⟨d.RHCClientID, playbookURL, update.Account⟩ = pre ++ [x] →
          (CreateUpdate env id db).1.deviceOf d.ID =
            some { d with Connected := decide (x.StatusCode = http.StatusCreated) }) := by
  have hex2 : ∀ p, ∃ exc, env.ExecuteDispatcher p = .ok exc := fun p => ⟨_, hex p⟩
  rw [CreateUpdate_eq_fanOut env id db update repo playbookURL hb ht]
  obtain ⟨u1, new, g1, g2, _, g4, g5⟩ := CreateUpdate.fanOut_records env playbookURL resp hex
    hsave update.Devices.length 0 update (CreateUpdate.begin env id db) (by omega) hsaved hdev
  obtain ⟨q1, q2⟩ := CreateUpdate.fanOut_requests env playbookURL hex2 hsave
    update.Devices.length 0 update (CreateUpdate.begin env id db) (by omega)
  rw [List.drop_zero] at g4
  refine ⟨u1, new, g1, q2, ?_, g2, g4, ?_, ?_⟩
  · rw [q1, List.drop_zero, List.map_map]
    rfl
  · intro d hd pre last hresp x hx
    obtain ⟨r, hr, he⟩ := mem_new_of_response playbookURL new update.Devices
      (fun d => resp ⟨d.RHCClientID, playbookURL, update.Account⟩)
      (fun d => (resp ⟨d.RHCClientID, playbookURL, update.Account⟩).foldl markConnected d)
      g4 d hd x
      (by show x ∈ resp ⟨d.RHCClientID, playbookURL, update.Account⟩; rw [hresp]; exact hx)
    obtain ⟨f1, f2, f3, f4, f5⟩ := responseRecord_fields playbookURL
      ((resp ⟨d.RHCClientID, playbookURL, update.Account⟩).foldl markConnected d) x
    rw [← he] at f1 f2 f3 f4 f5
    rw [foldl_markConnected_id] at f2
    rw [hresp, foldl_markConnected_last] at f3
    exact ⟨r, hr, g5 r hr, f1, f2, f3, f4, f5⟩
  · intro hfull hsd hnd d hd pre x hresp
    have hne : resp ⟨d.RHCClientID, playbookURL, update.Account⟩ ≠ [] := by
      rw [hresp]
      simp
    have h := (CreateUpdate.fanOut_devices env playbookURL resp hex hsave hsd
      update.Devices.length 0 update (CreateUpdate.begin env id db) (by omega)
      (CreateUpdate.begin_extends env id db hfull).1 hdev hnd).1 d
      (by rw [List.drop_zero]; exact hd) hne
    rw [h, hresp, foldl_markConnected_last]

/-- Witness for C20: device 1 is stored as connected and device 2 as not
connected; the dispatcher refuses device `rhc-1` with status 500 and accepts
device `rhc-2`.  The rollout gets an Error record for device 1 and a Created
record with the dispatcher id for device 2, both requests are sent, and the
store ends with device 1 not connected and device 2 connected. -/
theorem C20_fan_out_responses_witness :
    ∃ u1 new,
      (CreateUpdate exampleEnvOnline 1 exampleOnlineDB).2.1 = some u1 ∧
      u1.DispatchRecords = [] ++ new ∧
      new.map (fun r => ({ r with ID := 0 } : DispatchRecord)) =
        [⟨0, getPlaybookURL ⟨"https://edge"⟩ 1, 1,
            some ⟨1, "acc", "rhc-1", "abc", "old", false, 0, false⟩,
            DispatchRecordStatus.Error, ""⟩,
          ⟨0, getPlaybookURL ⟨"https://edge"⟩ 1, 2,
            some ⟨2, "acc", "rhc-2", "abc", "old", true, 0, false⟩,
            DispatchRecordStatus.Created, "run-rhc-2"⟩] ∧
      (CreateUpdate exampleEnvOnline 1 exampleOnlineDB).2.2.2 =
        [⟨"rhc-1", getPlaybookURL ⟨"https://edge"⟩ 1, "acc"⟩,
          ⟨"rhc-2", getPlaybookURL ⟨"https://edge"⟩ 1, "acc"⟩] ∧
      (CreateUpdate exampleEnvOnline 1 exampleOnlineDB).1.deviceOf 1 =
        some ⟨1, "acc", "rhc-1", "abc", "old", false, 0, false⟩ ∧
      (CreateUpdate exampleEnvOnline 1 exampleOnlineDB).1.deviceOf 2 =
        some ⟨2, "acc", "rhc-2", "abc", "old", true, 0, false⟩ :=
  match C20_fan_out_responses exampleEnvOnline 1 exampleOnlineDB
      (exampleOnlineDB.FindUpdate 1 UpdateStatus.Building) ⟨"repo"⟩
      (getPlaybookURL ⟨"https://edge"⟩ 1)
      (fun p => if p.Recipient = "rhc-1" then [⟨500, ""⟩] else [⟨201, "run-" ++ p.Recipient⟩])
      rfl rfl
      (fun p => by
        unfold exampleEnvOnline exampleEnvRefused
        simp only
        split <;> rfl)
      (fun _ => rfl) (fun _ hr => nomatch hr) (by decide) with
  | ⟨u1, new, h1, _, h3, h4, h5, _, h7⟩ =>
    ⟨u1, new, h1, h4, h5.trans (by decide), h3,
      h7 rfl (fun _ => rfl) (by decide) ⟨1, "acc", "rhc-1", "abc", "old", true, 0, false⟩
        (by decide) [] ⟨500, ""⟩ rfl,
      h7 rfl (fun _ => rfl) (by decide) ⟨2, "acc", "rhc-2", "abc", "old", false, 0, false⟩
        (by decide) [] ⟨201, "run-rhc-2"⟩ (by decide)⟩


/-- C21: the update `id` is a row of a well-formed store, the build returns it
with dispatch records that are stored for it, and the template is written.
The loop over the first `k` devices dispatches them and leaves the rollout
`u1` in memory; the dispatcher call for the next device returns the error
`err`.  Then `CreateUpdate` returns nil and `err`; it has sent requests for the
first `k + 1` devices and for no other; the table of dispatch records and
their join to the rollout are exactly as the first `k` devices left them, so
every record of `u1` is still stored for the rollout; and, when the save
succeeds, the rollout is stored as Error. -/
theorem C21_transport_error (env : CreateEnv) (id : Nat) (db : DB)
    (update : UpdateTransaction) (repo : Repo) (playbookURL : String)
    (row : UpdateTransaction) (k : Nat) (u1 : UpdateTransaction) (recipient : String)
    (rest : List String) (err : Err)
    (hwf : db.wf) (hid : id ≠ 0)
    (hrow : db.update_transactions.find? (fun u => u.ID = id) = some row)
    (hb : env.build = .ok (update, some repo))
    (ht : WriteTemplate env.cfg env.template
        ⟨"rhel-edge", repo.URL, repo.URL, "false", update.ID⟩ update.Account =
      .ok playbookURL)
    (huid : update.ID = id)
    (hst : update.stored db)
    (hpre : (CreateUpdate.fanOut env playbookURL k 0 update
        (CreateUpdate.begin env id db)).2.1 = some u1)
    (hk : (update.Devices.map (fun d => d.RHCClientID)).drop k = recipient :: rest)
    (hfail : env.ExecuteDispatcher ⟨recipient, playbookURL, update.Account⟩ = .error err) :
    (CreateUpdate env id db).2 =
      (none, some err,
        (update.Devices.take (k + 1)).map
          (fun d => ⟨d.RHCClientID, playbookURL, update.Account⟩)) ∧
    (CreateUpdate env id db).1.dispatch_records =
      (CreateUpdate.fanOut env playbookURL k 0 update
        (CreateUpdate.begin env id db)).1.dispatch_records ∧
    (CreateUpdate env id db).1.updatetransaction_dispatchrecords =
      (CreateUpdate.fanOut env playbookURL k 0 update
        (CreateUpdate.begin env id db)).1.updatetransaction_dispatchrecords ∧
    (∀ r ∈ u1.DispatchRecords, r.storedFor id (CreateUpdate env id db).1) ∧
    (env.saveError = false →
      (CreateUpdate env id db).1.statusOf id = some models.UpdateStatusError) := by
  obtain ⟨b1, b2⟩ := CreateUpdate.begin_frame env id db hwf hid row hrow
  have hst0 : update.stored (CreateUpdate.begin env id db) :=
    ⟨hst.1, fun r hr => ⟨(hst.2 r hr).1, by rw [b1]; exact (hst.2 r hr).2.1,
      by rw [b2]; exact (hst.2 r hr).2.2⟩⟩
  obtain ⟨o1, o2, o3, o4, o5, o6, o7⟩ := CreateUpdate.fanOut_ok env playbookURL k 0 update
    (CreateUpdate.begin env id db) u1 (by rw [b1]; exact hwf.1)
    (by rw [b1]; exact hwf.2.2.2.1) hst0 hpre
  have hklt : k < update.Devices.length := by
    by_contra hge
    have : (update.Devices.map (fun d => d.RHCClientID)).drop k = [] := by
      rw [List.drop_eq_nil_iff, List.length_map]
      omega
    rw [this] at hk
    cases hk
  have hdrop : (u1.Devices.drop k).map (fun d => d.RHCClientID) = recipient :: rest := by
    rw [List.map_drop, o6]
    exact hk
  cases hd : u1.Devices.drop k with
  | nil =>
    rw [hd] at hdrop
    cases hdrop
  | cons device tl =>
    rw [hd] at hdrop
    simp only [List.map_cons, List.cons.injEq] at hdrop
    have he : env.ExecuteDispatcher ⟨device.RHCClientID, playbookURL, u1.Account⟩ =
        .error err := by
      rw [hdrop.1, o5]
      exact hfail
    have hlen : update.Devices.length = k + ((update.Devices.length - k - 1) + 1) := by
      omega
    have hd0 : u1.Devices.drop (0 + k) = device :: tl := by
      rw [Nat.zero_add]
      exact hd
    have hC := CreateUpdate_eq_fanOut env id db update repo playbookURL hb ht
    rw [hlen, CreateUpdate.fanOut_split env playbookURL k _ 0 update _ u1 hpre,
      CreateUpdate.fanOut_fail env playbookURL _ (0 + k) u1 _ device tl err hd0 he] at hC
    simp only at hC
    have hids : ∀ r ∈ u1.DispatchRecords, r.ID ≠ 0 := fun r hr => (o3.2 r hr).1.1
    obtain ⟨_, _, _, s4⟩ := DB.SaveUpdate_stored
      (CreateUpdate.fanOut env playbookURL k 0 update (CreateUpdate.begin env id db)).1
      { u1 with Status := models.UpdateStatusError } o1 o2 o3.1
      (fun r hr => Or.inl (o3.2 r hr))
    obtain ⟨s5, s6⟩ := s4 hids
    have hrows : (CreateUpdate env id db).1.dispatch_records =
        (CreateUpdate.fanOut env playbookURL k 0 update
          (CreateUpdate.begin env id db)).1.dispatch_records := by
      rw [hC]
      cases env.saveError with
      | true => rfl
      | false => exact s5
    have hjoin : (CreateUpdate env id db).1.updatetransaction_dispatchrecords =
        (CreateUpdate.fanOut env playbookURL k 0 update
          (CreateUpdate.begin env id db)).1.updatetransaction_dispatchrecords := by
      rw [hC]
      cases env.saveError with
      | true => rfl
      | false => exact s6
    refine ⟨?_, hrows, hjoin, ?_, ?_⟩
    · rw [hC, o7, hdrop.1, o5]
      simp only [List.drop_zero, Prod.mk.injEq, true_and]
      have ht2 := take_succ_of_drop (update.Devices.map (fun d => d.RHCClientID)) k
        recipient rest hk
      have : (update.Devices.take (k + 1)).map
          (fun d => (⟨d.RHCClientID, playbookURL, update.Account⟩ : DispatcherPayload)) =
          ((update.Devices.map (fun d => d.RHCClientID)).take (k + 1)).map
            (fun c => (⟨c, playbookURL, update.Account⟩ : DispatcherPayload)) := by
        rw [← List.map_take, List.map_map]
        rfl
      rw [this, ht2, List.map_append, List.map_take]
      rfl
    · intro r hr
      obtain ⟨a, b, c⟩ := o3.2 r hr
      rw [o4, huid] at c
      exact ⟨a, by rw [hrows]; exact b, by rw [hjoin]; exact c⟩
    · intro hse
      rw [hC]
      simp only [hse, Bool.false_eq_true, if_false]
      have h1 := DB.SaveUpdate_statusOf
        (CreateUpdate.fanOut env playbookURL k 0 update (CreateUpdate.begin env id db)).1
        { u1 with Status := models.UpdateStatusError }
      have h2 := DB.SaveUpdate_id
        (CreateUpdate.fanOut env playbookURL k 0 update (CreateUpdate.begin env id db)).1
        { u1 with Status := models.UpdateStatusError } o3.1
      rw [h2] at h1
      have h3 : ({ u1 with Status := models.UpdateStatusError } : UpdateTransaction).ID = id :=
        o4.trans huid
      exact statusOf_congr _ _ _ _ h3 h1

/-- Witness for C21: on the example store the dispatcher accepts device `rhc-1`
and cannot be reached for device `rhc-2`.  Both requests were sent, the error
is returned, the record made for `rhc-1` is still stored for the rollout and
the rollout is stored as Error. -/
theorem C21_transport_error_witness :
    (CreateUpdate exampleEnvUnreachable 1 exampleFreshDB).2 =
      (none, some Err.ErrCollaborator,
        [⟨"rhc-1", getPlaybookURL ⟨"https://edge"⟩ 1, "acc"⟩,
          ⟨"rhc-2", getPlaybookURL ⟨"https://edge"⟩ 1, "acc"⟩]) ∧
    (∀ r ∈ [(⟨1, getPlaybookURL ⟨"https://edge"⟩ 1, 1,
          some ⟨1, "acc", "rhc-1", "abc", "old", true, 0, false⟩,
          DispatchRecordStatus.Created, "run-rhc-1"⟩ : DispatchRecord)],
      r.storedFor 1 (CreateUpdate exampleEnvUnreachable 1 exampleFreshDB).1) ∧
    (CreateUpdate exampleEnvUnreachable 1 exampleFreshDB).1.statusOf 1 =
      some models.UpdateStatusError :=
  have h := C21_transport_error exampleEnvUnreachable 1 exampleFreshDB
    (exampleFreshDB.FindUpdate 1 UpdateStatus.Building) ⟨"repo"⟩
    (getPlaybookURL ⟨"https://edge"⟩ 1)
    ⟨1, "acc", 1, none, [], [], UpdateStatus.Created⟩ 1
    ⟨1, "acc", 1, some ⟨1, "ost"⟩,
      [⟨1, "acc", "rhc-1", "abc", "old", false, 0, false⟩,
        ⟨2, "acc", "rhc-2", "abc", "old", false, 0, false⟩],
      [⟨1, getPlaybookURL ⟨"https://edge"⟩ 1, 1,
          some ⟨1, "acc", "rhc-1", "abc", "old", true, 0, false⟩,
          DispatchRecordStatus.Created, "run-rhc-1"⟩],
      UpdateStatus.Building⟩
    "rhc-2" [] Err.ErrCollaborator
    (by decide) (by decide) rfl rfl rfl rfl
    ⟨by decide, fun _ hr => nomatch hr⟩
    (by decide) rfl rfl
  ⟨h.1, h.2.2.2.1, h.2.2.2.2 rfl⟩
/-- C22, as stated, fails: the dispatcher answers each of the two requests with
two responses; the fan-out completes without error and the rollout of two
devices, which had no dispatch record, carries four, two for device 1 and two
for device 2. -/
theorem C22_counterexample :
    (CreateUpdate exampleEnvTwice 1 exampleFreshDB).2.2.1 = none ∧
    (exampleFreshDB.FindUpdate 1 UpdateStatus.Building).DispatchRecords = [] ∧
    (CreateUpdate exampleEnvTwice 1 exampleFreshDB).2.1.map
        (fun u => (u.Devices.map (fun d => d.ID),
          u.DispatchRecords.map (fun r => r.DeviceID))) = some ([1, 2], [1, 1, 2, 2]) := by
  decide

/-- C22, amended: when no dispatcher call and no save of the update fails, a
call of `CreateUpdate` on a rollout whose devices and prior records have
primary keys appends one dispatch record per response of the dispatcher, after
the records the rollout had (which are kept as they are): in the order of the
devices and, for each device, of its responses, each new record gets a primary
key, has the primary key of the device the request was sent for as its
`DeviceID`, points to that device, and carries the playbook URL, the status
and the dispatcher id that the response fixes.  The devices of the rollout are
left as they were.  When the dispatcher answers every request with exactly one
response, there are as many new records as devices, the i-th new record
references the i-th device, and the new records reference distinct devices
when the devices of the rollout are distinct. -/
theorem C22_one_record_per_response (env : CreateEnv) (id : Nat) (db : DB)
    (update : UpdateTransaction) (repo : Repo) (playbookURL : String)
    (resp : DispatcherPayload → List DispatcherResponse)
    (hb : env.build = .ok (update, some repo))
    (ht : WriteTemplate env.cfg env.template
        ⟨"rhel-edge", repo.URL, repo.URL, "false", update.ID⟩ update.Account =
      .ok playbookURL)
    (hex : ∀ p, env.ExecuteDispatcher p = .ok (resp p))
    (hsave : ∀ i, (env.statusFaults i).saveUpdate = false)
    (hsaved : ∀ r ∈ update.DispatchRecords, r.saved)
    (hdev : ∀ d ∈ update.Devices, d.ID ≠ 0) :
    ∃ u1 new,
      (CreateUpdate env id db).2.1 = some u1 ∧
      (CreateUpdate env id db).2.2.1 = none ∧
      u1.DispatchRecords = update.DispatchRecords ++ new ∧
      u1.Devices = update.Devices ∧
      (∀ r ∈ new, r.ID ≠ 0) ∧
      new.map (fun r => ({ r with ID := 0 } : DispatchRecord)) =
        update.Devices.flatMap (fun d =>
          (resp ⟨d.RHCClientID, playbookURL, update.Account⟩).map
            (responseRecord playbookURL
              ((resp ⟨d.RHCClientID, playbookURL, update.Account⟩).foldl markConnected d))) ∧
      new.map (fun r => (r.DeviceID, r.Device.map (fun v => v.ID))) =
        update.Devices.flatMap (fun d =>
          (resp ⟨d.RHCClientID, playbookURL, update.Account⟩).map
            (fun _ => (d.ID, some d.ID))) ∧
      ((∀ p, (resp p).length = 1) →
        new.length = update.Devices.length ∧
        new.map (fun r => (r.DeviceID, r.Device.map (fun v => v.ID))) =
          update.Devices.map (fun d => (d.ID, some d.ID)) ∧
        ((update.Devices.map (fun d => d.ID)).Nodup →
          (new.map (fun r => r.DeviceID)).Nodup)) := by
  have hex2 : ∀ p, ∃ exc, env.ExecuteDispatcher p = .ok exc := fun p => ⟨_, hex p⟩
  rw [CreateUpdate_eq_fanOut env id db update repo playbookURL hb ht]
  obtain ⟨u1, new, g1, g2, g3, g4, g5⟩ := CreateUpdate.fanOut_records env playbookURL resp hex
    hsave update.Devices.length 0 update (CreateUpdate.begin env id db) (by omega) hsaved hdev
  have q2 := (CreateUpdate.fanOut_requests env playbookURL hex2 hsave
    update.Devices.length 0 update (CreateUpdate.begin env id db) (by omega)).2
  rw [List.drop_zero] at g4
  have hproj : new.map (fun r => (r.DeviceID, r.Device.map (fun v => v.ID))) =
      (new.map (fun r => ({ r with ID := 0 } : DispatchRecord))).map
        (fun r => (r.DeviceID, r.Device.map (fun v => v.ID))) := by
    rw [List.map_map]
    rfl
  refine ⟨u1, new, g1, q2, g2, g3, g5, g4, ?_, fun h1 => ?_⟩
  · rw [hproj, g4]
    exact flatMap_device_ids playbookURL update.Account resp update.Devices
  · have g6 : new.map (fun r => (r.DeviceID, r.Device.map (fun v => v.ID))) =
        update.Devices.map (fun d => (d.ID, some d.ID)) := by
      rw [hproj, g4]
      exact flatMap_single_response playbookURL update.Account resp h1 update.Devices
    have g7 : new.map (fun r => r.DeviceID) = update.Devices.map (fun d => d.ID) := by
      have := congrArg (List.map (fun t : Nat × Option Nat => t.1)) g6
      simpa [List.map_map, Function.comp_def] using this
    refine ⟨?_, g6, fun hnd => ?_⟩
    · have := congrArg List.length g6
      simpa using this
    · rw [g7]
      exact hnd

/-- Witness for C22: on the example store the dispatcher accepts each of the
two devices with one response; two records are appended, the first for device
1 and the second for device 2. -/
theorem C22_one_record_per_response_witness :
    ∃ u1 new,
      (CreateUpdate (exampleEnv exampleBuilt) 1 exampleFreshDB).2.1 = some u1 ∧
      u1.DispatchRecords = [] ++ new ∧
      new.map (fun r => (r.DeviceID, r.Device.map (fun v => v.ID))) =
        [(1, some 1), (2, some 2)] ∧
      new.length = 2 ∧
      (new.map (fun r => r.DeviceID)).Nodup :=
  match C22_one_record_per_response (exampleEnv exampleBuilt) 1 exampleFreshDB
      (exampleFreshDB.FindUpdate 1 UpdateStatus.Building) ⟨"repo"⟩
      (getPlaybookURL ⟨"https://edge"⟩ 1)
      (fun p => [⟨201, "run-" ++ p.Recipient⟩])
      rfl rfl (fun _ => rfl) (fun _ => rfl) (fun _ hr => nomatch hr) (by decide) with
  | ⟨u1, new, h1, _, h3, _, _, _, _, h8⟩ =>
    ⟨u1, new, h1, h3, (h8 (fun _ => rfl)).2.1, (h8 (fun _ => rfl)).1,
      (h8 (fun _ => rfl)).2.2 (by decide)⟩


/-- C23, as stated, fails: for an update without devices `CreateUpdate` returns
without error a rollout in Building, stored as Building, while
`SetUpdateStatus` computes Success from its (empty) list of dispatch records. -/
theorem C23_counterexample :
    (CreateUpdate (exampleEnv exampleBuiltNoDevice) 1 exampleNoDeviceDB).2 =
      (some ⟨1, "acc", 1, some ⟨1, "ost"⟩, [], [], UpdateStatus.Building⟩, none, []) ∧
    (CreateUpdate (exampleEnv exampleBuiltNoDevice) 1 exampleNoDeviceDB).1.statusOf 1 =
      some models.UpdateStatusBuilding ∧
    (SetUpdateStatus noFaults ⟨1, "acc", 1, some ⟨1, "ost"⟩, [], [], UpdateStatus.Building⟩
        (CreateUpdate (exampleEnv exampleBuiltNoDevice) 1 exampleNoDeviceDB).1).1.Status =
      models.UpdateStatusSuccess := by
  decide

/-- C23, amended: when the update has at least one device and `CreateUpdate`
returns a rollout, the status of that rollout is the one `SetUpdateStatus`
computes from its dispatch records (calling it again leaves the status as it
is), and it is the status stored for the rollout. -/
theorem C23_status_is_aggregated (env : CreateEnv) (id : Nat) (db : DB)
    (update : UpdateTransaction) (repo : Repo) (playbookURL : String)
    (u1 : UpdateTransaction)
    (hb : env.build = .ok (update, some repo))
    (ht : WriteTemplate env.cfg env.template
        ⟨"rhel-edge", repo.URL, repo.URL, "false", update.ID⟩ update.Account =
      .ok playbookURL)
    (hdev : update.Devices ≠ [])
    (hret : (CreateUpdate env id db).2.1 = some u1) :
    (∀ f db2, (SetUpdateStatus f u1 db2).1.Status = u1.Status) ∧
    (CreateUpdate env id db).1.statusOf u1.ID = some u1.Status := by
  unfold CreateUpdate at hret ⊢
  simp only [hb, ht] at hret ⊢
  refine CreateUpdate.fanOut_aggregated env playbookURL _ 0 update _ u1 (Or.inr ?_) hret
  have : 0 < update.Devices.length := List.length_pos.mpr hdev
  omega

/-- Witness for C23: update 1 of the example store with its two devices, both
accepted by the dispatcher; the returned rollout is in Building, which is what
`SetUpdateStatus` computes from two records in Created. -/
theorem C23_status_is_aggregated_witness :
    (SetUpdateStatus noFaults
      ⟨1, "acc", 1, some ⟨1, "ost"⟩,
        [⟨1, "acc", "rhc-1", "abc", "old", false, 0, false⟩,
          ⟨2, "acc", "rhc-2", "abc", "old", false, 0, false⟩],
        [⟨1, getPlaybookURL ⟨"https://edge"⟩ 1, 1,
            some ⟨1, "acc", "rhc-1", "abc", "old", true, 0, false⟩,
            DispatchRecordStatus.Created, "run-rhc-1"⟩,
          ⟨2, getPlaybookURL ⟨"https://edge"⟩ 1, 2,
            some ⟨2, "acc", "rhc-2", "abc", "old", true, 0, false⟩,
            DispatchRecordStatus.Created, "run-rhc-2"⟩],
        UpdateStatus.Building⟩ exampleFreshDB).1.Status = UpdateStatus.Building ∧
    (CreateUpdate (exampleEnv exampleBuilt) 1 exampleFreshDB).1.statusOf 1 =
      some UpdateStatus.Building :=
  have h := C23_status_is_aggregated (exampleEnv exampleBuilt) 1 exampleFreshDB
    (exampleFreshDB.FindUpdate 1 UpdateStatus.Building) ⟨"repo"⟩
    (getPlaybookURL ⟨"https://edge"⟩ 1)
    ⟨1, "acc", 1, some ⟨1, "ost"⟩,
      [⟨1, "acc", "rhc-1", "abc", "old", false, 0, false⟩,
        ⟨2, "acc", "rhc-2", "abc", "old", false, 0, false⟩],
      [⟨1, getPlaybookURL ⟨"https://edge"⟩ 1, 1,
          some ⟨1, "acc", "rhc-1", "abc", "old", true, 0, false⟩,
          DispatchRecordStatus.Created, "run-rhc-1"⟩,
        ⟨2, getPlaybookURL ⟨"https://edge"⟩ 1, 2,
          some ⟨2, "acc", "rhc-2", "abc", "old", true, 0, false⟩,
          DispatchRecordStatus.Created, "run-rhc-2"⟩],
      UpdateStatus.Building⟩
    rfl rfl (by decide) (by decide)
  ⟨h.1 noFaults exampleFreshDB, h.2⟩

/-- C24: the interruption watcher, once the signal has arrived and the reload
has found the row of the update: when the reloaded status is Building it
stores the update as Error (provided the save succeeds), and when the reloaded
status is anything else (Created, Success or Error) it leaves the store
exactly as it was. -/
theorem C24_watcher_marks_building (saveFails : Bool) (update row : UpdateTransaction)
    (db : DB) (hid : update.ID ≠ 0)
    (hrow : db.update_transactions.find? (fun u => u.ID = update.ID) = some row) :
    (row.Status = models.UpdateStatusBuilding → saveFails = false →
      (interruptionWatcher saveFails update db).statusOf update.ID =
        some models.UpdateStatusError) ∧
    (row.Status ≠ models.UpdateStatusBuilding →
      interruptionWatcher saveFails update db = db) := by
  constructor
  · intro hb hs
    unfold interruptionWatcher
    simp only [hrow, hb, hs, if_true, Bool.false_eq_true, if_false]
    have h1 := DB.SaveUpdate_statusOf db
      { update with Account := row.Account, CommitID := row.CommitID,
                    Status := models.UpdateStatusError }
    have h2 := DB.SaveUpdate_id db
      { update with Account := row.Account, CommitID := row.CommitID,
                    Status := models.UpdateStatusError } hid
    rw [h2] at h1
    exact h1
  · intro hb
    unfold interruptionWatcher
    simp only [hrow, if_neg hb]

/-- Witness for C24: update 1 of the example store, reloaded as Building, is
stored as Error; reloaded as Success, the store stays as it was. -/
theorem C24_watcher_marks_building_witness :
    (interruptionWatcher false ⟨1, "acc", 1, none, [], [], UpdateStatus.Building⟩
        (exampleDB false .Created .Created .Building)).statusOf 1 =
      some models.UpdateStatusError ∧
    interruptionWatcher false ⟨1, "acc", 1, none, [], [], UpdateStatus.Building⟩
        (exampleDB false .Complete .Complete .Success) =
      exampleDB false .Complete .Complete .Success :=
  ⟨(C24_watcher_marks_building false ⟨1, "acc", 1, none, [], [], UpdateStatus.Building⟩
      ⟨1, "acc", 1, none, [], [], UpdateStatus.Building⟩
      (exampleDB false .Created .Created .Building) (by decide) rfl).1 rfl rfl,
    (C24_watcher_marks_building false ⟨1, "acc", 1, none, [], [], UpdateStatus.Building⟩
      ⟨1, "acc", 1, none, [], [], UpdateStatus.Success⟩
      (exampleDB false .Complete .Complete .Success) (by decide) rfl).2 (by decide)⟩

/-- C25, the code at the failing input: the event bus is enabled, the producer
is created and `Produce` reports an error.  The call returns the notification
together with the nil `err` of `kafka.NewProducer`, not the error of `Produce`;
the update and the store are as before. -/
theorem C25_publish_failure_returns_nil (cfg : NotificationConfig) (now broker : String)
    (brokers : List String) (perr : Err) (i : UpdateTransaction) (db : DB) :
    ∃ notify,
      SendDeviceNotification cfg
          ⟨now, true, broker :: brokers, fun _ => none, fun _ _ => some perr⟩ i db =
        (i, db, NotifyOutcome.returned notify none) :=
  ⟨_, rfl⟩

/-- C26: when the query does not fail, `ValidateUpdateSelection` returns true
exactly when the images of the account whose id is among `imageIds` have one
and the same image set, and there is such an image; it returns false for the
empty list of ids and whenever no id is the id of an image of the account; and
two lists with the same members, in whatever order and with whatever
repetitions, give the same result. -/
theorem C26_validate_selection (account : String) (imageIds ids2 : List Nat) (db : DB) :
    ((ValidateUpdateSelection false account imageIds db).1 = true ↔
      ∃ imageSetID,
        (∃ i ∈ db.images, i.ID ∈ imageIds ∧ i.Account = account ∧
          i.ImageSetID = imageSetID) ∧
        ∀ i ∈ db.images, i.ID ∈ imageIds → i.Account = account →
          i.ImageSetID = imageSetID) ∧
    (ValidateUpdateSelection false account imageIds db).2 = none ∧
    ValidateUpdateSelection false account [] db = (false, none) ∧
    ((∀ i ∈ db.images, i.ID ∈ imageIds → i.Account ≠ account) →
      ValidateUpdateSelection false account imageIds db = (false, none)) ∧
    ((∀ x, x ∈ imageIds ↔ x ∈ ids2) →
      ValidateUpdateSelection false account imageIds db =
        ValidateUpdateSelection false account ids2 db) := by
  refine ⟨ValidateUpdateSelection_iff account imageIds db, rfl, ?_, ?_, ?_⟩
  · unfold ValidateUpdateSelection
    simp
  · intro h
    have hf : db.images.filter (fun i => i.ID ∈ imageIds ∧ i.Account = account) = [] := by
      rw [List.filter_eq_nil_iff]
      intro i hi hp
      have hp2 : i.ID ∈ imageIds ∧ i.Account = account := by simpa using hp
      exact h i hi hp2.1 hp2.2
    unfold ValidateUpdateSelection
    simp only [Bool.false_eq_true, if_false, hf]
    rfl
  · intro h
    have hf : db.images.filter (fun i => i.ID ∈ imageIds ∧ i.Account = account) =
        db.images.filter (fun i => i.ID ∈ ids2 ∧ i.Account = account) := by
      apply List.filter_congr
      intro i _
      simp only [h i.ID]
    unfold ValidateUpdateSelection
    simp only [Bool.false_eq_true, if_false, hf]

/-- Witness for C26: in the example store the ids 1 and 2 and the ids 2, 1, 1
give the same result, and the ids 4 and 99, which are ids of no image of
account `acc`, give false. -/
theorem C26_validate_selection_witness :
    ValidateUpdateSelection false "acc" [1, 2] exampleImagesDB =
      ValidateUpdateSelection false "acc" [2, 1, 1] exampleImagesDB ∧
    ValidateUpdateSelection false "acc" [4, 99] exampleImagesDB = (false, none) :=
  ⟨(C26_validate_selection "acc" [1, 2] [2, 1, 1] exampleImagesDB).2.2.2.2
      (fun x => by simp [or_comm]),
    (C26_validate_selection "acc" [4, 99] [] exampleImagesDB).2.2.2.1 (by decide)⟩

/-- C27, the code at the failing input: an event with the empty dispatcher id
and status failure sets dispatch record 1 to Error, although that record
carries the dispatcher id `run-1`. -/
theorem C27_empty_id_changes_first_record :
    (exampleDB false .Created .Created .Building).dispatch_records.map
        (fun r => (r.ID, r.PlaybookDispatcherID, r.Status)) =
      [(1, "run-1", DispatchRecordStatus.Created), (2, "run-2", DispatchRecordStatus.Created)] ∧
    (ProcessPlaybookDispatcherRunEvent exampleService noFaults
        (decodesTo (exampleEvent "" "failure")) []
        ⟨exampleDB false .Created .Created .Building, 0⟩).1.db.dispatch_records.map
        (fun r => (r.ID, r.PlaybookDispatcherID, r.Status)) =
      [(1, "run-1", DispatchRecordStatus.Error), (2, "run-2", DispatchRecordStatus.Created)] := by
  decide

/-- C28, the code at the failing input: for the message `null` the decoding
reports no error and leaves the event pointer nil, and reading its payload
panics; the call returns neither nil nor an error. -/
theorem C28_null_payload_panics (s : UpdateService) (f : Faults)
    (decode : List Nat → Except Err PlaybookDispatcherEvent) (w : World) :
    jsonUnmarshal decode jsonNull = .ok none ∧
    ProcessPlaybookDispatcherRunEvent s f (jsonUnmarshal decode) jsonNull w =
      (w, Outcome.panic) :=
  ⟨rfl, rfl⟩
end EdgeAPI
